import Mathlib

/-!
Verification development for the panel_ops repository.

This file gives a shallow embedding, in Lean 4, of the parts of the
panel_ops code base (ops/check.py, ops/utils.py, ops/generate.py,
ops/hardcoded_tests.py) that the frozen claims C1..C10 are about, and
settles each claim against the embedding.

Modelling conventions:
* Python dicts that are used in insertion order are modelled as
  association lists (List (key × value)); Python sets whose observable
  behaviour is membership and cardinality are modelled as duplicate-free
  lists built with an insert-if-absent union.
* SQLAlchemy sessions are modelled by a DB structure holding the rows of
  every table the checks query; query(...).one() is modelled by one?,
  which fails (Except.error) unless exactly one row matches, as the
  Python call raises.
* Fallible Python code (KeyError, IndexError, ValueError, TypeError,
  raised exceptions) is modelled in the Except String monad.
* Machine floats only ever arise from float(version_string) on short
  dotted decimal strings; on that domain Python float comparison agrees
  with exact rational comparison, so pyFloat parses into ℚ.
-/

/-- infixOfB decides whether the first character list occurs contiguously
inside the second. -/
def infixOfB (n : List Char) : List Char → Bool
  | [] => n.isEmpty
  | c :: cs => n.isPrefixOf (c :: cs) || infixOfB n cs

/-- pyIn models the Python substring test, the expression a in b for strings. -/
def pyIn (needle hay : String) : Bool := infixOfB needle.data hay.data

/-- splitOnChar splits a character list on a separator character, keeping
empty segments, the way Python str.split on a one-character separator does
(and String.splitOn with a one-character separator). -/
def splitOnChar (c : Char) : List Char → List (List Char)
  | [] => [[]]
  | x :: xs =>
    if x = c then [] :: splitOnChar c xs
    else
      match splitOnChar c xs with
      | [] => [[x]]
      | y :: ys => (x :: y) :: ys

/-- pySplit is Python str.split on a one-character separator. -/
def pySplit (c : Char) (s : String) : List String :=
  (splitOnChar c s.data).map String.mk

/-- pyStrip models Python str.strip: whitespace removed from both ends. -/
def pyStrip (s : String) : String :=
  String.mk (((s.data.dropWhile Char.isWhitespace).reverse.dropWhile Char.isWhitespace).reverse)

/-- lowerStr lowercases a string characterwise. -/
def lowerStr (s : String) : String := String.mk (s.data.map Char.toLower)

/-- startsWithB decides a string prefix on the character lists. -/
def startsWithB (pre s : String) : Bool := pre.data.isPrefixOf s.data

/-- endsWithB decides a string suffix on the character lists. -/
def endsWithB (suf s : String) : Bool := suf.data.isSuffixOf s.data

/-- sIntercalate joins strings with a separator. -/
def sIntercalate (sep : String) : List String → String
  | [] => ""
  | [x] => x
  | x :: y :: xs => x ++ sep ++ sIntercalate sep (y :: xs)

/-- digitsValAux accumulates the numeric value of a digit string, failing on a non-digit. -/
def digitsValAux : List Char → Nat → Option Nat
  | [], acc => some acc
  | c :: cs, acc => if c.isDigit then digitsValAux cs (acc * 10 + (c.toNat - 48)) else none

/-- digitsVal? is the numeric value of a nonempty all-digit character list, none otherwise. -/
def digitsVal? (l : List Char) : Option Nat :=
  match l with
  | [] => none
  | _ => digitsValAux l 0

/-- Dec10 is an exact nonnegative decimal: num over ten to the exp. -/
structure Dec10 where
  num : Nat
  exp : Nat
deriving DecidableEq, Repr

/-- dec10Eq is value equality of exact decimals (cross-multiplied). -/
def dec10Eq (a b : Dec10) : Bool := a.num * 10 ^ b.exp == b.num * 10 ^ a.exp

/-- pyFloat models Python float(s) on the digit-and-dot fragment that version
strings inhabit: an optional integer part and an optional fraction part
separated by one dot, at least one of them present.  Strings outside this
fragment (two dots, letters, signs, exponents) are modelled as a parse
failure, as float() raises ValueError on dotted version strings such as
1.2.3.  Parsing is exact: on the short decimal strings that appear as panel
versions, IEEE-754 double equality coincides with exact decimal equality. -/
def pyFloat (s : String) : Option Dec10 :=
  match splitOnChar '.' s.data with
  | [a] => (digitsVal? a).map (fun n => ⟨n, 0⟩)
  | [a, b] =>
    if a.isEmpty && b.isEmpty then none
    else
      match digitsValAux a 0, digitsValAux b 0 with
      | some i, some f =>
        if a.all Char.isDigit && b.all Char.isDigit then
          some ⟨i * 10 ^ b.length + f, b.length⟩
        else none
      | _, _ => none
  | _ => none

/-- vparse models packaging.version.parse on the dotted-digit fragment of
PEP 440 that panel versions inhabit: the release tuple, one natural number
per dot-separated component.  Other inputs are modelled as failure. -/
def vparse (s : String) : Option (List Nat) :=
  (splitOnChar '.' s.data).mapM (fun c => digitsVal? c)

/-- vcmpNil compares the empty release tuple with another tuple: equal when
the other is all zeros, below it otherwise. -/
def vcmpNil : List Nat → Ordering
  | [] => .eq
  | b0 :: bs => if b0 == 0 then vcmpNil bs else .lt

/-- vcmp compares two release tuples the way packaging compares Version
objects: componentwise numerically, the shorter tuple padded with zeros. -/
def vcmp : List Nat → List Nat → Ordering
  | [], b => vcmpNil b
  | a0 :: xs, [] => if a0 == 0 then vcmp xs [] else .gt
  | a0 :: xs, b0 :: bs => if a0 < b0 then .lt else if b0 < a0 then .gt else vcmp xs bs

/-- veq is semantic-version equality (packaging Version equality). -/
def veq (a b : List Nat) : Bool := vcmp a b == Ordering.eq

/-- vle is the semantic-version non-strict order. -/
def vle (a b : List Nat) : Bool := vcmp a b != Ordering.gt

/-- pyMaxV models Python max over Version objects: the running maximum is
replaced only by a strictly greater element, so the first maximal element
is kept. -/
def pyMaxV (v : List Nat) (vs : List (List Nat)) : List Nat :=
  vs.foldl (fun cur x => if vcmp cur x == Ordering.lt then x else cur) v

/-- vrender models str() of a packaging Version built from a release tuple. -/
def vrender (v : List Nat) : String := sIntercalate "." (v.map toString)

/-- sinsert adds a string to a set modelled as a duplicate-free list. -/
def sinsert (s : List String) (x : String) : List String := if x ∈ s then s else s ++ [x]

/-- sunion models Python set.update. -/
def sunion (s : List String) (xs : List String) : List String := xs.foldl sinsert s

/-- dedupNat models SQL DISTINCT over a list of integer keys. -/
def dedupNat (xs : List Nat) : List Nat :=
  xs.foldl (fun acc x => if x ∈ acc then acc else acc ++ [x]) []

/-- one? models SQLAlchemy query(...).one(): exactly one row or an exception. -/
def one? {α : Type} (xs : List α) : Except String α :=
  match xs with
  | [x] => Except.ok x
  | [] => Except.error "sqlalchemy NoResultFound: no row was found when one was required"
  | _ => Except.error "sqlalchemy MultipleResultsFound: multiple rows were found"

/-- keyed? models a Python dict subscript that raises KeyError when absent. -/
def keyed? {α : Type} (m : List (String × α)) (k : String) : Except String α :=
  match m.lookup k with
  | some v => Except.ok v
  | none => Except.error ("KeyError: " ++ k)

/-- orExcept turns an Option into an Except with the given error message. -/
def orExcept {α : Type} (o : Option α) (msg : String) : Except String α :=
  match o with
  | some v => Except.ok v
  | none => Except.error msg

/-- startsDigitOrPlus models regex.match of the character class of digits and
plus against a string: true iff the first character is a digit or a plus. -/
def startsDigitOrPlus (s : String) : Bool :=
  match s.data with
  | [] => false
  | c :: _ => c.isDigit || c == '+'

/-- dropLast3 models the Python slice s[:-3] (used to strip the _SG suffix). -/
def dropLast3 (s : String) : String := ⟨s.data.take (s.data.length - 3)⟩

/-- parenNumAt recognises, at the head of a character list, an opening
parenthesis followed by one or more digits followed by a closing
parenthesis, returning the digits. -/
def parenNumAt : List Char → Option (List Char)
  | '(' :: rest =>
    let digits := rest.takeWhile Char.isDigit
    if !digits.isEmpty && (rest.drop digits.length).head? == some ')' then some digits else none
  | _ => none

/-- findParenNum models regex.search for a parenthesised run of digits,
already stripped of the parentheses as the caller does with strip. -/
def findParenNum : List Char → Option String
  | [] => none
  | c :: cs =>
    match parenNumAt (c :: cs) with
    | some ds => some (String.mk ds)
    | none => findParenNum cs

/-- renderStrList is a stand-in for the Python repr of a list of strings
interpolated into a log message (quotes omitted). -/
def renderStrList (xs : List String) : String :=
  "[" ++ sIntercalate ", " xs ++ "]"

/-! Dump-side data model: the dictionaries produced by utils.create_panelapp_dict
and utils.clean_targets, which both the builder and the reconciliation engine
consume. -/

/-- PanelEntry models one value of panelapp_dict (a normal or single-gene panel). -/
structure PanelEntry where
  name : String := ""
  version : String := ""
  signedoff : Option String := none
  ptype : String := ""
  genes : List String := []
deriving DecidableEq, Repr

/-- SubpanelEntry models one value of the subpanels sub-dict of a superpanel. -/
structure SubpanelEntry where
  name : String := ""
  id : String := ""
  version : String := ""
deriving DecidableEq, Repr

/-- SuperpanelEntry models one value of superpanel_dict. -/
structure SuperpanelEntry where
  subpanels : List (String × SubpanelEntry) := []
  name : String := ""
  version : String := ""
  signedoff : String := ""
  ptype : String := ""
deriving DecidableEq, Repr

/-- GDEntry models one value of gene_dict built by create_panelapp_dict. -/
structure GDEntry where
  check : Bool := false
  symbol : Option String := none
deriving DecidableEq, Repr

/-- CIData models one value of the clean_clinind_data dict built by
clean_targets; panels and genes are optional because the corresponding dict
keys exist only once something was appended under them (or the hardcoded
table set them). -/
structure CIData where
  name : String := ""
  version : String := ""
  method : Option String := none
  gemini_name : String := ""
  panels : Option (List String) := none
  genes : Option (List String) := none
  tests : List String := []
deriving DecidableEq, Repr

/-! Store-side data model: rows of the tables that check.py queries through
SQLAlchemy, one structure per table. -/

/-- CIRow models a row of the clinical_indication table. -/
structure CIRow where
  pk : Nat := 0
  ci_id : String := ""
  name : String := ""
  version : String := ""
  gemini_name : String := ""
deriving DecidableEq, Repr

/-- CIPanelRow models a row of the clinical_indication_panels link table. -/
structure CIPanelRow where
  pk : Nat := 0
  ci_id : Nat := 0
  panel_id : Nat := 0
deriving DecidableEq, Repr

/-- PanelRow models a row of the panel table. -/
structure PanelRow where
  pk : Nat := 0
  panelapp_id : String := ""
  name : String := ""
  panel_type_id : Nat := 0
deriving DecidableEq, Repr

/-- PanelFeatureRow models a row of the panel_features link table. -/
structure PanelFeatureRow where
  panel_id : Nat := 0
  feature_id : Nat := 0
  panel_version : String := ""
deriving DecidableEq, Repr

/-- FeatureRow models a row of the feature table. -/
structure FeatureRow where
  pk : Nat := 0
  feature_type_id : Nat := 0
  gene_id : Option Nat := none
deriving DecidableEq, Repr

/-- GeneRow models a row of the gene table. -/
structure GeneRow where
  pk : Nat := 0
  hgnc_id : String := ""
deriving DecidableEq, Repr

/-- G2TRow models a row of the genes2transcripts table, in the column order
the check unpacks: pk, clinical_transcript, date, gene_id, reference_id,
transcript_id. -/
structure G2TRow where
  pk : Nat := 0
  clinical_transcript : Bool := false
  date : String := ""
  gene_id : Nat := 0
  reference_id : Nat := 0
  transcript_id : Nat := 0
deriving DecidableEq, Repr

/-- TranscriptRow models a row of the transcript table; canonical is the raw
stored integer, interpreted as False for 0, True for 1, None otherwise. -/
structure TranscriptRow where
  pk : Nat := 0
  refseq_base : String := ""
  version : String := ""
  canonical : Nat := 0
deriving DecidableEq, Repr

/-- DB models the relational store as seen by the reconciliation engine. -/
structure DB where
  clinical_indication : List CIRow := []
  clinical_indication_panels : List CIPanelRow := []
  panel : List PanelRow := []
  panel_type : List (Nat × String) := []
  panel_features : List PanelFeatureRow := []
  feature : List FeatureRow := []
  feature_type : List (Nat × String) := []
  gene : List GeneRow := []
  genes2transcripts : List G2TRow := []
  transcript : List TranscriptRow := []
deriving DecidableEq, Repr

/-- G2TData models the parsed genes2transcripts dump: hgnc id to transcript
name to the pair (clinical_transcript status, canonical status). -/
abbrev G2TData := List (String × List (String × (Bool × Bool)))

/-- g2tLookup models g2t_data subscripting under its defaultdict semantics:
a missing gene yields the empty transcript dict. -/
def g2tLookup (g : G2TData) (h : String) : List (String × (Bool × Bool)) :=
  (g.lookup h).getD []

/-- paGenes models the expression panelapp_dict[k described by key] genes under
defaultdict semantics: a missing panel key yields the empty gene set. -/
def paGenes (pd : List (String × PanelEntry)) (k : String) : List String :=
  match pd.lookup k with
  | some e => e.genes
  | none => []

/-! Embedding of check.py.  Log message texts are reproduced up to ASCII
punctuation (apostrophes are avoided) and up to the rendering of non-string
objects that the source appends to its log, each of which becomes exactly one
rendered string so the shape and count of the log is preserved. -/

/-- check_feature models check.py check_feature: resolve the hgnc id behind a
feature primary key and report it when it is not among the gathered ids. -/
def check_feature (db : DB) (feature_pk : Nat) (hgnc_ids : List String) :
    Except String (Option String) := do
  let hgnc_id ← one? (db.gene.flatMap (fun g =>
    (db.feature.filter (fun f => f.gene_id == some g.pk && f.pk == feature_pk)).map
      (fun _ => g.hgnc_id)))
  if hgnc_id ∈ hgnc_ids then
    return none
  else
    return some ("Gene " ++ hgnc_id ++ " is not in the genes gathered in the panelapp dump: "
      ++ renderStrList hgnc_ids)

/-- check_feature_type models check.py check_feature_type. -/
def check_feature_type (db : DB) (expected_feature_type : String) (feature_pk : Nat) :
    Except String (Option String) := do
  let ftype ← one? (db.feature_type.flatMap (fun t =>
    (db.feature.filter (fun f => f.feature_type_id == t.1 && f.pk == feature_pk)).map
      (fun _ => t.2)))
  if ftype ≠ expected_feature_type then
    return some ("The feature type " ++ ftype ++ " associated with feature "
      ++ toString feature_pk ++ " is not the expected feature type " ++ expected_feature_type)
  else
    return none

/-- mkVersionNeqMsg is the per-link version discrepancy message. -/
def mkVersionNeqMsg (v pv : String) : String :=
  "Version of panel used for features are not equal: " ++ v ++ " (db) vs " ++ pv ++ " (dump)"

/-- check_p2f_row models the body of the loop in check_panel2features: the
float comparison of the two version strings, then the feature check, then the
feature type check. -/
def check_p2f_row (db : DB) (hgnc_ids : List String) (panel_version : String)
    (row : Nat × String) : Except String (List String) := do
  let fv ← orExcept (pyFloat row.2) "ValueError: could not convert string to float"
  let pv ← orExcept (pyFloat panel_version) "ValueError: could not convert string to float"
  let l1 := if dec10Eq fv pv = false then [mkVersionNeqMsg row.2 panel_version] else []
  let fmsg ← check_feature db row.1 hgnc_ids
  let l2 := match fmsg with | some m => [m] | none => []
  let ftmsg ← check_feature_type db "gene" row.1
  let l3 := match ftmsg with | some m => [m] | none => []
  return l1 ++ l2 ++ l3

/-- mkP2FCountMsg is the gene count discrepancy message of check_panel2features. -/
def mkP2FCountMsg (nGenes nDb : Nat) : String :=
  "Discrepancy between the number of genes in the panelapp dump (" ++ toString nGenes
    ++ ") vs in the db (" ++ toString nDb ++ ")"

/-- check_panel2features models check.py check_panel2features. -/
def check_panel2features (db : DB) (rows : List (Nat × String)) (hgnc_ids : List String)
    (panel_version : String) : Except String (List String) := do
  let head := if rows.length ≠ hgnc_ids.length then [mkP2FCountMsg hgnc_ids.length rows.length] else []
  let rest ← rows.mapM (check_p2f_row db hgnc_ids panel_version)
  return head ++ rest.flatten

/-- PanelLogEntry models the per-panel defaultdict of the panel error log:
an errors list and a feature_errors list. -/
structure PanelLogEntry where
  errors : List String := []
  feature_errors : List String := []
deriving DecidableEq, Repr

/-- RowOutcome is the contribution of one stored panel row to the panel log:
either the row is missing from the dump, or it was compared attribute by
attribute and feature by feature. -/
inductive RowOutcome where
  | missing (msg : String)
  | present (errors : List String) (feature_errors : List String)
deriving DecidableEq, Repr

/-- panelLogAddError appends an error message under a panel key, creating the
entry on demand as the Python defaultdict does. -/
def panelLogAddError (log : List (String × PanelLogEntry)) (k : String) (msg : String) :
    List (String × PanelLogEntry) :=
  match log with
  | [] => [(k, { errors := [msg] })]
  | (k0, e) :: rest =>
    if k0 = k then (k0, { e with errors := e.errors ++ [msg] }) :: rest
    else (k0, e) :: panelLogAddError rest k msg

/-- panelLogSetFeatures assigns the feature_errors list under a panel key,
creating the entry on demand; assignment overwrites, as in the source. -/
def panelLogSetFeatures (log : List (String × PanelLogEntry)) (k : String) (msgs : List String) :
    List (String × PanelLogEntry) :=
  match log with
  | [] => [(k, { feature_errors := msgs })]
  | (k0, e) :: rest =>
    if k0 = k then (k0, { e with feature_errors := msgs }) :: rest
    else (k0, e) :: panelLogSetFeatures rest k msgs

/-- applyRowOutcome folds one row outcome into the panel log. -/
def applyRowOutcome (log : List (String × PanelLogEntry)) (k : String) :
    RowOutcome → List (String × PanelLogEntry)
  | .missing m => panelLogAddError log k m
  | .present errs fes =>
    panelLogSetFeatures (errs.foldl (fun l m => panelLogAddError l k m) log) k fes

/-- hgncIdsFor is the gene set a stored panel row is checked against: the dump
gene set for a regular panel, and for a superpanel the union, over the
subpanels recorded in the dump, of the subpanel gene sets (check.py lines
354-365); the stored side contributes nothing to it. -/
def hgncIdsFor (pd : List (String × PanelEntry)) (sd : List (String × SuperpanelEntry))
    (panelapp_id : String) : List String :=
  match pd.lookup panelapp_id with
  | some e => e.genes
  | none =>
    match sd.lookup panelapp_id with
    | some sp => sp.subpanels.foldl (fun acc sub => sunion acc (paGenes pd sub.1)) []
    | none => []

/-- mkPanelMissingMsg is the message for a stored panel absent from the dump. -/
def mkPanelMissingMsg (panelapp_id : String) : String :=
  "Panel " ++ panelapp_id ++ " does not exist in the panelapp data"

/-- mkPanelDataMsg is the name discrepancy message of check_panels. -/
def mkPanelDataMsg (panelapp_id : String) : String :=
  "Data associated with the panel " ++ panelapp_id ++ " is not correct. Check the logs for more info"

/-- mkPanelTypeMsg is the panel type discrepancy message of check_panels. -/
def mkPanelTypeMsg (dump_type db_type : String) : String :=
  "Panel type in the panelapp dump (" ++ dump_type ++ ") and stored in the db ("
    ++ db_type ++ ") are different"

/-- check_panel_row models one iteration of the stored-panels loop of
check_panels: a row missing from both dump dicts is reported and skipped;
otherwise name, panel type and the panel-feature links are compared. -/
def check_panel_row (db : DB) (pd : List (String × PanelEntry))
    (sd : List (String × SuperpanelEntry)) (row : PanelRow) : Except String RowOutcome := do
  if (pd.lookup row.panelapp_id).isNone && (sd.lookup row.panelapp_id).isNone then
    return .missing (mkPanelMissingMsg row.panelapp_id)
  else do
    let (pname, ptype, pversion) ←
      match pd.lookup row.panelapp_id with
      | some e => pure (e.name, e.ptype, e.version)
      | none =>
        match sd.lookup row.panelapp_id with
        | some sp => pure (sp.name, sp.ptype, sp.version)
        | none => throw "Panel broke through the check"
    let hgnc_ids := hgncIdsFor pd sd row.panelapp_id
    let nameErrs := if row.name ≠ pname then [mkPanelDataMsg row.panelapp_id, row.name ++ " != " ++ pname] else []
    let db_type ← one? ((db.panel_type.filter (fun t => t.1 == row.panel_type_id)).map Prod.snd)
    let typeErrs := if db_type ≠ ptype then [mkPanelTypeMsg ptype db_type] else []
    let rows := (db.panel_features.filter (fun f => f.panel_id == row.pk)).map
      (fun f => (f.feature_id, f.panel_version))
    let feature_log ← check_panel2features db rows hgnc_ids pversion
    return .present (nameErrs ++ typeErrs) feature_log

/-- mkPanelCountMsg is the global panel count discrepancy message. -/
def mkPanelCountMsg (npd nsd ndb : Nat) : String :=
  "Number of panels in the panelapp dump and the database different: " ++ toString npd
    ++ " (panel) + " ++ toString nsd ++ " (superpanel) vs " ++ toString ndb ++ " (db)"

/-- check_panels models check.py check_panels: a global count comparison plus
a per-stored-row comparison accumulated in a panel-keyed log. -/
def check_panels (db : DB) (pd : List (String × PanelEntry))
    (sd : List (String × SuperpanelEntry)) :
    Except String (Option String × List (String × PanelLogEntry)) := do
  let nb_error := if pd.length + sd.length ≠ db.panel.length
    then some (mkPanelCountMsg pd.length sd.length db.panel.length) else none
  let log ← db.panel.foldlM (fun log row => do
    let oc ← check_panel_row db pd sd row
    return applyRowOutcome log row.panelapp_id oc) []
  return (nb_error, log)

/-- resolve_hd_tests models the alias resolution of check_clinical_indications:
every test-directory code containing an alias target as a substring. -/
def resolve_hd_tests (ci2targets : List (String × CIData)) (tests : List String) : List String :=
  tests.flatMap (fun test => (ci2targets.map Prod.fst).filter (fun r => pyIn test r))

/-- alias_features folds the resolved replacement indications into the
feature set (genes, plus the genes of each replacement panel) and the
replacement panel set, as check.py lines 191-202 do. -/
def aliasStep (ci2targets : List (String × CIData)) (pd : List (String × PanelEntry))
    (acc : List String × List String) (hd_test : String) : List String × List String :=
  match ci2targets.lookup hd_test with
  | none => acc
  | some d =>
    let features := match d.genes with | some gs => sunion acc.1 gs | none => acc.1
    match d.panels with
    | some ps => (ps.foldl (fun fs p => sunion fs (paGenes pd p)) features, sunion acc.2 ps)
    | none => (features, acc.2)

def alias_features (ci2targets : List (String × CIData)) (pd : List (String × PanelEntry))
    (hd_tests : List String) : List String × List String :=
  hd_tests.foldl (aliasStep ci2targets pd) ([], [])

/-- normal_features models the non-alias feature gathering of
check_clinical_indications: single genes plus, for each target panel, either
the union of its subpanel gene sets when it is a superpanel or its own gene
set. -/
def normal_features (pd : List (String × PanelEntry)) (sd : List (String × SuperpanelEntry))
    (d : CIData) : List String :=
  let fs := match d.genes with | some gs => sunion [] gs | none => []
  match d.panels with
  | some ps => ps.foldl (fun fs p =>
      match sd.lookup p with
      | some sp => sp.subpanels.foldl (fun fs sub => sunion fs (paGenes pd sub.1)) fs
      | none => sunion fs (paGenes pd p)) fs
  | none => fs

/-- ciDbPanels models the join query for the panel primary keys linked to a
clinical indication. -/
def ciDbPanels (db : DB) (ci_pk : Nat) : List Nat :=
  (db.panel.filter (fun p => db.clinical_indication_panels.any
    (fun l => l.ci_id == ci_pk && l.panel_id == p.pk))).map (fun p => p.pk)

/-- ciDbFeatures models the DISTINCT feature ids of the panel_features rows of
the given panels. -/
def ciDbFeatures (db : DB) (panels : List Nat) : List Nat :=
  dedupNat ((db.panel_features.filter (fun f => panels.contains f.panel_id)).map
    (fun f => f.feature_id))

/-- mkNotPresentMsg is the per-link discrepancy header message. -/
def mkNotPresentMsg (name : String) : String :=
  name ++ ": Panelapp id not present in data gathered from the test directory"

/-- renderNatList renders a list of integer keys in a log message. -/
def renderNatList (xs : List Nat) : String :=
  "[" ++ sIntercalate ", " (xs.map toString) ++ "]"

/-- ci_link_row models one iteration of the clinical-indication link loop: the
panelapp id behind the linked panel is resolved, classified as catalog id or
single-gene panel by its first character, and looked up in the alias panel
set, the target panels or the target genes respectively. -/
def ci_link_row (db : DB) (d : CIData) (hd_panels : List String) (msg : String)
    (link : CIPanelRow) : Except String (List String) := do
  let panelapp_id ← one? ((db.panel.filter (fun p => p.pk == link.panel_id)).map
    (fun p => p.panelapp_id))
  if startsDigitOrPlus panelapp_id then
    if d.tests ≠ [] then
      if panelapp_id ∈ hd_panels then return []
      else do
        let ps ← orExcept d.panels "KeyError: panels"
        return [msg, panelapp_id ++ " not in " ++ renderStrList ps]
    else do
      let ps ← orExcept d.panels "KeyError: panels"
      if panelapp_id ∈ ps then return []
      else return [msg, panelapp_id ++ " not in " ++ renderStrList ps]
  else do
    let gs ← orExcept d.genes "KeyError: genes"
    if dropLast3 panelapp_id ∈ gs then return []
    else return [msg, panelapp_id ++ " not in " ++ renderStrList gs]

/-- mkCICountMsg is the clinical indication count discrepancy message. -/
def mkCICountMsg (nt ndb : Nat) : String :=
  "Number of tests in the test directory and the database different: " ++ toString nt
    ++ " (test) vs " ++ toString ndb ++ " (db)"

/-- mkCINotExistMsg is the message for a stored test code absent from the
test directory. -/
def mkCINotExistMsg (ci_id : String) : String :=
  "Clinical indication " ++ ci_id ++ " does not exist in the test directory"

/-- ciAttrMsg is the attribute discrepancy message. -/
def ciAttrMsg : String :=
  "Discrepancy between data gathered from test directory and stored detected please check the logs for more info"

/-- renderCIData renders a test directory entry appended to the log. -/
def renderCIData (d : CIData) : String :=
  "test directory data: " ++ d.name ++ " / " ++ d.version ++ " / " ++ d.gemini_name

/-- renderCIRow renders a stored clinical indication row appended to the log. -/
def renderCIRow (r : CIRow) : String :=
  "stored data: " ++ r.ci_id ++ " / " ++ r.name ++ " / " ++ r.version ++ " / " ++ r.gemini_name

/-- mkCIFeatCountMsg is the per-indication feature count discrepancy message. -/
def mkCIFeatCountMsg (ci_pk nf ndb : Nat) : String :=
  "Clinical_indication " ++ toString ci_pk ++ ": Number of panels gathered (" ++ toString nf
    ++ ") is not equal to the amount stored (" ++ toString ndb ++ ")"

/-- process_ci_row models one iteration of the stored clinical indication loop
of check_clinical_indications. -/
def process_ci_row (db : DB) (ci2targets : List (String × CIData))
    (pd : List (String × PanelEntry)) (sd : List (String × SuperpanelEntry))
    (row : CIRow) : Except String (List String) := do
  match ci2targets.lookup row.ci_id with
  | none => return [mkCINotExistMsg row.ci_id]
  | some data => do
    let attrLog := if data.name ≠ row.name ∨ data.version ≠ row.version ∨ data.gemini_name ≠ row.gemini_name
      then [ciAttrMsg, renderCIData data, renderCIRow row] else []
    let (features, hd_panels) :=
      if data.tests ≠ [] then alias_features ci2targets pd (resolve_hd_tests ci2targets data.tests)
      else (normal_features pd sd data, [])
    let db_panels := ciDbPanels db row.pk
    let db_features := ciDbFeatures db db_panels
    let featLog := if features.length ≠ db_features.length then
        [mkCIFeatCountMsg row.pk features.length db_features.length]
        ++ (if data.panels.isSome then ["Genes in panels:", renderStrList features] else [])
        ++ (if data.genes.isSome then ["Single genes", renderStrList (data.genes.getD [])] else [])
        ++ ["Links stored in the database", renderNatList db_features]
      else []
    let msg := mkNotPresentMsg row.name
    let linkLogs ← (db.clinical_indication_panels.filter (fun l => l.ci_id == row.pk)).mapM
      (ci_link_row db data hd_panels msg)
    return attrLog ++ featLog ++ linkLogs.flatten

/-- check_clinical_indications models check.py check_clinical_indications. -/
def check_clinical_indications (db : DB) (ci2targets : List (String × CIData))
    (pd : List (String × PanelEntry)) (sd : List (String × SuperpanelEntry)) :
    Except String (List String) := do
  let head := if ci2targets.length ≠ db.clinical_indication.length
    then [mkCICountMsg ci2targets.length db.clinical_indication.length] else []
  let rest ← db.clinical_indication.mapM (process_ci_row db ci2targets pd sd)
  return head ++ rest.flatten

/-- pyCanonical models the 0 / 1 / other decoding of the stored canonical flag
into False / True / None. -/
def pyCanonical (n : Nat) : Option Bool :=
  if n == 0 then some false else if n == 1 then some true else none

/-- pyBoolStr renders a Python bool in a message. -/
def pyBoolStr (b : Bool) : String := if b then "True" else "False"

/-- renderOptBool renders True / False / None in a message. -/
def renderOptBool : Option Bool → String
  | some b => pyBoolStr b
  | none => "None"

/-- dumpClinicalTx is the first transcript of a gene flagged as clinical in
the genes2transcripts dump, if any. -/
def dumpClinicalTx (txs : List (String × (Bool × Bool))) : Option String :=
  ((txs.filter (fun t => t.2.1 == true)).map Prod.fst).head?

/-- mkG2TCountMsg is the per-gene transcript count discrepancy message. -/
def mkG2TCountMsg (h : String) (ndb nd : Nat) : String :=
  h ++ ": Number of transcripts linked to " ++ h ++ " in the database (" ++ toString ndb
    ++ ") not equal to the amount gathered in the nirvana gff (" ++ toString nd ++ ")"

/-- typeErrorJoinMsg is the TypeError raised by joining integer primary keys
with a string separator. -/
def typeErrorJoinMsg : String :=
  "TypeError: sequence item 0: expected str instance, int found"

/-- mkCanonicalMsg is the canonical status discrepancy message. -/
def mkCanonicalMsg (h txKey : String) (cs : Bool) (c : Option Bool) : String :=
  h ++ ", " ++ txKey ++ ": Canonical status between dump (" ++ pyBoolStr cs ++ ") and db ("
    ++ renderOptBool c ++ ") are not equal"

/-- mkClinicalTxMsg is the clinical transcript discrepancy message. -/
def mkClinicalTxMsg (h txKey ct : String) : String :=
  h ++ ", " ++ txKey ++ ": Clinical transcript gathered is " ++ ct ++ " vs db is " ++ txKey

/-- renderG2TDebug renders the per-gene dump data appended to the log after a
missing clinical transcript. -/
def renderG2TDebug (txs : List (String × (Bool × Bool))) : String :=
  "g2t dump data: " ++ sIntercalate ", " (txs.map Prod.fst)

/-- check_g2t_row models one iteration of the per-gene genes2transcripts row
loop of check_g2t: transcript resolution, dump status lookup (a missing
transcript unpacks the defaultdict empty tuple and raises), the clinical
transcript comparison (a missing dump clinical transcript is caught, logged
and ends the iteration), then the canonical status comparison. -/
def check_g2t_row (db : DB) (h : String) (txs : List (String × (Bool × Bool)))
    (row : G2TRow) : Except String (List String) := do
  let tx ← one? (db.transcript.filter (fun t => t.pk == row.transcript_id))
  let txKey := tx.refseq_base ++ "." ++ tx.version
  let statuses ← orExcept (txs.lookup txKey) "ValueError: not enough values to unpack"
  let canonical := pyCanonical tx.canonical
  let canLog := if canonical ≠ some statuses.2 then [mkCanonicalMsg h txKey statuses.2 canonical] else []
  if row.clinical_transcript then
    match dumpClinicalTx txs with
    | none => return [h ++ " has no clinical_transcript", renderG2TDebug txs]
    | some ct =>
      let clinLog := if txKey ≠ ct then [mkClinicalTxMsg h txKey ct] else []
      return clinLog ++ canLog
  else
    return canLog

/-- check_g2t_gene models one iteration of the gene loop of check_g2t.  When
the transcript counts disagree and the stored side has at least one row, the
source formats a log line by joining the integer primary keys it just
selected, which raises TypeError; with no stored rows the join is over an
empty list and succeeds. -/
def check_g2t_gene (db : DB) (g2t_data : G2TData) (h : String) :
    Except String (List String) := do
  let txs := g2tLookup g2t_data h
  let db_g2t := db.genes2transcripts.filter (fun r => db.gene.any
    (fun g => g.pk == r.gene_id && g.hgnc_id == h))
  let countLog ←
    if db_g2t.length ≠ txs.length then
      if db_g2t.isEmpty then
        pure [mkG2TCountMsg h db_g2t.length txs.length,
          "Primary keys of transcripts linked to " ++ h ++ ": ",
          "Transcripts gathered from the nirvana gff: "
            ++ sIntercalate ", " (txs.map Prod.fst)]
      else
        throw typeErrorJoinMsg
    else pure []
  let rowLogs ← db_g2t.mapM (check_g2t_row db h txs)
  return countLog ++ rowLogs.flatten

/-- check_g2t models check.py check_g2t. -/
def check_g2t (db : DB) (gene_dict : List (String × GDEntry)) (g2t_data : G2TData) :
    Except String (List String) := do
  let logs ← gene_dict.mapM (fun kv => check_g2t_gene db g2t_data kv.1)
  return logs.flatten

/-- output_files joins the dump file names for the audit messages. -/
def output_files (files : List (String × String)) : String :=
  sIntercalate ", " (files.map Prod.snd)

/-- mkPanelErrLine formats one panel log line written by check_db. -/
def mkPanelErrLine (panelapp_id error_type error : String) : String :=
  "Panelapp_id " ++ panelapp_id ++ "-" ++ error_type ++ ": " ++ error

/-- panelLogLines flattens the panel log into the lines check_db writes, in
source order: the errors of a panel before its feature errors. -/
def panelLogLines (plog : List (String × PanelLogEntry)) : List String :=
  plog.flatMap (fun kv =>
    (kv.2.errors.map (mkPanelErrLine kv.1 "errors"))
      ++ (kv.2.feature_errors.map (mkPanelErrLine kv.1 "feature_errors")))

/-- checkFailMsg is the single terminating exception message of check_db. -/
def checkFailMsg : String :=
  "Error(s) in the check has been found. Check the check_log for more details"

/-- mkCheckSuccessMsg is the dated confirmation message of a clean run. -/
def mkCheckSuccessMsg (files : List (String × String)) (today : String) : String :=
  "Checking panels from " ++ output_files files ++ " against database on " ++ today ++ ": correct"

/-- check_db models check.py check_db.  The first component is the sequence of
lines written to the check log (the opening info line, then every collected
discrepancy in source order, then the confirmation line on success); the
second is the outcome: ok true on a clean run, the aggregated exception when
discrepancies were collected, or the exception a sub-check raised, in which
case the log holds what had been written up to that point. -/
def check_db (files : List (String × String)) (today : String) (db : DB)
    (pd : List (String × PanelEntry)) (sd : List (String × SuperpanelEntry))
    (gene_dict : List (String × GDEntry)) (g2t_data : G2TData)
    (ci2targets : List (String × CIData)) : List String × Except String Bool :=
  let log0 := ["Checking database against " ++ output_files files]
  match check_clinical_indications db ci2targets pd sd with
  | .error e => (log0, .error e)
  | .ok ci_errors =>
    match check_panels db pd sd with
    | .error e => (log0 ++ ci_errors, .error e)
    | .ok (global_panel_errors, panel_errors) =>
      let gl := match global_panel_errors with | some m => [m] | none => []
      match check_g2t db gene_dict g2t_data with
      | .error e => (log0 ++ ci_errors ++ gl, .error e)
      | .ok g2t_errors =>
        let errs := ci_errors ++ gl ++ g2t_errors ++ panelLogLines panel_errors
        if errs ≠ [] then (log0 ++ errs, .error checkFailMsg)
        else (log0 ++ errs ++ [mkCheckSuccessMsg files today], .ok true)

/-! Embedding of utils.py create_panelapp_dict.  The filesystem input is
modelled as the directory contents: folders in listing order, each file with
its name and its lines, each line already stripped and split on tabs. -/

/-- DumpFile models one file of a panelapp dump folder. -/
structure DumpFile where
  fname : String := ""
  lines : List (List String) := []
deriving DecidableEq, Repr

/-- DumpFolder models one dump folder given to create_panelapp_dict. -/
structure DumpFolder where
  path : String := ""
  files : List DumpFile := []
deriving DecidableEq, Repr

/-- alistUpdate models subscripting a Python defaultdict and mutating the
resulting entry: the entry is created from the default on first sighting and
updated in place (insertion order preserved) afterwards. -/
def alistUpdate {α : Type} (m : List (String × α)) (k : String) (dflt : α) (f : α → α) :
    List (String × α) :=
  match m with
  | [] => [(k, f dflt)]
  | (k0, v) :: rest => if k0 = k then (k0, f v) :: rest else (k0, v) :: alistUpdate rest k dflt f

/-- get_panel_type models utils.get_panel_type: the last configured panel type
whose name occurs (case-insensitively) in the folder name, an error when none
does. -/
def get_panel_type (type_panels : List String) (dump_folder : String) : Except String String :=
  let assigned := type_panels.foldl (fun acc t =>
    if pyIn (lowerStr t) (lowerStr dump_folder) then some t else acc) none
  match assigned with
  | some t => Except.ok t
  | none => Except.error
      ("Could not find the panel_type using the dump folder name: " ++ dump_folder)

/-- PADicts bundles the three dictionaries create_panelapp_dict builds. -/
structure PADicts where
  panelapp : List (String × PanelEntry) := []
  superpanel : List (String × SuperpanelEntry) := []
  gene : List (String × GDEntry) := []
deriving DecidableEq, Repr

/-- parseNormalLine models the unpacking of the first five tab fields of a
normal panel line; too few fields raise ValueError. -/
def parseNormalLine (fields : List String) :
    Except String (String × String × String × String × String × List String) :=
  match fields with
  | panel_name :: panel_id :: version :: signedoff :: entity_type :: rest =>
    Except.ok (panel_name, panel_id, version, signedoff, entity_type, rest)
  | _ => Except.error "ValueError: not enough values to unpack"

/-- process_normal_line models one line of a normal panel file: the panel
attributes are (re)assigned unconditionally, so a later duplicate row for the
same panel id overwrites name, version and signedoff; a gene row additionally
adds the hgnc id to the panel gene set and seeds gene_dict. -/
def process_normal_line (type_panels : List String) (dump_folder : String)
    (st : PADicts) (fields : List String) : Except String PADicts := do
  let (panel_name, panel_id, version, signedoff, entity_type, rest) ← parseNormalLine fields
  let ptype ← get_panel_type type_panels dump_folder
  let st := { st with panelapp := alistUpdate st.panelapp panel_id {} (fun e =>
    { e with name := panel_name, version := version, signedoff := some signedoff, ptype := ptype }) }
  if entity_type = "gene" then
    match rest with
    | [gene, hgnc_id] =>
      let st := { st with panelapp := alistUpdate st.panelapp panel_id {} (fun e =>
        { e with genes := sinsert e.genes hgnc_id }) }
      return { st with gene := alistUpdate st.gene hgnc_id {} (fun g =>
        { g with check := false, symbol := some gene }) }
    | _ => throw "ValueError: unexpected number of gene fields"
  else
    return st

/-- process_superpanel_line models one line of a superpanel file: exactly
seven tab fields, the subpanel entry and the superpanel attributes assigned
unconditionally. -/
def process_superpanel_line (type_panels : List String) (dump_folder : String)
    (st : PADicts) (fields : List String) : Except String PADicts := do
  match fields with
  | [panel_id, panel_name, panel_version, panel_signedoff, subpanel_id, subpanel, version] => do
    let ptype ← get_panel_type type_panels dump_folder
    return { st with superpanel := alistUpdate st.superpanel panel_id {} (fun su =>
      { su with
        subpanels := alistUpdate su.subpanels subpanel_id {}
          (fun sp => { sp with name := subpanel, id := subpanel_id, version := version }),
        name := panel_name, version := panel_version,
        signedoff := panel_signedoff, ptype := ptype }) }
  | _ => throw "ValueError: wrong number of superpanel fields"

/-- process_dump_file dispatches on the superpanel file name suffix. -/
def process_dump_file (type_panels : List String) (dump_folder : String)
    (st : PADicts) (file : DumpFile) : Except String PADicts :=
  if endsWithB "_superpanel.tsv" file.fname then
    file.lines.foldlM (process_superpanel_line type_panels dump_folder) st
  else
    file.lines.foldlM (process_normal_line type_panels dump_folder) st

/-- process_dump_folder folds the files of one folder. -/
def process_dump_folder (type_panels : List String) (st : PADicts) (folder : DumpFolder) :
    Except String PADicts :=
  folder.files.foldlM (process_dump_file type_panels folder.path) st

/-- add_single_gene models one iteration of the single-gene loop of
create_panelapp_dict: the synthetic panel keyed by the hgnc id with the _SG
suffix, named with the _SG_panel suffix, version 1.0, signedoff None, panel
type single_gene, and the gene added to its gene set. -/
def add_single_gene (st : PADicts) (hgnc_id : String) : PADicts :=
  let sg := hgnc_id ++ "_SG"
  let st := { st with panelapp := alistUpdate st.panelapp sg {} (fun e =>
    { e with name := sg ++ "_panel", version := "1.0", signedoff := none,
             ptype := "single_gene", genes := sinsert e.genes hgnc_id }) }
  { st with gene := alistUpdate st.gene hgnc_id {} (fun g => { g with check := false }) }

/-- create_panelapp_dict models utils.create_panelapp_dict: the file pass over
every dump folder, then the single-gene pass. -/
def create_panelapp_dict (dump_folders : List DumpFolder) (type_panels : List String)
    (single_genes : List String) : Except String PADicts := do
  let st ← dump_folders.foldlM (process_dump_folder type_panels) {}
  return single_genes.foldl add_single_gene st

/-! Embedding of utils.py clean_targets and ops/hardcoded_tests.py. -/

/-- HdTest models one value of the hardcoded tests table. -/
structure HdTest where
  gemini_name : String := ""
  panels : List String := []
  tests : List String := []
deriving DecidableEq, Repr

/-- hardcoded_tests embeds ops/hardcoded_tests.py verbatim. -/
def hardcoded_tests : List (String × HdTest) :=
  [("R27.1",
    { gemini_name := "R27.1a_Congenital malformation and dysmorphism syndromes - microarray and sequencing (DDG2P)_P",
      panels := ["484"], tests := [] }),
   ("R266.1",
    { gemini_name := "R266.1_Neuromuscular_arthrogryposis",
      panels := [], tests := ["R80", "R81", "R83"] })]

/-- RawCI models one value of the clinind_data dict parse_test_directory
hands to clean_targets. -/
structure RawCI where
  name : String := ""
  targets : String := ""
  method : String := ""
  version : String := ""
deriving DecidableEq, Repr

/-- methodOf models the WES / panel / gene method abbreviation; none models
the defaultdict default when no branch assigned a method. -/
def methodOf (method : String) : Option String :=
  if pyIn "WES" method then some "P"
  else if pyIn "panel" method then some "P"
  else if pyIn "gene" method then some "G"
  else none

/-- renderMethod renders the cleaned method into the gemini name; the
defaultdict default renders as an empty list literal. -/
def renderMethod : Option String → String
  | some m => m
  | none => "[]"

/-- TargetAcc accumulates the per-test effects of the target loop: panel and
gene target lists (the dict keys exist only once appended to) and the
occurrences of the test code appended to ci_to_remove. -/
structure TargetAcc where
  panels : Option (List String) := none
  genes : Option (List String) := none
  removals : List String := []
deriving DecidableEq, Repr

/-- optAppend appends under a dict key that is created on first append. -/
def optAppend (o : Option (List String)) (x : String) : Option (List String) :=
  match o with
  | some xs => some (xs ++ [x])
  | none => some [x]

/-- process_target models one iteration of the target loop of clean_targets.
A target containing Relevant is recorded for removal; otherwise a target
starting with As is recorded for removal and still processed; a parenthesised
number is a panel target; anything else goes through the external hgnc id
lookup (the oracle hq), a failed lookup being recorded for removal. -/
def process_target (hq : String → Option String) (test_code : String)
    (acc : TargetAcc) (indiv_target0 : String) : TargetAcc :=
  let indiv_target := pyStrip indiv_target0
  if pyIn "Relevant" indiv_target then
    { acc with removals := acc.removals ++ [test_code] }
  else
    let acc := if startsWithB "As " indiv_target then
      { acc with removals := acc.removals ++ [test_code] } else acc
    match findParenNum indiv_target.data with
    | some pid => { acc with panels := optAppend acc.panels pid }
    | none =>
      match hq (pyStrip indiv_target) with
      | some g => { acc with genes := optAppend acc.genes g }
      | none => { acc with removals := acc.removals ++ [test_code] }

/-- removeFirst models Python list.remove: drop the first occurrence. -/
def removeFirst (xs : List String) (x : String) : List String :=
  match xs with
  | [] => []
  | y :: ys => if y = x then ys else y :: removeFirst ys x

/-- CleanState is the state of the clean_targets loop: the output dict and
the global ci_to_remove list. -/
structure CleanState where
  data : List (String × CIData) := []
  ci_to_remove : List String := []
deriving DecidableEq, Repr

/-- process_test_code models one iteration of the test-code loop of
clean_targets: the attributes and gemini name are assembled, the targets
parsed, and a hardcoded test code overwrites its panels, gemini_name and
tests with the table values and cancels one (only one) recorded removal. -/
def process_test_code (hq : String → Option String) (hd : List (String × HdTest))
    (st : CleanState) (tc : String) (raw : RawCI) : CleanState :=
  let method := methodOf raw.method
  let gemini := tc ++ "_" ++ raw.name ++ "_" ++ renderMethod method
  let tacc := (pySplit ';' raw.targets).foldl (process_target hq tc) ({} : TargetAcc)
  let d0 : CIData :=
    { name := raw.name, version := raw.version, method := method,
      gemini_name := gemini, panels := tacc.panels, genes := tacc.genes, tests := [] }
  let combined := st.ci_to_remove ++ tacc.removals
  match hd.lookup tc with
  | some h =>
    let removals := if tc ∈ combined then removeFirst combined tc else combined
    let d := { d0 with panels := some h.panels, gemini_name := h.gemini_name, tests := h.tests }
    { data := st.data ++ [(tc, d)], ci_to_remove := removals }
  | none =>
    { data := st.data ++ [(tc, d0)], ci_to_remove := combined }

/-- popAll models the final pops of clean_targets that drop every removed
test code from the output dict. -/
def popAll (data : List (String × CIData)) (keys : List String) : List (String × CIData) :=
  keys.foldl (fun d k => d.filter (fun kv => kv.1 != k)) data

/-- clean_targets models utils.clean_targets, parameterised by the external
hgnc lookup oracle. -/
def clean_targets (hq : String → Option String) (clinind_data : List (String × RawCI)) :
    List (String × CIData) :=
  let st := clinind_data.foldl (fun st kv => process_test_code hq hardcoded_tests st kv.1 kv.2)
    ({} : CleanState)
  popAll st.data st.ci_to_remove

/-! Embedding of the django-json builder parts of utils.py that the claims
touch: gather_superpanel_data_django_json, gather_clinical_indication_data_
django_json and get_clinical_indication_through_genes.  Primary keys of the
emitted objects are modelled as naturals (the source interconverts the
stringified and integer forms of the same number). -/

/-- PanelObj models a Panel json object of the utils builder. -/
structure PanelObj where
  pk : Nat := 0
  panelapp_id : String := ""
  name : String := ""
  panel_type_id : Nat := 0
deriving DecidableEq, Repr

/-- PFLink models a PanelFeatures json object. -/
structure PFLink where
  pk : Nat := 0
  panel_version : String := ""
  description : String := ""
  panel_id : Nat := 0
  feature_id : Nat := 0
deriving DecidableEq, Repr

/-- get_existing_pk_by models utils.get_existing_object_pk for a given field
accessor: exactly one object must match the queried value. -/
def get_existing_pk_by {α : Type} (objs : List α) (f : α → String) (v : String)
    (pk : α → Nat) : Except String Nat :=
  match objs.filter (fun o => f o == v) with
  | [o] => Except.ok (pk o)
  | [] => Except.error ("Could not find object using value " ++ v)
  | _ => Except.error ("Ambiguous search found more than 1 result using value " ++ v)

/-- get_links models utils.get_links on the panel_id field: the matching link
objects, an error when there is none. -/
def get_links (links : List PFLink) (panel_id : Nat) : Except String (List PFLink) :=
  match links.filter (fun l => l.panel_id == panel_id) with
  | [] => Except.error ("Could not find object using field panel_id and value " ++ toString panel_id)
  | ls => Except.ok ls

/-- add_panel_feature models utils.add_panel_feature. -/
def add_panel_feature (pk : Nat) (panel_pk : Nat) (version : String) (feature_pk : Nat) : PFLink :=
  { pk := pk, panel_version := version, description := "", panel_id := panel_pk,
    feature_id := feature_pk }

/-- copy_feature models the body of the panel2features loop of
gather_superpanel_data_django_json: a new link from the superpanel to the
feature is appended only when no link with the same panel id, feature id and
panel version already exists. -/
def copy_feature (st : List PFLink × Nat) (spk : Nat) (ver : String) (fpk : Nat) :
    List PFLink × Nat :=
  let existing := st.1.filter (fun o => o.panel_id == spk && o.feature_id == fpk
    && o.panel_version == ver)
  if existing.isEmpty then (st.1 ++ [add_panel_feature (st.2 + 1) spk ver fpk], st.2 + 1)
  else st

/-- process_subpanel models one iteration of the subpanel loop: resolve the
subpanel primary key in the (current) panel json, snapshot its links, and
copy each of them onto the superpanel. -/
def process_subpanel (panel_json : List PanelObj) (spk : Nat) (ver : String)
    (st : List PFLink × Nat) (sub : SubpanelEntry) : Except String (List PFLink × Nat) := do
  let subpanel_pk ← get_existing_pk_by panel_json (fun o => o.panelapp_id) sub.id (fun o => o.pk)
  let p2f ← get_links st.1 subpanel_pk
  return p2f.foldl (fun s pf => copy_feature s spk ver pf.feature_id) st

/-- process_superpanel models one iteration of the superpanel loop: create
the superpanel Panel object, then copy forward the links of each subpanel. -/
def process_superpanel (paneltype_json : List (Nat × String))
    (acc : List PanelObj × List PFLink × Nat) (spk : Nat) (sid : String)
    (sdata : SuperpanelEntry) : Except String (List PanelObj × List PFLink × Nat) := do
  let panel_type_pk ← get_existing_pk_by paneltype_json Prod.snd sdata.ptype Prod.fst
  let spObj : PanelObj :=
    { pk := spk, panelapp_id := sid, name := sdata.name, panel_type_id := panel_type_pk }
  let panel_json := acc.1 ++ [spObj]
  let st ← sdata.subpanels.foldlM
    (fun st sub => process_subpanel panel_json spk sdata.version st sub.2)
    (acc.2.1, acc.2.2)
  return (panel_json, st.1, st.2)

/-- gsd_go folds the superpanels with their enumerated primary keys. -/
def gsd_go (paneltype_json : List (Nat × String)) (entries : List (String × SuperpanelEntry))
    (spk : Nat) (acc : List PanelObj × List PFLink × Nat) :
    Except String (List PanelObj × List PFLink × Nat) :=
  match entries with
  | [] => Except.ok acc
  | (sid, sdata) :: rest => do
    let next ← process_superpanel paneltype_json acc spk sid sdata
    gsd_go paneltype_json rest (spk + 1) next

/-- gather_superpanel_data_django_json models the utils function of the same
name: superpanels are appended as Panel objects with primary keys continuing
after the last panel key, and each one receives the copied-forward feature
links of its subpanels; the final component is the panel_feature key counter. -/
def gather_superpanel_data_django_json (sd : List (String × SuperpanelEntry))
    (panel_json : List PanelObj) (paneltype_json : List (Nat × String))
    (panelfeature_json : List PFLink) (pk_panel : Nat) (pk_pf : Nat) :
    Except String (List PanelObj × List PFLink × Nat) :=
  gsd_go paneltype_json sd (pk_panel + 1) (panel_json, panelfeature_json, pk_pf)

/-- startsDigitOrStar models regex.match of the character class of digits and
star used by the clinical indication builder. -/
def startsDigitOrStar (s : String) : Bool :=
  match s.data with
  | [] => false
  | c :: _ => c.isDigit || c == '*'

/-- panels_gathered_for models the target gathering of
gather_clinical_indication_data_django_json for one test code: an aliased
test (non-empty tests list) accumulates the gene and panel targets of each
replacement indication, resolved by substring over the test codes, a
resolution with more than one match raising and an empty resolution being an
index error; a normal test takes its gene targets and then, when present,
its panel targets (assignment, not accumulation, as in the source). -/
def pgStep (ci2t : List (String × CIData)) (acc : List String) (test : String) :
    Except String (List String) := do
  let hd_tests := (ci2t.map Prod.fst).filter (fun r => pyIn test r)
  if hd_tests.length > 1 then
    throw "Raising this error for when it is going to occur. Check the utils log"
  else do
    let h ← orExcept hd_tests.head? "IndexError: list index out of range"
    let hdata ← keyed? ci2t h
    let acc := match hdata.genes with | some gs => acc ++ gs | none => acc
    let acc := match hdata.panels with | some ps => acc ++ ps | none => acc
    return acc

def panels_gathered_for (ci2t : List (String × CIData)) (d : CIData) :
    Except String (List String) := do
  if d.tests ≠ [] then
    d.tests.foldlM (pgStep ci2t) []
  else do
    let acc := match d.genes with | some gs => gs | none => []
    let acc := match d.panels with | some ps => ps | none => acc
    return acc

/-- ClinIndObj models a ClinicalIndication json object. -/
structure ClinIndObj where
  pk : Nat := 0
  code : String := ""
  name : String := ""
  gemini_name : String := ""
deriving DecidableEq, Repr

/-- CIPanelLinkObj models a ClinicalIndicationPanels json object. -/
structure CIPanelLinkObj where
  pk : Nat := 0
  clinical_indication_id : Nat := 0
  panel_id : Nat := 0
  ci_version : String := ""
deriving DecidableEq, Repr

/-- process_ci_build models one iteration of the test-code loop of
gather_clinical_indication_data_django_json: the indication object (only when
the gemini name is non-empty), the raise on an empty gathered target list,
then one link per gathered target, resolved by panelapp id for catalog
targets and by the synthetic single-gene panel name otherwise. -/
def process_ci_build (panel_json : List PanelObj) (ci2t : List (String × CIData))
    (clin_ind_pk : Nat) (tc : String) (d : CIData)
    (acc : List ClinIndObj × List CIPanelLinkObj × Nat) :
    Except String (List ClinIndObj × List CIPanelLinkObj × Nat) := do
  let cij := if d.gemini_name ≠ "" then
    acc.1 ++ [{ pk := clin_ind_pk, code := tc, name := d.name, gemini_name := d.gemini_name }]
    else acc.1
  let panels_gathered ← panels_gathered_for ci2t d
  if panels_gathered = [] then
    throw ("Could not find panels for " ++ tc)
  else do
    let st ← panels_gathered.foldlM (fun (st : List CIPanelLinkObj × Nat) panel => do
      let panel_pk ←
        if startsDigitOrStar panel then
          get_existing_pk_by panel_json (fun o => o.panelapp_id) panel (fun o => o.pk)
        else
          get_existing_pk_by panel_json (fun o => o.name) (panel ++ "_SG_panel") (fun o => o.pk)
      let link : CIPanelLinkObj :=
        { pk := st.2 + 1, clinical_indication_id := clin_ind_pk,
          panel_id := panel_pk, ci_version := d.version }
      return (st.1 ++ [link], st.2 + 1)) (acc.2.1, acc.2.2)
    return (cij, st.1, st.2)

/-- gci_go folds the test codes with their enumerated primary keys. -/
def gci_go (panel_json : List PanelObj) (ci2t_all : List (String × CIData))
    (entries : List (String × CIData)) (clin_ind_pk : Nat)
    (acc : List ClinIndObj × List CIPanelLinkObj × Nat) :
    Except String (List ClinIndObj × List CIPanelLinkObj × Nat) :=
  match entries with
  | [] => Except.ok acc
  | (tc, d) :: rest => do
    let next ← process_ci_build panel_json ci2t_all clin_ind_pk tc d acc
    gci_go panel_json ci2t_all rest (clin_ind_pk + 1) next

/-- gather_clinical_indication_data_django_json models the utils function of
the same name. -/
def gather_clinical_indication_data_django_json (ci2t : List (String × CIData))
    (panel_json : List PanelObj) (pk_clinind : Nat) (pk_cp : Nat) :
    Except String (List ClinIndObj × List CIPanelLinkObj × Nat) :=
  gci_go panel_json ci2t ci2t (pk_clinind + 1) ([], [], pk_cp)

/-! Embedding of utils.py get_clinical_indication_through_genes. -/

/-- HgncEntry models the two fields of a parsed hgnc dump row that the
gene filters read. -/
structure HgncEntry where
  locus_type : String := ""
  approved_name : String := ""
deriving DecidableEq, Repr

/-- filter_out_gene models utils.filter_out_gene, with the row field accessor
applied at the call site: the match string occurring inside the field value. -/
def filter_out_gene (field_value : String) (string_to_match : String) : Bool :=
  pyIn string_to_match field_value

/-- ciQueryRows models the four-table join of
get_clinical_indication_through_genes: for every panel_features row of the
panel, the tuple (panel name, feature id, panel version, hgnc id). -/
def ciQueryRows (db : DB) (panel_id : Nat) : List (String × Nat × String × String) :=
  db.panel_features.flatMap (fun pf =>
    if pf.panel_id == panel_id then
      db.panel.flatMap (fun p =>
        if p.pk == pf.panel_id then
          db.feature.flatMap (fun f =>
            if f.pk == pf.feature_id then
              db.gene.flatMap (fun g =>
                if f.gene_id == some g.pk then
                  [(p.name, pf.feature_id, pf.panel_version, g.hgnc_id)]
                else [])
            else [])
        else [])
    else [])

/-- processCI models the loop body of get_clinical_indication_through_genes
for one clinical indication row: parse every linked panel version, take the
maximum by semantic-version order, then keep exactly the genes of the links
whose parsed version equals that maximum, minus the RNA, mitochondrial and
hardcoded exclusions.  Returns the latest version, the panel-version output
key, and the gathered hgnc ids. -/
def ciGeneStep (hgnc_data : List (String × HgncEntry)) (latest : List Nat)
    (acc : List String) (pg : String × String × String) : Except String (List String) := do
  let pv ← orExcept (vparse pg.2.1) "packaging InvalidVersion"
  if veq pv latest then do
    let he ← keyed? hgnc_data pg.2.2
    if filter_out_gene he.locus_type "RNA" then return acc
    else if filter_out_gene he.approved_name "mitochondrially encoded" then return acc
    else if pg.2.2 = "HGNC:12029" ∨ pg.2.2 = "HGNC:5541" then return acc
    else return acc ++ [pg.2.2]
  else return acc

def processCI (db : DB) (hgnc_data : List (String × HgncEntry)) (panel_id : Nat) :
    Except String (List Nat × String × List String) := do
  let data := ciQueryRows db panel_id
  let parsed ← data.mapM (fun d => orExcept (vparse d.2.2.1) "packaging InvalidVersion")
  let latest ← match parsed with
    | [] => throw "ValueError: max() arg is an empty sequence"
    | v :: vs => pure (pyMaxV v vs)
  let panel_genes := data.map (fun d => (d.1, d.2.2.1, d.2.2.2))
  let hgnc_ids ← panel_genes.foldlM (ciGeneStep hgnc_data latest) []
  let lastPanel ← orExcept ((panel_genes.map (fun pg => pg.1)).getLast?)
    "NameError: name panel is not defined"
  return (latest, lastPanel ++ "_" ++ vrender latest, hgnc_ids)

/-- g2update models the nested defaultdict update
gemini2genes of gemini name of panel key, set-unioned with the gathered ids. -/
def g2update (m : List (String × List (String × List String))) (g k : String)
    (ids : List String) : List (String × List (String × List String)) :=
  alistUpdate m g [] (fun inner => alistUpdate inner k [] (fun s => sunion s ids))

/-- get_clinical_indication_through_genes models the utils function of the
same name over the rows (gemini name, panel id) it is given. -/
def get_clinical_indication_through_genes (db : DB) (cis : List (String × Nat))
    (hgnc_data : List (String × HgncEntry)) :
    Except String (List (String × List (String × List String))) :=
  cis.foldlM (fun m ci => do
    let r ← processCI db hgnc_data ci.2
    return g2update m ci.1 r.2.1 r.2.2) []

/-! Embedding of generate.py create_django_json.  This is an older variant of
the builder: panels carry genes (as symbols), strs and cnvs; gene_dict maps a
symbol to its hgnc id, clinical transcript and transcript/exon tree.  Primary
keys are naturals (the source emits some foreign keys as stringified and some
as raw integers of the same number; the distinction is erased here).  The
repeated inline create-or-reuse block over region_dict is factored into
get_or_create_region, used at its five occurrence sites. -/

namespace Gen

/-- ExonData models one exon of the transcript tree of gene_dict. -/
structure ExonData where
  chrom : String := ""
  start : String := ""
  end_ : String := ""
deriving DecidableEq, Repr

/-- TxData models one transcript of the transcript tree: its exon dict. -/
structure TxData where
  exons : List (String × ExonData) := []
deriving DecidableEq, Repr

/-- GeneObj models an emitted Gene json object; clinical_transcript starts as
the dump value (a transcript name or None) and may be overwritten with the
primary key of the created clinical transcript. -/
structure GeneObj where
  pk : Nat := 0
  symbol : String := ""
  hgnc_id : String := ""
  clinical_transcript : Option (String ⊕ Nat) := none
deriving DecidableEq, Repr

/-- GeneData models one value of gene_dict; check holds the created Gene
object once the gene has been seen. -/
structure GeneData where
  hgnc_id : String := ""
  clinical : Option String := none
  transcripts : List (String × TxData) := []
  check : Option GeneObj := none
deriving DecidableEq, Repr

/-- StrObj models an emitted Str json object. -/
structure StrObj where
  pk : Nat := 0
  gene : Option Nat := none
  name : String := ""
  repeated_sequence : String := ""
  nb_repeats : String := ""
  nb_pathogenic_repeats : String := ""
deriving DecidableEq, Repr

/-- StrData models one value of str_dict; the two coordinate triples carry
optional start and end, absent coordinates being skipped. -/
structure StrData where
  gene : String := ""
  seq : String := ""
  nb_normal_repeats : String := ""
  nb_pathogenic_repeats : String := ""
  grch37 : String × Option String × Option String := ("", none, none)
  grch38 : String × Option String × Option String := ("", none, none)
  check : Option StrObj := none
deriving DecidableEq, Repr

/-- CnvObj models an emitted Cnv json object. -/
structure CnvObj where
  pk : Nat := 0
  name : String := ""
  variant_type : String := ""
deriving DecidableEq, Repr

/-- CnvData models one value of cnv_dict. -/
structure CnvData where
  vtype : String := ""
  grch37 : String × Option String × Option String := ("", none, none)
  grch38 : String × Option String × Option String := ("", none, none)
  check : Option CnvObj := none
deriving DecidableEq, Repr

/-- GPanelEntry models one value of the panelapp_dict this builder variant
consumes. -/
structure GPanelEntry where
  name : String := ""
  version : String := ""
  signedoff : String := ""
  genes : List String := []
  strs : List String := []
  cnvs : List String := []
deriving DecidableEq, Repr

/-- GPanelObj models an emitted Panel json object. -/
structure GPanelObj where
  pk : Nat := 0
  panelapp_id : String := ""
  name : String := ""
  version : String := ""
  signedoff : String := ""
  is_superpanel : Bool := false
deriving DecidableEq, Repr

/-- TxObj models an emitted Transcript json object. -/
structure TxObj where
  pk : Nat := 0
  refseq : String := ""
  version : String := ""
  gene : Nat := 0
deriving DecidableEq, Repr

/-- ExonObj models an emitted Exon json object. -/
structure ExonObj where
  pk : Nat := 0
  number : String := ""
  transcript : Nat := 0
  region : Nat := 0
deriving DecidableEq, Repr

/-- RegionObj models an emitted Region json object. -/
structure RegionObj where
  pk : Nat := 0
  chrom : String := ""
  start : String := ""
  end_ : String := ""
  reference : Nat := 0
deriving DecidableEq, Repr

/-- PanelGeneObj models an emitted PanelGene link. -/
structure PanelGeneObj where
  pk : Nat := 0
  panel : Nat := 0
  gene : Nat := 0
deriving DecidableEq, Repr

/-- SuperpanelLinkObj models an emitted Superpanel link. -/
structure SuperpanelLinkObj where
  pk : Nat := 0
  superpanel : Nat := 0
  panel : Nat := 0
deriving DecidableEq, Repr

/-- RegionStrObj models an emitted RegionStr link (str_id is the str field). -/
structure RegionStrObj where
  pk : Nat := 0
  region : Nat := 0
  str_id : Nat := 0
deriving DecidableEq, Repr

/-- PanelStrObj models an emitted PanelStr link. -/
structure PanelStrObj where
  pk : Nat := 0
  panel : Nat := 0
  str_id : Nat := 0
deriving DecidableEq, Repr

/-- RegionCnvObj models an emitted RegionCnv link. -/
structure RegionCnvObj where
  pk : Nat := 0
  region : Nat := 0
  cnv_id : Nat := 0
deriving DecidableEq, Repr

/-- PanelCnvObj models an emitted PanelCnv link. -/
structure PanelCnvObj where
  pk : Nat := 0
  panel : Nat := 0
  cnv_id : Nat := 0
deriving DecidableEq, Repr

/-- TestObj models an emitted Test json object. -/
structure TestObj where
  pk : Nat := 0
  test_id : String := ""
  name : String := ""
  method : String := ""
  version : String := ""
  gemini_name : String := ""
deriving DecidableEq, Repr

/-- TestPanelObj models an emitted TestPanel link. -/
structure TestPanelObj where
  pk : Nat := 0
  test : Nat := 0
  panel : Nat := 0
deriving DecidableEq, Repr

/-- TestGeneObj models an emitted TestGene link. -/
structure TestGeneObj where
  pk : Nat := 0
  test : Nat := 0
  gene : Nat := 0
deriving DecidableEq, Repr

/-- RefObj models an emitted Reference json object. -/
structure RefObj where
  pk : Nat := 0
  name : String := ""
deriving DecidableEq, Repr

/-- TestTargets models one value of the test2targets dict this variant
consumes. -/
structure TestTargets where
  method : String := ""
  gemini_name : String := ""
  panels : List String := []
  genes : List String := []
deriving DecidableEq, Repr

/-- PkCounters models pk_dict. -/
structure PkCounters where
  reference : Nat := 0
  panel : Nat := 0
  gene : Nat := 0
  transcript : Nat := 0
  region : Nat := 0
  exon : Nat := 0
  panelgene : Nat := 0
  superpanel : Nat := 0
  strCnt : Nat := 0
  regionstr : Nat := 0
  panelstr : Nat := 0
  cnv : Nat := 0
  regioncnv : Nat := 0
  panelcnv : Nat := 0
  test : Nat := 0
  testpanel : Nat := 0
  testgene : Nat := 0
deriving DecidableEq, Repr

/-- RegionKey is the natural key of region_dict: chromosome, reference build
name, start, end. -/
abbrev RegionKey := String × String × String × String

/-- rdFind models the nested region_dict lookup (False meaning unseen). -/
def rdFind (rd : List (RegionKey × RegionObj)) (k : RegionKey) : Option RegionObj :=
  match rd.find? (fun kv => kv.1 == k) with
  | some kv => some kv.2
  | none => none

/-- GenState is the builder state of create_django_json: the memo dicts and
every output list, appended to in program order. -/
structure GenState where
  pk : PkCounters := {}
  gene_dict : List (String × GeneData) := []
  str_dict : List (String × StrData) := []
  cnv_dict : List (String × CnvData) := []
  region_dict : List (RegionKey × RegionObj) := []
  reference_json : List RefObj := []
  panel_json : List GPanelObj := []
  gene_json : List GeneObj := []
  transcript_json : List TxObj := []
  exon_json : List ExonObj := []
  region_json : List RegionObj := []
  panelgene_json : List PanelGeneObj := []
  superpanel_json : List SuperpanelLinkObj := []
  str_json : List StrObj := []
  panelstr_json : List PanelStrObj := []
  regionstr_json : List RegionStrObj := []
  cnv_json : List CnvObj := []
  panelcnv_json : List PanelCnvObj := []
  regioncnv_json : List RegionCnvObj := []
  test_json : List TestObj := []
  testpanel_json : List TestPanelObj := []
  testgene_json : List TestGeneObj := []
deriving DecidableEq, Repr

/-- get_or_create_region models the repeated inline block of
create_django_json: a region key seen before reuses the recorded Region and
its primary key; an unseen key creates the Region with the next region
primary key, appends it and records it in region_dict. -/
def get_or_create_region (st : GenState) (chrom refname : String) (refid : Nat)
    (start end_ : String) : GenState × Nat :=
  match rdFind st.region_dict (chrom, refname, start, end_) with
  | some robj => (st, robj.pk)
  | none =>
    let newpk := st.pk.region + 1
    let robj : RegionObj :=
      { pk := newpk, chrom := chrom, start := start, end_ := end_, reference := refid }
    ({ st with pk := { st.pk with region := newpk },
               region_json := st.region_json ++ [robj],
               region_dict := st.region_dict ++ [((chrom, refname, start, end_), robj)] },
     newpk)

/-- refLookup models the list comprehension over reference_json with the
index zero access; no match is an IndexError. -/
def refLookup (refs : List RefObj) (name : String) : Except String (Nat × String) :=
  match (refs.filter (fun r => r.name == name)).head? with
  | some r => Except.ok (r.pk, r.name)
  | none => Except.error "IndexError: list index out of range"

/-- process_exon models one iteration of the exon loop: region create-or-reuse
on the GRCh37 build, then the Exon object referencing that region. -/
def process_exon (st : GenState) (txpk : Nat) (exon_nb : String) (ed : ExonData) :
    Except String GenState := do
  let (exon_ref_id, exon_ref_name) ← refLookup st.reference_json "GRCh37"
  let (st, region_id) := get_or_create_region st ed.chrom exon_ref_name exon_ref_id ed.start ed.end_
  let newExon : ExonObj :=
    { pk := st.pk.exon + 1, number := exon_nb, transcript := txpk, region := region_id }
  return { st with pk := { st.pk with exon := st.pk.exon + 1 },
                   exon_json := st.exon_json ++ [newExon] }

/-- process_transcript models one iteration of the transcript loop of a newly
seen gene: the Transcript object, the clinical transcript primary key
overwrite when the names match, then the exon loop. -/
def process_transcript (st : GenState) (clinical : Option String) (gobj : GeneObj)
    (tx : String) (td : TxData) : Except String (GenState × GeneObj) := do
  let txpk := st.pk.transcript + 1
  let parts := pySplit '.' tx
  let refseq ← orExcept parts.head? "IndexError: list index out of range"
  let ver ← orExcept (parts.drop 1).head? "IndexError: list index out of range"
  let txObj : TxObj := { pk := txpk, refseq := refseq, version := ver, gene := gobj.pk }
  let st := { st with pk := { st.pk with transcript := txpk },
                      transcript_json := st.transcript_json ++ [txObj] }
  let gobj := if some tx == clinical then
    { gobj with clinical_transcript := some (Sum.inr txpk) } else gobj
  let st ← td.exons.foldlM (fun s ex => process_exon s txpk ex.1 ex.2) st
  return (st, gobj)

/-- process_panel_gene models one iteration of the gene loop of a panel: an
unseen gene is created together with its transcripts, exons and regions and
memoised; a seen gene reuses the memoised object; either way a PanelGene link
is appended. -/
def process_panel_gene (st : GenState) (panel_id : Nat) (gene : String) :
    Except String GenState := do
  let gd ← keyed? st.gene_dict gene
  let (st, gene_id) ←
    match gd.check with
    | none => do
      let gpk := st.pk.gene + 1
      let st := { st with pk := { st.pk with gene := gpk } }
      let gobj : GeneObj :=
        { pk := gpk, symbol := gene, hgnc_id := gd.hgnc_id,
          clinical_transcript := gd.clinical.map Sum.inl }
      let (st, gobj) ← gd.transcripts.foldlM
        (fun (p : GenState × GeneObj) t => process_transcript p.1 gd.clinical p.2 t.1 t.2)
        (st, gobj)
      let st := { st with
        gene_dict := alistUpdate st.gene_dict gene {} (fun g => { g with check := some gobj }),
        gene_json := st.gene_json ++ [gobj] }
      pure (st, gobj.pk)
    | some gobj => pure (st, gobj.pk)
  let pgpk := st.pk.panelgene + 1
  let pg : PanelGeneObj := { pk := pgpk, panel := panel_id, gene := gene_id }
  return { st with pk := { st.pk with panelgene := pgpk },
                   panelgene_json := st.panelgene_json ++ [pg] }

/-- process_panel models one iteration of the panel loop: the Panel object and
its gene loop. -/
def process_panel (st : GenState) (panel_id : Nat) (papp_id : String) (pe : GPanelEntry) :
    Except String GenState := do
  let pobj : GPanelObj :=
    { pk := panel_id, panelapp_id := papp_id, name := pe.name,
      version := pe.version, signedoff := pe.signedoff, is_superpanel := false }
  let st := { st with panel_json := st.panel_json ++ [pobj] }
  pe.genes.foldlM (fun s g => process_panel_gene s panel_id g) st

/-- process_panels models the first panel loop, panel ids enumerated from the
panel counter. -/
def process_panels (st : GenState) (panelapp_dict : List (String × GPanelEntry)) :
    Except String GenState := do
  let r ← panelapp_dict.foldlM (fun (acc : GenState × Nat) kv => do
      let st ← process_panel acc.1 acc.2 kv.1 kv.2
      return (st, acc.2 + 1)) (st, st.pk.panel)
  return r.1

/-- process_superpanel_entry models one iteration of the superpanel loop:
resolve every subpanel primary key (index zero of a comprehension, an
IndexError when absent), append the superpanel Panel object, then one
Superpanel link per subpanel. -/
def process_superpanel_entry (st : GenState) (superpanel_id : Nat) (sid : String)
    (sdata : SuperpanelEntry) : Except String GenState := do
  let subpanel_pks ← sdata.subpanels.mapM (fun sub =>
    orExcept (((st.panel_json.filter (fun p => p.panelapp_id == sub.2.id)).map
      (fun p => p.pk)).head?) "IndexError: list index out of range")
  let pobj : GPanelObj :=
    { pk := superpanel_id, panelapp_id := sid, name := sdata.name,
      version := sdata.version, signedoff := sdata.signedoff, is_superpanel := true }
  let st := { st with panel_json := st.panel_json ++ [pobj] }
  return subpanel_pks.foldl (fun s sub_pk =>
    let spk := s.pk.superpanel + 1
    { s with pk := { s.pk with superpanel := spk },
             superpanel_json := s.superpanel_json ++
               [{ pk := spk, superpanel := superpanel_id, panel := sub_pk }] }) st

/-- process_superpanels models the superpanel loop; its enumerate starts from
the last panel id plus one, which is a NameError when no panel was built. -/
def process_superpanels (st : GenState) (panelapp_dict : List (String × GPanelEntry))
    (superpanel_dict : List (String × SuperpanelEntry)) : Except String GenState := do
  if panelapp_dict.isEmpty then
    throw "NameError: name panel_id is not defined"
  else do
    let r ← superpanel_dict.foldlM (fun (acc : GenState × Nat) kv => do
      let st ← process_superpanel_entry acc.1 acc.2 kv.1 kv.2
      return (st, acc.2 + 1)) (st, st.pk.panel + panelapp_dict.length)
    return r.1

/-- strRegionBlock models one build-specific region block of the str branch:
the reference row is looked up first; when both coordinates are present the
region is created or reused and a RegionStr link appended; absent coordinates
are skipped, not defaulted. -/
def strRegionBlock (st : GenState) (refname : String)
    (coords : String × Option String × Option String) (str_pk : Nat) :
    Except String GenState := do
  let (ref_id, ref_name) ← refLookup st.reference_json refname
  match coords.2.1, coords.2.2 with
  | some s0, some e0 =>
    let (st, region_id) := get_or_create_region st coords.1 ref_name ref_id s0 e0
    let rspk := st.pk.regionstr + 1
    return { st with pk := { st.pk with regionstr := rspk },
                     regionstr_json := st.regionstr_json ++
                       [{ pk := rspk, region := region_id, str_id := str_pk }] }
  | _, _ => return st

/-- process_panel_str models one iteration of the str loop of a panel. -/
def process_panel_str (st : GenState) (panel_pk : Nat) (str_name : String) :
    Except String GenState := do
  let sdat ← keyed? st.str_dict str_name
  let str_gene_pk := ((st.gene_json.filter (fun g => g.symbol == sdat.gene)).map
    (fun g => g.pk)).head?
  let (st, str_id) ←
    match sdat.check with
    | none => do
      let spk := st.pk.strCnt + 1
      let sobj : StrObj :=
        { pk := spk, gene := str_gene_pk, name := str_name, repeated_sequence := sdat.seq,
          nb_repeats := sdat.nb_normal_repeats,
          nb_pathogenic_repeats := sdat.nb_pathogenic_repeats }
      let st := { st with pk := { st.pk with strCnt := spk }, str_json := st.str_json ++ [sobj] }
      let st ← strRegionBlock st "GRCh37" sdat.grch37 spk
      let st ← strRegionBlock st "GRCh38" sdat.grch38 spk
      let sd2 := alistUpdate st.str_dict str_name {} (fun d => { d with check := some sobj })
      let st := { st with str_dict := sd2 }
      pure (st, spk)
    | some sobj => pure (st, sobj.pk)
  let pspk := st.pk.panelstr + 1
  return { st with pk := { st.pk with panelstr := pspk },
                   panelstr_json := st.panelstr_json ++
                     [{ pk := pspk, panel := panel_pk, str_id := str_id }] }

/-- cnvRegionBlock models one build-specific region block of the cnv branch. -/
def cnvRegionBlock (st : GenState) (refname : String)
    (coords : String × Option String × Option String) (cnv_pk : Nat) :
    Except String GenState := do
  let (ref_id, ref_name) ← refLookup st.reference_json refname
  match coords.2.1, coords.2.2 with
  | some s0, some e0 =>
    let (st, region_id) := get_or_create_region st coords.1 ref_name ref_id s0 e0
    let rcpk := st.pk.regioncnv + 1
    return { st with pk := { st.pk with regioncnv := rcpk },
                     regioncnv_json := st.regioncnv_json ++
                       [{ pk := rcpk, region := region_id, cnv_id := cnv_pk }] }
  | _, _ => return st

/-- process_panel_cnv models one iteration of the cnv loop of a panel. -/
def process_panel_cnv (st : GenState) (panel_pk : Nat) (cnv_name : String) :
    Except String GenState := do
  let cdat ← keyed? st.cnv_dict cnv_name
  let (st, cnv_id) ←
    match cdat.check with
    | none => do
      let cpk := st.pk.cnv + 1
      let cobj : CnvObj := { pk := cpk, name := cnv_name, variant_type := cdat.vtype }
      let st := { st with pk := { st.pk with cnv := cpk }, cnv_json := st.cnv_json ++ [cobj] }
      let st ← cnvRegionBlock st "GRCh37" cdat.grch37 cpk
      let st ← cnvRegionBlock st "GRCh38" cdat.grch38 cpk
      let cd2 := alistUpdate st.cnv_dict cnv_name {} (fun d => { d with check := some cobj })
      let st := { st with cnv_dict := cd2 }
      pure (st, cpk)
    | some cobj => pure (st, cobj.pk)
  let pcpk := st.pk.panelcnv + 1
  return { st with pk := { st.pk with panelcnv := pcpk },
                   panelcnv_json := st.panelcnv_json ++
                     [{ pk := pcpk, panel := panel_pk, cnv_id := cnv_id }] }

/-- process_panel_strs_cnvs models one iteration of the second panel loop:
resolve the panel primary key, then the str loop and the cnv loop. -/
def process_panel_strs_cnvs (st : GenState) (papp_id : String) (pe : GPanelEntry) :
    Except String GenState := do
  let panel_pk ← orExcept (((st.panel_json.filter (fun p => p.panelapp_id == papp_id)).map
    (fun p => p.pk)).head?) "IndexError: list index out of range"
  let st ← pe.strs.foldlM (fun s n => process_panel_str s panel_pk n) st
  pe.cnvs.foldlM (fun s n => process_panel_cnv s panel_pk n) st

/-- process_test models one iteration of the test loop: the Test object (the
test code split on the dot resolving the indication name), then a TestPanel
link per resolvable panel target and a TestGene link per resolvable gene
target; unresolvable targets are skipped. -/
def process_test (ci_dict : List (String × String)) (today : String) (st : GenState)
    (test_pk : Nat) (test : String) (tt : TestTargets) : Except String GenState := do
  let (clinind_id, _test_id) ←
    match pySplit '.' test with
    | [a, b] => pure (a, b)
    | _ => throw "ValueError: split of the test code"
  let name ← keyed? ci_dict clinind_id
  let tobj : TestObj :=
    { pk := test_pk, test_id := test, name := name, method := tt.method,
      version := today, gemini_name := tt.gemini_name }
  let st := { st with test_json := st.test_json ++ [tobj] }
  let st := tt.panels.foldl (fun s panel =>
    match ((s.panel_json.filter (fun p => p.panelapp_id == panel)).map (fun p => p.pk)).head? with
    | some ppk =>
      let tppk := s.pk.testpanel + 1
      { s with pk := { s.pk with testpanel := tppk },
               testpanel_json := s.testpanel_json ++ [{ pk := tppk, test := test_pk, panel := ppk }] }
    | none => s) st
  let st := tt.genes.foldl (fun s gene =>
    match ((s.gene_json.filter (fun g => g.symbol == gene)).map (fun g => g.pk)).head? with
    | some gpk =>
      let tgpk := s.pk.testgene + 1
      { s with pk := { s.pk with testgene := tgpk },
               testgene_json := s.testgene_json ++ [{ pk := tgpk, test := test_pk, gene := gpk }] }
    | none => s) st
  return st

/-- create_django_json models generate.py create_django_json: the reference
objects, the panel-gene-transcript-exon-region pass, the superpanel pass, the
str and cnv pass, then the test pass, all threaded through one state. -/
def create_django_json (today : String) (ci_dict : List (String × String))
    (test2targets : List (String × TestTargets))
    (panelapp_dict : List (String × GPanelEntry))
    (superpanel_dict : List (String × SuperpanelEntry))
    (gene_dict : List (String × GeneData)) (str_dict : List (String × StrData))
    (cnv_dict : List (String × CnvData)) (region_dict : List (RegionKey × RegionObj))
    (pk : PkCounters) : Except String GenState := do
  let st0 : GenState :=
    { pk := pk, gene_dict := gene_dict, str_dict := str_dict, cnv_dict := cnv_dict,
      region_dict := region_dict,
      reference_json := [{ pk := pk.reference, name := "GRCh37" },
                         { pk := pk.reference + 1, name := "GRCh38" }] }
  let st1 ← process_panels st0 panelapp_dict
  let st2 ← process_superpanels st1 panelapp_dict superpanel_dict
  let st3 ← panelapp_dict.foldlM (fun s kv => process_panel_strs_cnvs s kv.1 kv.2) st2
  let r ← test2targets.foldlM (fun (acc : GenState × Nat) kv => do
      let s ← process_test ci_dict today acc.1 acc.2 kv.1 kv.2
      return (s, acc.2 + 1)) (st3, st3.pk.test)
  return r.1

end Gen

/-! Basic lemmas about the container helpers. -/

/-- lookup_alistUpdate_self: updating a key makes its lookup the updated value. -/
theorem lookup_alistUpdate_self {α : Type} (m : List (String × α)) (k : String) (d : α) (f : α → α) :
    (alistUpdate m k d f).lookup k = some (f ((m.lookup k).getD d)) := by
  induction m with
  | nil => simp [alistUpdate, List.lookup]
  | cons kv rest ih =>
    obtain ⟨k0, v⟩ := kv
    by_cases h : k0 = k
    · subst h
      simp [alistUpdate, List.lookup]
    · have hb : (k == k0) = false := beq_eq_false_iff_ne.mpr (Ne.symm h)
      simp [alistUpdate, h, List.lookup, hb, ih]

/-- lookup_alistUpdate_ne: updating one key leaves other lookups unchanged. -/
theorem lookup_alistUpdate_ne {α : Type} (m : List (String × α)) (k k2 : String) (d : α)
    (f : α → α) (h : k2 ≠ k) : (alistUpdate m k d f).lookup k2 = m.lookup k2 := by
  have hb : (k2 == k) = false := beq_eq_false_iff_ne.mpr h
  induction m with
  | nil => simp [alistUpdate, List.lookup, hb]
  | cons kv rest ih =>
    obtain ⟨k0, v⟩ := kv
    by_cases h0 : k0 = k
    · subst h0
      simp [alistUpdate, List.lookup, hb]
    · by_cases h2 : k2 = k0
      · subst h2
        simp [alistUpdate, h0, List.lookup]
      · have hb2 : (k2 == k0) = false := beq_eq_false_iff_ne.mpr h2
        simp [alistUpdate, h0, List.lookup, hb2, ih]

/-- mem_sinsert characterises membership after a set insert. -/
theorem mem_sinsert (s : List String) (x y : String) :
    y ∈ sinsert s x ↔ y ∈ s ∨ y = x := by
  by_cases h : x ∈ s
  · simp only [sinsert, if_pos h]
    constructor
    · exact Or.inl
    · rintro (hy | rfl)
      · exact hy
      · exact h
  · simp [sinsert, if_neg h]

/-- mem_sunion characterises membership of a set union. -/
theorem mem_sunion (s : List String) (xs : List String) (y : String) :
    y ∈ sunion s xs ↔ y ∈ s ∨ y ∈ xs := by
  induction xs generalizing s with
  | nil => simp [sunion]
  | cons x rest ih =>
    show y ∈ sunion (sinsert s x) rest ↔ _
    rw [ih, mem_sinsert]
    simp only [List.mem_cons]
    tauto

/-! String head discrimination, used to tell the differently prefixed log
messages apart. -/

/-- sHead is the first character of a string. -/
def sHead (s : String) : Option Char := s.data.head?

/-- sHead_append_left: the head of an append with a nonempty left part. -/
theorem sHead_append_left {s : String} {c : Char} (t : String) (h : sHead s = some c) :
    sHead (s ++ t) = some c := by
  unfold sHead at *
  cases hs : s.data with
  | nil => rw [hs] at h; simp at h
  | cons a rest =>
    rw [hs] at h
    simp at h
    show ((s ++ t).data).head? = some c
    rw [String.data_append, hs]
    simp [h]

/-- sHead_ne_of_ne: strings with different heads differ. -/
theorem sHead_ne_of_ne {s t : String} (h : sHead s ≠ sHead t) : s ≠ t := by
  intro he
  exact h (by rw [he])

/-- mkVersionNeqMsg_head: a version discrepancy message starts with V. -/
theorem mkVersionNeqMsg_head (v pv : String) : sHead (mkVersionNeqMsg v pv) = some 'V' := by
  unfold mkVersionNeqMsg
  apply sHead_append_left
  apply sHead_append_left
  apply sHead_append_left
  apply sHead_append_left
  rfl

/-- check_feature_msg_head: a feature discrepancy message starts with G. -/
theorem check_feature_msg_head (db : DB) (fpk : Nat) (ids : List String) (m : String)
    (h : check_feature db fpk ids = Except.ok (some m)) : sHead m = some 'G' := by
  unfold check_feature at h
  cases hone : one? (db.gene.flatMap (fun g =>
    (db.feature.filter (fun f => f.gene_id == some g.pk && f.pk == fpk)).map
      (fun _ => g.hgnc_id))) with
  | error e =>
    rw [hone] at h
    simp only [bind, Except.bind] at h
    simp at h
  | ok hg =>
    rw [hone] at h
    simp only [bind, Except.bind, pure, Except.pure] at h
    by_cases hmem : hg ∈ ids
    · simp [hmem] at h
    · simp [hmem] at h
      subst h
      apply sHead_append_left
      apply sHead_append_left
      rfl

/-- check_feature_type_msg_head: a feature type discrepancy message starts with T. -/
theorem check_feature_type_msg_head (db : DB) (eft : String) (fpk : Nat) (m : String)
    (h : check_feature_type db eft fpk = Except.ok (some m)) : sHead m = some 'T' := by
  unfold check_feature_type at h
  cases hone : one? (db.feature_type.flatMap (fun t =>
    (db.feature.filter (fun f => f.feature_type_id == t.1 && f.pk == fpk)).map
      (fun _ => t.2))) with
  | error e =>
    rw [hone] at h
    simp only [bind, Except.bind] at h
    simp at h
  | ok ft =>
    rw [hone] at h
    simp only [bind, Except.bind, pure, Except.pure] at h
    by_cases hft : ft = eft
    · simp [hft] at h
    · simp [hft] at h
      subst h
      apply sHead_append_left
      apply sHead_append_left
      apply sHead_append_left
      apply sHead_append_left
      rfl

/-! Claim C4: version comparison in check_panel2features. -/

/-- dbC4 is a store with one gene feature, used to exercise the version
comparison of the panel-feature check in isolation. -/
def dbC4 : DB :=
  { gene := [{ pk := 1, hgnc_id := "HGNC:1" }],
    feature := [{ pk := 1, feature_type_id := 1, gene_id := some 1 }],
    feature_type := [(1, "gene")] }

/-- C4 counterexample: the panel-feature check compares versions with Python
float, not semantic-version order.  The versions 1.10 (db) and 1.1 (dump)
differ as semantic versions, yet the check records no discrepancy at all; the
versions 1.01 and 1.1 are equal as semantic versions (componentwise numeric),
yet the check records a discrepancy.  Either direction refutes the claim that
a discrepancy is recorded exactly when the two semantic versions differ. -/
theorem C4_counterexample :
    (vparse "1.10" ≠ vparse "1.1"
      ∧ check_panel2features dbC4 [(1, "1.10")] ["HGNC:1"] "1.1" = Except.ok [])
    ∧ (vparse "1.01" = vparse "1.1"
      ∧ check_panel2features dbC4 [(1, "1.01")] ["HGNC:1"] "1.1" =
          Except.ok [mkVersionNeqMsg "1.01" "1.1"]) := by
  exact ⟨⟨by decide, by rfl⟩, ⟨by rfl, by rfl⟩⟩

/-- C4 (amended): for every panel-feature link examined during
reconciliation, the stored and dump panel versions are compared as decimal
numbers (Python float of the version string), not by semantic-version order
and not by string equality: when the per-link check completes, its log holds
the version discrepancy message for that link exactly when the two parsed
decimal values differ (so 1.10 and 1.1 compare equal while semantic versions
would differ, and 1.01 and 1.1 differ while semantic versions would not). -/
theorem C4_float_version_comparison (db : DB) (hgnc_ids : List String) (pv : String)
    (f : Nat) (v : String) (log : List String) (fv pvv : Dec10)
    (hfv : pyFloat v = some fv) (hpv : pyFloat pv = some pvv)
    (h : check_p2f_row db hgnc_ids pv (f, v) = Except.ok log) :
    mkVersionNeqMsg v pv ∈ log ↔ dec10Eq fv pvv = false := by
  unfold check_p2f_row at h
  rw [hfv, hpv] at h
  simp only [orExcept, bind, Except.bind, pure, Except.pure] at h
  cases hcf : check_feature db f hgnc_ids with
  | error e => rw [hcf] at h; simp at h
  | ok fmsg =>
    rw [hcf] at h
    cases hcft : check_feature_type db "gene" f with
    | error e => rw [hcft] at h; simp at h
    | ok ftmsg =>
      rw [hcft] at h
      simp only [Except.ok.injEq] at h
      subst h
      have hl2 : ∀ m, m ∈ (match fmsg with | some m0 => [m0] | none => ([] : List String)) →
          sHead m = some 'G' := by
        intro m hm
        cases fmsg with
        | none => simp at hm
        | some m0 =>
          simp at hm
          subst hm
          exact check_feature_msg_head _ _ _ _ hcf
      have hl3 : ∀ m, m ∈ (match ftmsg with | some m0 => [m0] | none => ([] : List String)) →
          sHead m = some 'T' := by
        intro m hm
        cases ftmsg with
        | none => simp at hm
        | some m0 =>
          simp at hm
          subst hm
          exact check_feature_type_msg_head _ _ _ _ hcft
      constructor
      · intro hmem
        rcases List.mem_append.mp hmem with hmem12 | hm3
        · rcases List.mem_append.mp hmem12 with hmem1 | hm2
          · cases hde : dec10Eq fv pvv with
            | false => rfl
            | true => rw [hde] at hmem1; simp at hmem1
          · have hg := hl2 _ hm2
            rw [mkVersionNeqMsg_head v pv] at hg
            exact absurd hg (by decide)
        · have ht := hl3 _ hm3
          rw [mkVersionNeqMsg_head v pv] at ht
          exact absurd ht (by decide)
      · intro hne
        rw [hne]
        simp

/-- C4 witness: the amended theorem applied at a link with stored version
1.01 against dump version 1.1. -/
theorem C4_float_version_comparison_witness :
    mkVersionNeqMsg "1.01" "1.1" ∈ [mkVersionNeqMsg "1.01" "1.1"]
      ↔ dec10Eq ⟨101, 2⟩ ⟨11, 1⟩ = false :=
  C4_float_version_comparison dbC4 ["HGNC:1"] "1.1" 1 "1.01" _ ⟨101, 2⟩ ⟨11, 1⟩ rfl rfl rfl

/-! Claim C5: which side of the symmetric difference check_panels reports. -/

/-- dbC5 is a store holding exactly one panel, keyed 2, absent from the dump. -/
def dbC5 : DB := { panel := [{ pk := 10, panelapp_id := "2", name := "X", panel_type_id := 1 }] }

/-- pdC5 is a dump holding exactly one panel, keyed 1, absent from the store. -/
def pdC5 : List (String × PanelEntry) :=
  [("1", { name := "P1", version := "1.0", ptype := "gms", genes := ["HGNC:1"] })]

/-- C5 counterexample: panel 1 is present only in the dump and panel 2 only
in the store, so both sides of the symmetric difference are non-empty; the
check reports the store-only key 2, but because the counts coincide it
records no discrepancy at all naming the dump-only key 1 — the claim that
every key present in exactly one side is recorded with a discrepancy naming
that key is false. -/
theorem C5_counterexample :
    check_panels dbC5 pdC5 [] =
      Except.ok (none, [("2", { errors := [mkPanelMissingMsg "2"], feature_errors := [] })])
    ∧ pdC5.lookup "1" ≠ none
    ∧ dbC5.panel.map (fun r => r.panelapp_id) = ["2"]
    ∧ pyIn "1" (mkPanelMissingMsg "2") = false := by
  exact ⟨by rfl, by decide, by rfl, by decide⟩

/-- errorsOf reads the errors recorded in the panel log under a key. -/
def errorsOf (log : List (String × PanelLogEntry)) (k : String) : List String :=
  ((log.lookup k).getD {}).errors

/-- errorsOf_addError_self: appending an error under a key appends to its
recorded errors. -/
theorem errorsOf_addError_self (log : List (String × PanelLogEntry)) (k m : String) :
    errorsOf (panelLogAddError log k m) k = errorsOf log k ++ [m] := by
  induction log with
  | nil => simp [panelLogAddError, errorsOf, List.lookup]
  | cons kv rest ih =>
    obtain ⟨k0, e⟩ := kv
    by_cases h : k0 = k
    · subst h
      simp [panelLogAddError, errorsOf, List.lookup]
    · have hb : (k == k0) = false := beq_eq_false_iff_ne.mpr (Ne.symm h)
      simp [panelLogAddError, h, errorsOf, List.lookup, hb] at ih ⊢
      exact ih

/-- errorsOf_addError_ne: appending under one key leaves other keys alone. -/
theorem errorsOf_addError_ne (log : List (String × PanelLogEntry)) (k k2 m : String)
    (h : k2 ≠ k) : errorsOf (panelLogAddError log k m) k2 = errorsOf log k2 := by
  have hb : (k2 == k) = false := beq_eq_false_iff_ne.mpr h
  induction log with
  | nil => simp [panelLogAddError, errorsOf, List.lookup, hb]
  | cons kv rest ih =>
    obtain ⟨k0, e⟩ := kv
    by_cases h0 : k0 = k
    · subst h0
      simp [panelLogAddError, errorsOf, List.lookup, hb]
    · by_cases h2 : k2 = k0
      · subst h2
        simp [panelLogAddError, h0, errorsOf, List.lookup]
      · have hb2 : (k2 == k0) = false := beq_eq_false_iff_ne.mpr h2
        simp [panelLogAddError, h0, errorsOf, List.lookup, hb2] at ih ⊢
        exact ih

/-- errorsOf_setFeatures: assigning feature errors never touches errors. -/
theorem errorsOf_setFeatures (log : List (String × PanelLogEntry)) (k k2 : String)
    (msgs : List String) : errorsOf (panelLogSetFeatures log k msgs) k2 = errorsOf log k2 := by
  induction log with
  | nil =>
    by_cases h : k2 = k
    · subst h
      simp [panelLogSetFeatures, errorsOf, List.lookup]
    · have hb : (k2 == k) = false := beq_eq_false_iff_ne.mpr h
      simp [panelLogSetFeatures, errorsOf, List.lookup, hb]
  | cons kv rest ih =>
    obtain ⟨k0, e⟩ := kv
    by_cases h0 : k0 = k
    · subst h0
      by_cases h2 : k2 = k0
      · subst h2
        simp [panelLogSetFeatures, errorsOf, List.lookup]
      · have hb2 : (k2 == k0) = false := beq_eq_false_iff_ne.mpr h2
        simp [panelLogSetFeatures, errorsOf, List.lookup, hb2]
    · by_cases h2 : k2 = k0
      · subst h2
        simp [panelLogSetFeatures, h0, errorsOf, List.lookup]
      · have hb2 : (k2 == k0) = false := beq_eq_false_iff_ne.mpr h2
        simp [panelLogSetFeatures, h0, errorsOf, List.lookup, hb2] at ih ⊢
        exact ih

/-- lookup_addError_isSome: after appending an error under a key, the key and
every previously present key are present. -/
theorem lookup_addError_isSome (log : List (String × PanelLogEntry)) (k k2 : String) (m : String)
    (h : k2 = k ∨ (log.lookup k2).isSome) :
    ((panelLogAddError log k m).lookup k2).isSome := by
  induction log with
  | nil =>
    rcases h with rfl | h
    · simp [panelLogAddError, List.lookup]
    · simp [List.lookup] at h
  | cons kv rest ih =>
    obtain ⟨k0, e⟩ := kv
    by_cases h0 : k0 = k
    · subst h0
      by_cases h2 : k2 = k0
      · subst h2
        simp [panelLogAddError, List.lookup]
      · have hb2 : (k2 == k0) = false := beq_eq_false_iff_ne.mpr h2
        rcases h with rfl | h
        · simp at h2
        · simp [panelLogAddError, List.lookup, hb2] at h ⊢
          exact h
    · by_cases h2 : k2 = k0
      · subst h2
        simp [panelLogAddError, h0, List.lookup]
      · have hb2 : (k2 == k0) = false := beq_eq_false_iff_ne.mpr h2
        simp only [panelLogAddError, if_neg h0, List.lookup, hb2] at h ⊢
        exact ih h

/-- lookup_setFeatures_isSome: same for the feature assignment. -/
theorem lookup_setFeatures_isSome (log : List (String × PanelLogEntry)) (k k2 : String)
    (msgs : List String) (h : k2 = k ∨ (log.lookup k2).isSome) :
    ((panelLogSetFeatures log k msgs).lookup k2).isSome := by
  induction log with
  | nil =>
    rcases h with rfl | h
    · simp [panelLogSetFeatures, List.lookup]
    · simp [List.lookup] at h
  | cons kv rest ih =>
    obtain ⟨k0, e⟩ := kv
    by_cases h0 : k0 = k
    · subst h0
      by_cases h2 : k2 = k0
      · subst h2
        simp [panelLogSetFeatures, List.lookup]
      · have hb2 : (k2 == k0) = false := beq_eq_false_iff_ne.mpr h2
        rcases h with rfl | h
        · simp at h2
        · simp [panelLogSetFeatures, List.lookup, hb2] at h ⊢
          exact h
    · by_cases h2 : k2 = k0
      · subst h2
        simp [panelLogSetFeatures, h0, List.lookup]
      · have hb2 : (k2 == k0) = false := beq_eq_false_iff_ne.mpr h2
        simp only [panelLogSetFeatures, if_neg h0, List.lookup, hb2] at h ⊢
        exact ih h

/-- mem_errorsOf_applyRowOutcome: recorded errors survive later row outcomes. -/
theorem mem_errorsOf_applyRowOutcome (log : List (String × PanelLogEntry)) (k k2 m : String)
    (oc : RowOutcome) (h : m ∈ errorsOf log k2) :
    m ∈ errorsOf (applyRowOutcome log k oc) k2 := by
  cases oc with
  | missing m2 =>
    by_cases hk : k2 = k
    · subst hk
      rw [applyRowOutcome, errorsOf_addError_self]
      exact List.mem_append_left _ h
    · rw [applyRowOutcome, errorsOf_addError_ne _ _ _ _ hk]
      exact h
  | present errs fes =>
    rw [applyRowOutcome, errorsOf_setFeatures]
    induction errs generalizing log with
    | nil => exact h
    | cons e rest ih =>
      rw [List.foldl_cons]
      apply ih
      by_cases hk : k2 = k
      · subst hk
        rw [errorsOf_addError_self]
        exact List.mem_append_left _ h
      · rw [errorsOf_addError_ne _ _ _ _ hk]
        exact h

/-- lookup_applyRowOutcome_isSome: a processed key is present, and present
keys stay present. -/
theorem lookup_applyRowOutcome_isSome (log : List (String × PanelLogEntry)) (k k2 : String)
    (oc : RowOutcome) (h : k2 = k ∨ (log.lookup k2).isSome) :
    ((applyRowOutcome log k oc).lookup k2).isSome := by
  cases oc with
  | missing m2 => exact lookup_addError_isSome _ _ _ _ h
  | present errs fes =>
    rw [applyRowOutcome]
    apply lookup_setFeatures_isSome
    rcases h with rfl | h
    · exact Or.inl rfl
    · right
      induction errs generalizing log with
      | nil => exact h
      | cons e rest ih =>
        rw [List.foldl_cons]
        exact ih _ (lookup_addError_isSome _ _ _ _ (Or.inr h))

/-- errorsOf_applyRowOutcome_missing: a missing outcome appends its message. -/
theorem errorsOf_applyRowOutcome_missing (log : List (String × PanelLogEntry)) (k m : String) :
    errorsOf (applyRowOutcome log k (.missing m)) k = errorsOf log k ++ [m] := by
  rw [applyRowOutcome, errorsOf_addError_self]

/-- check_panel_row_missing: a stored row absent from both dump dicts yields
the missing outcome with the message naming its key. -/
theorem check_panel_row_missing (db : DB) (pd : List (String × PanelEntry))
    (sd : List (String × SuperpanelEntry)) (row : PanelRow)
    (h1 : pd.lookup row.panelapp_id = none) (h2 : sd.lookup row.panelapp_id = none) :
    check_panel_row db pd sd row =
      Except.ok (RowOutcome.missing (mkPanelMissingMsg row.panelapp_id)) := by
  unfold check_panel_row
  simp [h1, h2, pure, Except.pure]

/-- check_panels_fold: the invariant of the stored-panels fold — recorded
errors persist, present keys persist, every processed row key is present, and
every processed row absent from both dump dicts has its missing message
recorded under its key. -/
theorem check_panels_fold (db : DB) (pd : List (String × PanelEntry))
    (sd : List (String × SuperpanelEntry)) :
    ∀ (rows : List PanelRow) (log0 log : List (String × PanelLogEntry)),
    rows.foldlM (fun log row => do
      let oc ← check_panel_row db pd sd row
      return applyRowOutcome log row.panelapp_id oc) log0 = Except.ok log →
    (∀ k m, m ∈ errorsOf log0 k → m ∈ errorsOf log k) ∧
    (∀ k, (log0.lookup k).isSome → (log.lookup k).isSome) ∧
    (∀ row ∈ rows, (log.lookup row.panelapp_id).isSome) ∧
    (∀ row ∈ rows, pd.lookup row.panelapp_id = none → sd.lookup row.panelapp_id = none →
      mkPanelMissingMsg row.panelapp_id ∈ errorsOf log row.panelapp_id) := by
  intro rows
  induction rows with
  | nil =>
    intro log0 log h
    simp only [List.foldlM_nil, pure, Except.pure, Except.ok.injEq] at h
    subst h
    exact ⟨fun _ _ hm => hm, fun _ hs => hs, by simp, by simp⟩
  | cons row rest ih =>
    intro log0 log h
    rw [List.foldlM_cons] at h
    cases hrow : check_panel_row db pd sd row with
    | error e =>
      rw [hrow] at h
      simp [bind, Except.bind] at h
    | ok oc =>
      rw [hrow] at h
      simp only [bind, Except.bind, pure, Except.pure] at h
      obtain ⟨hmono, hsome, hall, hmiss⟩ := ih (applyRowOutcome log0 row.panelapp_id oc) log h
      refine ⟨?_, ?_, ?_, ?_⟩
      · intro k m hm
        exact hmono k m (mem_errorsOf_applyRowOutcome _ _ _ _ _ hm)
      · intro k hs
        exact hsome k (lookup_applyRowOutcome_isSome _ _ _ _ (Or.inr hs))
      · intro r hr
        rcases List.mem_cons.mp hr with rfl | hr
        · exact hsome _ (lookup_applyRowOutcome_isSome _ _ _ _ (Or.inl rfl))
        · exact hall r hr
      · intro r hr h1 h2
        rcases List.mem_cons.mp hr with rfl | hr
        · have : oc = RowOutcome.missing (mkPanelMissingMsg r.panelapp_id) := by
            have := check_panel_row_missing db pd sd r h1 h2
            rw [hrow] at this
            exact (Except.ok.injEq _ _).mp this.symm |>.symm
          subst this
          apply hmono
          rw [errorsOf_applyRowOutcome_missing]
          exact List.mem_append_right _ (by simp)
        · exact hmiss r hr h1 h2

/-- C5 (amended): every panel key present in the store but absent from both
dump dictionaries is reported with a discrepancy naming that key, and the
comparison does not abort — every stored row still ends up with its own
entry in the panel log; keys present only in the dump receive no per-key
report and are reflected only in the global count comparison, which is the
first component of the result. -/
theorem C5_store_only_panels_reported (db : DB) (pd : List (String × PanelEntry))
    (sd : List (String × SuperpanelEntry)) (nb : Option String)
    (plog : List (String × PanelLogEntry))
    (h : check_panels db pd sd = Except.ok (nb, plog)) :
    (∀ row ∈ db.panel, pd.lookup row.panelapp_id = none → sd.lookup row.panelapp_id = none →
      mkPanelMissingMsg row.panelapp_id ∈ errorsOf plog row.panelapp_id) ∧
    (∀ row ∈ db.panel, (plog.lookup row.panelapp_id).isSome) ∧
    nb = (if pd.length + sd.length ≠ db.panel.length
      then some (mkPanelCountMsg pd.length sd.length db.panel.length) else none) := by
  unfold check_panels at h
  cases hfold : db.panel.foldlM (fun log row => do
      let oc ← check_panel_row db pd sd row
      return applyRowOutcome log row.panelapp_id oc) [] with
  | error e =>
    rw [hfold] at h
    simp [bind, Except.bind] at h
  | ok log =>
    rw [hfold] at h
    simp only [bind, Except.bind, pure, Except.pure, Except.ok.injEq, Prod.mk.injEq] at h
    obtain ⟨hnb, hlog⟩ := h
    subst hlog
    obtain ⟨-, -, hall, hmiss⟩ := check_panels_fold db pd sd db.panel [] log hfold
    exact ⟨hmiss, hall, hnb.symm⟩

/-- C5 witness: the amended theorem applied to the concrete store and dump of
the counterexample, where panel 2 is store-only. -/
theorem C5_store_only_panels_reported_witness :
    mkPanelMissingMsg "2" ∈
      errorsOf [("2", { errors := [mkPanelMissingMsg "2"], feature_errors := [] })] "2" := by
  have h := C5_store_only_panels_reported dbC5 pdC5 [] none
    [("2", { errors := [mkPanelMissingMsg "2"], feature_errors := [] })] (by rfl)
  exact h.1 { pk := 10, panelapp_id := "2", name := "X", panel_type_id := 1 }
    (by decide) (by decide) (by decide)

/-! Claim C6: duplicate panel rows in the dump. -/

/-- foldersC6 is a dump with two rows for the same panel key 1 whose name,
version and signed-off values all differ. -/
def foldersC6 : List DumpFolder :=
  [{ path := "gms_dump", files := [{ fname := "p.tsv", lines :=
      [["Panel A", "1", "1.0", "True", "gene", "G1", "HGNC:1"],
       ["Panel B", "1", "2.0", "False", "gene", "G2", "HGNC:2"]] }] }]

/-- entryC6 is the panel entry that the later duplicate row leaves behind. -/
def entryC6 : PanelEntry :=
  { name := "Panel B", version := "2.0", signedoff := some "False",
    ptype := "gms", genes := ["HGNC:1", "HGNC:2"] }

/-- expectedC6 bundles the dictionaries create_panelapp_dict builds from
foldersC6. -/
def expectedC6 : PADicts :=
  { panelapp := [("1", entryC6)],
    superpanel := [],
    gene := [("HGNC:1", { check := false, symbol := some "G1" }),
             ("HGNC:2", { check := false, symbol := some "G2" })] }

/-- C6 counterexample: two parsed rows carry the panel key 1 with differing
name, version and signed-off values, yet create_panelapp_dict returns
successfully (no assertion, no error) and the second row has silently
overwritten the first — refuting the claim that the builder raises. -/
theorem C6_counterexample :
    create_panelapp_dict foldersC6 ["gms"] [] = Except.ok expectedC6
    ∧ (expectedC6.panelapp.lookup "1").map (fun e => (e.name, e.version, e.signedoff))
        = some ("Panel B", "2.0", some "False") := by
  exact ⟨by rfl, by decide⟩

/-- C6 (amended): a later duplicate dump row for an already-built panel key
does not raise; the builder proceeds and the later row overwrites the stored
name, version and signed-off values (for a gene row the gene is additionally
accumulated into the panel gene set). -/
theorem C6_duplicate_rows_overwrite (type_panels : List String) (folder : String)
    (st : PADicts) (pn pid ver so t : String) (rest : List String) (e0 : PanelEntry)
    (ht : get_panel_type type_panels folder = Except.ok t)
    (h0 : st.panelapp.lookup pid = some e0) :
    (∃ st2, process_normal_line type_panels folder st
        (pn :: pid :: ver :: so :: "panel" :: rest) = Except.ok st2
      ∧ st2.panelapp.lookup pid =
          some { e0 with name := pn, version := ver, signedoff := some so, ptype := t })
    ∧ ∀ g h, ∃ st3, process_normal_line type_panels folder st
        (pn :: pid :: ver :: so :: "gene" :: g :: h :: []) = Except.ok st3
      ∧ st3.panelapp.lookup pid =
          some { e0 with name := pn, version := ver, signedoff := some so,
                         ptype := t, genes := sinsert e0.genes h } := by
  constructor
  · refine ⟨{ st with panelapp := alistUpdate st.panelapp pid {} (fun e =>
        { e with name := pn, version := ver, signedoff := some so, ptype := t }) }, ?_, ?_⟩
    · unfold process_normal_line
      rw [show parseNormalLine (pn :: pid :: ver :: so :: "panel" :: rest) =
        Except.ok (pn, pid, ver, so, "panel", rest) from rfl]
      rw [ht]
      simp [bind, Except.bind, pure, Except.pure]
    · show (alistUpdate st.panelapp pid {} _).lookup pid = _
      rw [lookup_alistUpdate_self, h0]
      rfl
  · intro g h
    refine ⟨{ st with
        panelapp := alistUpdate (alistUpdate st.panelapp pid {} (fun e =>
          { e with name := pn, version := ver, signedoff := some so, ptype := t })) pid {}
          (fun e => { e with genes := sinsert e.genes h }),
        gene := alistUpdate st.gene h {} (fun ge =>
          { ge with check := false, symbol := some g }) }, ?_, ?_⟩
    · unfold process_normal_line
      rw [show parseNormalLine (pn :: pid :: ver :: so :: "gene" :: g :: h :: []) =
        Except.ok (pn, pid, ver, so, "gene", [g, h]) from rfl]
      rw [ht]
      simp [bind, Except.bind, pure, Except.pure]
    · show (alistUpdate (alistUpdate st.panelapp pid {} _) pid {} _).lookup pid = _
      rw [lookup_alistUpdate_self, lookup_alistUpdate_self, h0]
      rfl

/-- entryC6A is the panel entry left by the first duplicate row. -/
def entryC6A : PanelEntry :=
  { name := "Panel A", version := "1.0", signedoff := some "True",
    ptype := "gms", genes := ["HGNC:1"] }

/-- stC6 is a builder state already holding panel 1 with the first row values. -/
def stC6 : PADicts := { panelapp := [("1", entryC6A)] }

/-- entryC6B is entryC6A overwritten by the later duplicate row. -/
def entryC6B : PanelEntry :=
  { entryC6A with name := "Panel B", version := "2.0", signedoff := some "False", ptype := "gms" }

/-- C6 witness: the amended theorem applied to the concrete duplicate pair of
the counterexample. -/
theorem C6_duplicate_rows_overwrite_witness :
    ∃ st2, process_normal_line ["gms"] "gms_dump" stC6
        ["Panel B", "1", "2.0", "False", "panel"] = Except.ok st2
      ∧ st2.panelapp.lookup "1" = some entryC6B := by
  have h := C6_duplicate_rows_overwrite ["gms"] "gms_dump" stC6
    "Panel B" "1" "2.0" "False" "gms" [] entryC6A (by rfl) (by rfl)
  exact h.1

/-! Claim C1: check_db collect-all-then-raise. -/

/-- g2tRowC1 is the single stored genes2transcripts row of dbC1. -/
def g2tRowC1 : G2TRow :=
  { pk := 1, clinical_transcript := false, date := "d",
    gene_id := 1, reference_id := 1, transcript_id := 1 }

/-- dbC1 is a store with one gene that has one stored transcript row. -/
def dbC1 : DB :=
  { gene := [{ pk := 1, hgnc_id := "HGNC:1" }],
    genes2transcripts := [g2tRowC1],
    transcript := [{ pk := 1, refseq_base := "NM_1", version := "1", canonical := 1 }] }

/-- g2tC1 is a genes2transcripts dump giving that gene two transcripts, so
the transcript counts disagree (2 in the dump, 1 stored). -/
def g2tC1 : G2TData := [("HGNC:1", [("NM_1.1", (true, true)), ("NM_2.1", (true, true))])]

/-- C1 (code bug): with exactly one discrepancy present (the transcript
count mismatch for HGNC:1), the run does not collect it and raise the single
aggregated exception at the end — it aborts with a TypeError raised while
formatting the count log line (the source joins the integer primary keys it
selected with a string separator), and the discrepancy message never reaches
the log, which holds only the opening info line. -/
theorem C1_g2t_typeerror_aborts_run :
    check_db [("panels", "dump"), ("g2t", "g2tfile")] "251012" dbC1 [] []
        [("HGNC:1", {})] g2tC1 []
      = (["Checking database against dump, g2tfile"], Except.error typeErrorJoinMsg)
    ∧ mkG2TCountMsg "HGNC:1" 1 2 ∉ ["Checking database against dump, g2tfile"] := by
  exact ⟨by rfl, by decide⟩

/-! Claim C10: hardcoded tests in clean_targets. -/

/-- rawEntryC10 is a test directory row for the hardcoded test R27.1 whose
two targets both match the Relevant removal condition. -/
def rawEntryC10 : RawCI :=
  { name := "N", targets := "Relevant panel;Relevant gene",
    method := "Medium panel", version := "v1" }

/-- rawC10 is the parsed test directory holding only that test. -/
def rawC10 : List (String × RawCI) := [("R27.1", rawEntryC10)]

/-- C10 counterexample: R27.1 is in the hardcoded table, and both of its
targets match a removal condition; each match records the code for removal
but the hardcoded branch cancels only one of the two records, so the test is
dropped from the returned data entirely — refuting the claim that a
hardcoded test is always retained. -/
theorem C10_counterexample :
    clean_targets (fun _ => none) rawC10 = []
    ∧ (hardcoded_tests.lookup "R27.1").isSome = true := by
  exact ⟨by rfl, by rfl⟩

/-- lookup_append_some: a found key is still found after appending. -/
theorem lookup_append_some {α : Type} (l m : List (String × α)) (k : String) (v : α)
    (h : l.lookup k = some v) : (l ++ m).lookup k = some v := by
  induction l with
  | nil => simp [List.lookup] at h
  | cons kv rest ih =>
    obtain ⟨k0, v0⟩ := kv
    by_cases hk : k = k0
    · subst hk
      simp [List.lookup] at h ⊢
      exact h
    · have hb : (k == k0) = false := beq_eq_false_iff_ne.mpr hk
      simp only [List.cons_append, List.lookup, hb] at h ⊢
      exact ih h

/-- lookup_append_one_ne: appending an entry under another key keeps a key
unfound. -/
theorem lookup_append_one_ne {α : Type} (l : List (String × α)) (k k2 : String) (v : α)
    (h : l.lookup k = none) (hne : k ≠ k2) : (l ++ [(k2, v)]).lookup k = none := by
  induction l with
  | nil => simp [List.lookup, beq_eq_false_iff_ne.mpr hne]
  | cons kv rest ih =>
    obtain ⟨k0, v0⟩ := kv
    by_cases hk : k = k0
    · subst hk
      simp [List.lookup] at h
    · have hb : (k == k0) = false := beq_eq_false_iff_ne.mpr hk
      simp only [List.cons_append, List.lookup, hb] at h ⊢
      exact ih h

/-- mem_removeFirst: removing an occurrence never adds elements. -/
theorem mem_removeFirst (xs : List String) (x y : String) (h : y ∈ removeFirst xs x) :
    y ∈ xs := by
  induction xs with
  | nil => simp [removeFirst] at h
  | cons z rest ih =>
    by_cases hz : z = x
    · subst hz
      simp only [removeFirst, if_pos rfl] at h
      exact List.mem_cons_of_mem _ h
    · simp only [removeFirst, if_neg hz] at h
      rcases List.mem_cons.mp h with rfl | h
      · exact List.mem_cons_self _ _
      · exact List.mem_cons_of_mem _ (ih h)

/-- removeFirst_append_last: removing a last occurrence not present earlier
restores the prefix. -/
theorem removeFirst_append_last (xs : List String) (x : String) (h : x ∉ xs) :
    removeFirst (xs ++ [x]) x = xs := by
  induction xs with
  | nil => simp [removeFirst]
  | cons z rest ih =>
    have hz : z ≠ x := fun he => h (he ▸ List.mem_cons_self _ _)
    simp only [List.cons_append, removeFirst, if_neg hz]
    simp only [List.append_eq]
    rw [ih (fun hm => h (List.mem_cons_of_mem _ hm))]

/-- lookup_filter_ne: filtering out another key preserves a lookup. -/
theorem lookup_filter_ne (l : List (String × CIData)) (k j : String) (h : k ≠ j) :
    (l.filter (fun kv => kv.1 != j)).lookup k = l.lookup k := by
  induction l with
  | nil => simp
  | cons kv rest ih =>
    obtain ⟨k0, v0⟩ := kv
    rw [List.filter_cons]
    by_cases h0 : k0 = j
    · subst h0
      have hb : (k == k0) = false := beq_eq_false_iff_ne.mpr h
      have hp : ((k0, v0).1 != k0) = false := by simp
      rw [hp]
      simp only [Bool.false_eq_true, if_false]
      rw [ih]
      simp [List.lookup, hb]
    · have hp : ((k0, v0).1 != j) = true := by simp [h0]
      rw [hp]
      simp only [if_true]
      by_cases hk : k = k0
      · subst hk
        simp [List.lookup]
      · have hb : (k == k0) = false := beq_eq_false_iff_ne.mpr hk
        simp only [List.lookup, hb]
        exact ih

/-- lookup_popAll: pops of other keys preserve a lookup. -/
theorem lookup_popAll (l : List (String × CIData)) (keys : List String) (k : String)
    (h : k ∉ keys) : (popAll l keys).lookup k = l.lookup k := by
  induction keys generalizing l with
  | nil => simp [popAll]
  | cons j rest ih =>
    have hj : k ≠ j := fun he => h (he ▸ List.mem_cons_self _ _)
    show (popAll (l.filter (fun kv => kv.1 != j)) rest).lookup k = _
    rw [ih _ (fun hm => h (List.mem_cons_of_mem _ hm)), lookup_filter_ne _ _ _ hj]

/-- process_target_removals_mem: the target loop only ever records the
current test code for removal. -/
theorem process_target_removals_mem (hq : String → Option String) (tc : String)
    (acc : TargetAcc) (x y : String) (h : y ∈ (process_target hq tc acc x).removals) :
    y ∈ acc.removals ∨ y = tc := by
  unfold process_target at h
  by_cases h1 : pyIn "Relevant" (pyStrip x) = true
  · simp only [h1, if_pos] at h
    simp at h
    rcases h with h | h
    · exact Or.inl h
    · exact Or.inr h
  · simp only [Bool.not_eq_true] at h1
    simp only [h1, Bool.false_eq_true, if_false] at h
    by_cases h2 : startsWithB "As " (pyStrip x) = true
    · simp only [h2, if_pos] at h
      cases h3 : findParenNum (pyStrip x).data with
      | some pid =>
        rw [h3] at h
        simp at h
        rcases h with h | h
        · exact Or.inl h
        · exact Or.inr h
      | none =>
        rw [h3] at h
        cases h4 : hq (pyStrip (pyStrip x)) with
        | some g =>
          rw [h4] at h
          simp at h
          rcases h with h | h
          · exact Or.inl h
          · exact Or.inr h
        | none =>
          rw [h4] at h
          simp at h
          rcases h with h | h
          · exact Or.inl h
          · exact Or.inr h
    · simp only [Bool.not_eq_true] at h2
      simp only [h2, Bool.false_eq_true, if_false] at h
      cases h3 : findParenNum (pyStrip x).data with
      | some pid =>
        rw [h3] at h
        exact Or.inl h
      | none =>
        rw [h3] at h
        cases h4 : hq (pyStrip (pyStrip x)) with
        | some g =>
          rw [h4] at h
          exact Or.inl h
        | none =>
          rw [h4] at h
          simp at h
          rcases h with h | h
          · exact Or.inl h
          · exact Or.inr h

/-- lookup_append_self: appending an unfound key finds the appended value. -/
theorem lookup_append_self {α : Type} (l : List (String × α)) (k : String) (v : α)
    (h : l.lookup k = none) : (l ++ [(k, v)]).lookup k = some v := by
  induction l with
  | nil => simp [List.lookup]
  | cons kv rest ih =>
    obtain ⟨k0, v0⟩ := kv
    by_cases hk : k = k0
    · subst hk
      simp [List.lookup] at h
    · have hb : (k == k0) = false := beq_eq_false_iff_ne.mpr hk
      simp only [List.cons_append, List.lookup, hb] at h ⊢
      exact ih h

/-- taccOf is the accumulator the target loop of clean_targets builds for one
test code. -/
def taccOf (hq : String → Option String) (tc : String) (raw : RawCI) : TargetAcc :=
  (pySplit ';' raw.targets).foldl (process_target hq tc) {}

/-- taccOf_removals_tc: every recorded removal of one test is its own code. -/
theorem taccOf_removals_tc (hq : String → Option String) (tc : String) (raw : RawCI) :
    ∀ y ∈ (taccOf hq tc raw).removals, y = tc := by
  have hgen : ∀ (ts : List String) (acc : TargetAcc), (∀ y ∈ acc.removals, y = tc) →
      ∀ y ∈ (ts.foldl (process_target hq tc) acc).removals, y = tc := by
    intro ts
    induction ts with
    | nil => intro acc hacc; exact hacc
    | cons t rest ih =>
      intro acc hacc
      rw [List.foldl_cons]
      apply ih
      intro y hy
      rcases process_target_removals_mem hq tc acc t y hy with hmem | hmem
      · exact hacc y hmem
      · exact hmem
  intro y hy
  exact hgen _ ({} : TargetAcc) (by intro y2 hy2; simp [TargetAcc.removals] at hy2) y hy

/-- process_test_code_other: processing another test code neither moves a
lookup of this code nor records this code for removal. -/
theorem process_test_code_other (hq : String → Option String) (st : CleanState)
    (tc tc2 : String) (raw2 : RawCI) (hne : tc ≠ tc2) (hr : tc ∉ st.ci_to_remove) :
    (process_test_code hq hardcoded_tests st tc2 raw2).data.lookup tc = st.data.lookup tc ∧
    tc ∉ (process_test_code hq hardcoded_tests st tc2 raw2).ci_to_remove := by
  have hcomb : tc ∉ st.ci_to_remove ++
      ((pySplit ';' raw2.targets).foldl (process_target hq tc2) {}).removals := by
    intro hmem
    rcases List.mem_append.mp hmem with hmem | hmem
    · exact hr hmem
    · exact hne (taccOf_removals_tc hq tc2 raw2 tc hmem)
  have hlook : ∀ d : CIData, (st.data ++ [(tc2, d)]).lookup tc = st.data.lookup tc := by
    intro d
    cases hl : st.data.lookup tc with
    | some v => exact lookup_append_some _ _ _ _ hl
    | none => exact lookup_append_one_ne _ _ _ _ hl hne
  unfold process_test_code
  cases hhd2 : hardcoded_tests.lookup tc2 with
  | some h2 =>
    simp only [hhd2]
    constructor
    · exact hlook _
    · by_cases hin : tc2 ∈ st.ci_to_remove ++
        ((pySplit ';' raw2.targets).foldl (process_target hq tc2) {}).removals
      · simp only [if_pos hin]
        intro hmem
        exact hcomb (mem_removeFirst _ _ _ hmem)
      · simp only [if_neg hin]
        exact hcomb
  | none =>
    simp only [hhd2]
    exact ⟨hlook _, hcomb⟩

/-- process_test_code_self: processing a hardcoded test code with at most one
recorded removal stores the entry with the hardcoded panels, gemini name and
tests, and leaves no removal of the code behind. -/
theorem process_test_code_self (hq : String → Option String) (st : CleanState)
    (tc : String) (raw : RawCI) (h : HdTest)
    (hhd : hardcoded_tests.lookup tc = some h)
    (hr : tc ∉ st.ci_to_remove) (hd0 : st.data.lookup tc = none)
    (hrem : (taccOf hq tc raw).removals.length ≤ 1) :
    (process_test_code hq hardcoded_tests st tc raw).data.lookup tc =
      some { name := raw.name, version := raw.version, method := methodOf raw.method,
             gemini_name := h.gemini_name, panels := some h.panels,
             genes := (taccOf hq tc raw).genes, tests := h.tests } ∧
    tc ∉ (process_test_code hq hardcoded_tests st tc raw).ci_to_remove := by
  unfold process_test_code
  simp only [hhd]
  constructor
  · exact lookup_append_self _ _ _ hd0
  · have hall := taccOf_removals_tc hq tc raw
    unfold taccOf at hall hrem
    cases hrm : ((pySplit ';' raw.targets).foldl (process_target hq tc) {}).removals with
    | nil =>
      simp only [List.append_nil]
      simp only [if_neg hr]
      exact hr
    | cons y rest =>
      cases rest with
      | nil =>
        have hy : y = tc := hall y (by rw [hrm]; exact List.mem_cons_self _ _)
        subst hy
        have hin : y ∈ st.ci_to_remove ++ [y] :=
          List.mem_append_right _ (List.mem_cons_self _ _)
        simp only [if_pos hin]
        rw [removeFirst_append_last _ _ hr]
        exact hr
      | cons z rest2 =>
        rw [hrm] at hrem
        simp at hrem

/-- clean_targets_fold_other: a fold over entries with other test codes moves
neither the lookup of this code nor records it for removal. -/
theorem clean_targets_fold_other (hq : String → Option String) (tc : String) :
    ∀ (entries : List (String × RawCI)) (st : CleanState),
    (∀ kv ∈ entries, kv.1 ≠ tc) → tc ∉ st.ci_to_remove →
    (entries.foldl (fun st kv => process_test_code hq hardcoded_tests st kv.1 kv.2) st).data.lookup tc
        = st.data.lookup tc ∧
    tc ∉ (entries.foldl (fun st kv => process_test_code hq hardcoded_tests st kv.1 kv.2) st).ci_to_remove := by
  intro entries
  induction entries with
  | nil => intro st hne hr; exact ⟨rfl, hr⟩
  | cons kv rest ih =>
    intro st hne hr
    rw [List.foldl_cons]
    obtain ⟨hl, hrm⟩ := process_test_code_other hq st tc kv.1 kv.2
      (fun he => hne kv (List.mem_cons_self _ _) he.symm) hr
    obtain ⟨hl2, hrm2⟩ := ih (process_test_code hq hardcoded_tests st kv.1 kv.2)
      (fun kv2 hkv2 => hne kv2 (List.mem_cons_of_mem _ hkv2)) hrm
    exact ⟨hl2.trans hl, hrm2⟩

/-- C10 (amended): a test code in the hardcoded table is retained by
clean_targets provided at most one of its targets matched a removal
condition (the hardcoded branch cancels exactly one recorded removal); the
retained entry carries the hardcoded panels, gemini_name and tests values in
place of anything parsed from the test directory, keeping the parsed name,
version, method and gene targets.  (With two or more removal-matched targets
the test is dropped, as the counterexample shows.) -/
theorem C10_hardcoded_override (hq : String → Option String)
    (clinind_data : List (String × RawCI)) (tc : String) (raw : RawCI) (h : HdTest)
    (hnodup : (clinind_data.map Prod.fst).Nodup)
    (hmem : (tc, raw) ∈ clinind_data)
    (hhd : hardcoded_tests.lookup tc = some h)
    (hrem : (taccOf hq tc raw).removals.length ≤ 1) :
    (clean_targets hq clinind_data).lookup tc =
      some { name := raw.name, version := raw.version, method := methodOf raw.method,
             gemini_name := h.gemini_name, panels := some h.panels,
             genes := (taccOf hq tc raw).genes, tests := h.tests } := by
  obtain ⟨pre, post, rfl⟩ := List.append_of_mem hmem
  have hnotc : tc ∉ (pre.map Prod.fst) ++ (post.map Prod.fst) := by
    rw [List.map_append, List.map_cons] at hnodup
    have := List.nodup_middle.mp hnodup
    rw [List.nodup_cons] at this
    exact this.1
  have hpre_ne : ∀ kv ∈ pre, kv.1 ≠ tc := by
    intro kv hkv he
    exact hnotc (List.mem_append_left _ (he ▸ List.mem_map_of_mem Prod.fst hkv))
  have hpost_ne : ∀ kv ∈ post, kv.1 ≠ tc := by
    intro kv hkv he
    exact hnotc (List.mem_append_right _ (he ▸ List.mem_map_of_mem Prod.fst hkv))
  unfold clean_targets
  rw [List.foldl_append, List.foldl_cons]
  obtain ⟨hl0, hr0⟩ := clean_targets_fold_other hq tc pre ({} : CleanState)
    hpre_ne (by simp [CleanState.ci_to_remove])
  obtain ⟨hl1, hr1⟩ := process_test_code_self hq _ tc raw h hhd hr0
    (by rw [hl0]; rfl) hrem
  obtain ⟨hl2, hr2⟩ := clean_targets_fold_other hq tc post _ hpost_ne hr1
  rw [lookup_popAll _ _ _ hr2, hl2, hl1]

/-- rawC10W is a directory row for R27.1 with a single removal-matched target. -/
def rawC10W : RawCI :=
  { name := "N", targets := "Relevant panel", method := "Medium panel", version := "v1" }

/-- C10 witness: the amended theorem applied to R27.1 with exactly one
removal-matched target: it is retained with the hardcoded values. -/
theorem C10_hardcoded_override_witness :
    (clean_targets (fun _ => none) [("R27.1", rawC10W)]).lookup "R27.1" =
      some { name := "N", version := "v1", method := some "P",
             gemini_name := "R27.1a_Congenital malformation and dysmorphism syndromes - microarray and sequencing (DDG2P)_P",
             panels := some ["484"],
             genes := (taccOf (fun _ => none) "R27.1" rawC10W).genes, tests := [] } := by
  exact C10_hardcoded_override (fun _ => none) [("R27.1", rawC10W)] "R27.1" rawC10W
    { gemini_name := "R27.1a_Congenital malformation and dysmorphism syndromes - microarray and sequencing (DDG2P)_P",
      panels := ["484"], tests := [] }
    (by decide) (by simp) (by rfl) (by decide)

/-! Claim C9: synthetic single-gene panels. -/

/-- string_append_right_cancel: appending the same suffix is injective. -/
theorem string_append_right_cancel (a b s : String) (h : a ++ s = b ++ s) : a = b := by
  have h2 : (a ++ s).data = (b ++ s).data := congrArg String.data h
  rw [String.data_append, String.data_append] at h2
  exact String.ext (List.append_cancel_right h2)

/-- sgTarget is the synthetic panel entry the builder materialises for a
standalone gene target. -/
def sgTarget (hgnc : String) : PanelEntry :=
  { name := hgnc ++ "_SG_panel", version := "1.0", signedoff := none,
    ptype := "single_gene", genes := [hgnc] }

/-- add_single_gene_self: one single-gene pass iteration establishes (or
keeps) the synthetic panel of its gene. -/
theorem add_single_gene_self (st : PADicts) (hgnc : String)
    (h : st.panelapp.lookup (hgnc ++ "_SG") = none
      ∨ st.panelapp.lookup (hgnc ++ "_SG") = some (sgTarget hgnc)) :
    (add_single_gene st hgnc).panelapp.lookup (hgnc ++ "_SG") = some (sgTarget hgnc) := by
  have hassoc : (hgnc ++ "_SG") ++ "_panel" = hgnc ++ "_SG_panel" := by
    rw [String.append_assoc]
    rfl
  unfold add_single_gene
  simp only
  rw [lookup_alistUpdate_self]
  rcases h with h | h
  · rw [h]
    simp only [Option.getD_some, Option.getD_none]
    unfold sgTarget
    rw [hassoc]
    rfl
  · rw [h]
    simp only [Option.getD_some]
    unfold sgTarget
    rw [hassoc]
    have : sinsert [hgnc] hgnc = [hgnc] := by simp [sinsert]
    rw [this]

/-- add_single_gene_ne: an iteration for another gene leaves the key alone. -/
theorem add_single_gene_ne (st : PADicts) (g hgnc : String) (hne : g ≠ hgnc) :
    (add_single_gene st g).panelapp.lookup (hgnc ++ "_SG") =
      st.panelapp.lookup (hgnc ++ "_SG") := by
  unfold add_single_gene
  simp only
  apply lookup_alistUpdate_ne
  intro he
  exact hne (string_append_right_cancel _ _ _ he).symm

/-- C9: for every hgnc id appearing as a standalone single-gene target, the
builder materialises a synthetic panel keyed by the gene key with the fixed
suffix _SG, named with the _SG_panel suffix, of panel type single_gene and
version 1.0, whose gene set is exactly that single gene — provided the dump
file pass succeeded and produced no panel under that synthetic key (catalog
keys are numeric, so they never collide with the suffix convention). -/
theorem C9_single_gene_panels (dump_folders : List DumpFolder) (type_panels : List String)
    (single_genes : List String) (st0 : PADicts) (hgnc : String)
    (hfile : dump_folders.foldlM (process_dump_folder type_panels) ({} : PADicts) = Except.ok st0)
    (hfresh : st0.panelapp.lookup (hgnc ++ "_SG") = none)
    (hmem : hgnc ∈ single_genes) :
    ∃ res, create_panelapp_dict dump_folders type_panels single_genes = Except.ok res ∧
      res.panelapp.lookup (hgnc ++ "_SG") = some (sgTarget hgnc) := by
  refine ⟨single_genes.foldl add_single_gene st0, ?_, ?_⟩
  · unfold create_panelapp_dict
    rw [hfile]
    rfl
  · have hgen : ∀ (gs : List String) (st : PADicts),
        (hgnc ∈ gs ∧ st.panelapp.lookup (hgnc ++ "_SG") = none)
          ∨ st.panelapp.lookup (hgnc ++ "_SG") = some (sgTarget hgnc) →
        (gs.foldl add_single_gene st).panelapp.lookup (hgnc ++ "_SG") = some (sgTarget hgnc) := by
      intro gs
      induction gs with
      | nil =>
        intro st hst
        rcases hst with ⟨hmem2, -⟩ | hst
        · simp at hmem2
        · exact hst
      | cons g rest ih =>
        intro st hst
        rw [List.foldl_cons]
        by_cases hg : g = hgnc
        · subst hg
          apply ih
          right
          apply add_single_gene_self
          rcases hst with ⟨-, hl⟩ | hl
          · exact Or.inl hl
          · exact Or.inr hl
        · apply ih
          rcases hst with ⟨hmem2, hl⟩ | hl
          · rcases List.mem_cons.mp hmem2 with he | hmem3
            · exact absurd he.symm hg
            · left
              exact ⟨hmem3, by rw [add_single_gene_ne _ _ _ hg]; exact hl⟩
          · right
            rw [add_single_gene_ne _ _ _ hg]
            exact hl
    exact hgen single_genes st0 (Or.inl ⟨hmem, hfresh⟩)

/-- C9 witness: the theorem applied to the concrete dump of foldersC6 and the
standalone gene HGNC:9. -/
theorem C9_single_gene_panels_witness :
    ∃ res, create_panelapp_dict foldersC6 ["gms"] ["HGNC:9"] = Except.ok res ∧
      res.panelapp.lookup ("HGNC:9" ++ "_SG") = some (sgTarget "HGNC:9") := by
  exact C9_single_gene_panels foldersC6 ["gms"] ["HGNC:9"] expectedC6 "HGNC:9"
    (by rfl) (by rfl) (by simp)

/-! Claim C7: empty targets raise; deprecated aliases redirect. -/

/-- mem_foldl_sunion characterises membership of a fold of set unions. -/
theorem mem_foldl_sunion {β : Type} (f : β → List String) (ps : List β) (start : List String)
    (g : String) :
    g ∈ ps.foldl (fun fs p => sunion fs (f p)) start ↔ g ∈ start ∨ ∃ p ∈ ps, g ∈ f p := by
  induction ps generalizing start with
  | nil => simp
  | cons p rest ih =>
    rw [List.foldl_cons, ih, mem_sunion]
    simp only [List.mem_cons]
    constructor
    · rintro ((hg | hg) | ⟨q, hq, hg⟩)
      · exact Or.inl hg
      · exact Or.inr ⟨p, Or.inl rfl, hg⟩
      · exact Or.inr ⟨q, Or.inr hq, hg⟩
    · rintro (hg | ⟨q, (rfl | hq), hg⟩)
      · exact Or.inl (Or.inl hg)
      · exact Or.inl (Or.inr hg)
      · exact Or.inr ⟨q, hq, hg⟩

/-- mem_aliasStep_fst characterises one step of the alias feature fold. -/
theorem mem_aliasStep_fst (ci2t : List (String × CIData)) (pd : List (String × PanelEntry))
    (acc : List String × List String) (h0 : String) (g : String) :
    g ∈ (aliasStep ci2t pd acc h0).1 ↔
      g ∈ acc.1 ∨ ∃ dh, ci2t.lookup h0 = some dh ∧
        (g ∈ dh.genes.getD [] ∨ ∃ p ∈ dh.panels.getD [], g ∈ paGenes pd p) := by
  cases hl : ci2t.lookup h0 with
  | none => simp [aliasStep, hl]
  | some dh0 =>
    cases hps : dh0.panels with
    | none =>
      cases hgs : dh0.genes with
      | none => simp [aliasStep, hl, hps, hgs]
      | some gs => simp [aliasStep, hl, hps, hgs, mem_sunion]
    | some ps =>
      cases hgs : dh0.genes with
      | none =>
        simp [aliasStep, hl, hps, hgs, mem_foldl_sunion]
      | some gs =>
        simp only [aliasStep, hl, hps, hgs, mem_foldl_sunion, mem_sunion,
          Option.getD_some, Option.some.injEq]
        constructor
        · rintro ((hg | hg) | ⟨p, hp, hg⟩)
          · exact Or.inl hg
          · exact Or.inr ⟨dh0, rfl, Or.inl (by rw [hgs]; exact hg)⟩
          · exact Or.inr ⟨dh0, rfl, Or.inr ⟨p, by rw [hps]; exact hp, hg⟩⟩
        · rintro (hg | ⟨dh, rfl, (hg | ⟨p, hp, hg⟩)⟩)
          · exact Or.inl (Or.inl hg)
          · rw [hgs] at hg
            exact Or.inl (Or.inr hg)
          · rw [hps] at hp
            exact Or.inr ⟨p, hp, hg⟩

/-- mem_alias_features_fst characterises the feature set the check gathers
for an aliased indication: a gene is in it exactly when some resolved
replacement test contributes it, either as a direct gene target or through a
replacement panel. -/
theorem mem_alias_features_fst (ci2t : List (String × CIData))
    (pd : List (String × PanelEntry)) (hd_tests : List String) (g : String) :
    g ∈ (alias_features ci2t pd hd_tests).1 ↔
      ∃ h ∈ hd_tests, ∃ dh, ci2t.lookup h = some dh ∧
        (g ∈ dh.genes.getD [] ∨ ∃ p ∈ dh.panels.getD [], g ∈ paGenes pd p) := by
  have hgen : ∀ (hs : List String) (acc : List String × List String),
      g ∈ (hs.foldl (aliasStep ci2t pd) acc).1 ↔
      g ∈ acc.1 ∨ ∃ h ∈ hs, ∃ dh, ci2t.lookup h = some dh ∧
        (g ∈ dh.genes.getD [] ∨ ∃ p ∈ dh.panels.getD [], g ∈ paGenes pd p) := by
    intro hs
    induction hs with
    | nil => intro acc; simp
    | cons h0 rest ih =>
      intro acc
      rw [List.foldl_cons, ih, mem_aliasStep_fst]
      simp only [List.mem_cons]
      constructor
      · rintro ((hg | ⟨dh, hdh, hc⟩) | ⟨h, hh, dh, hdh, hc⟩)
        · exact Or.inl hg
        · exact Or.inr ⟨h0, Or.inl rfl, dh, hdh, hc⟩
        · exact Or.inr ⟨h, Or.inr hh, dh, hdh, hc⟩
      · rintro (hg | ⟨h, (rfl | hh), dh, hdh, hc⟩)
        · exact Or.inl (Or.inl hg)
        · exact Or.inl (Or.inr ⟨dh, hdh, hc⟩)
        · exact Or.inr ⟨h, hh, dh, hdh, hc⟩
  rw [alias_features, hgen hd_tests ([], [])]
  simp

/-- pgStep_resolved : when a test code resolves to exactly one directory entry
whose data is present, one gathering step appends that entry gene targets and
then its panel targets. -/
theorem pgStep_resolved (ci2t : List (String × CIData)) (t rt : String) (dt : CIData)
    (acc : List String)
    (hf : (ci2t.map Prod.fst).filter (fun r => pyIn t r) = [rt])
    (hl : ci2t.lookup rt = some dt) :
    pgStep ci2t acc t = Except.ok (acc ++ (dt.genes.getD [] ++ dt.panels.getD [])) := by
  rw [pgStep]
  simp only [hf, bind, Except.bind, pure, Except.pure]
  have hlen : ¬ ([rt].length > 1) := by simp
  rw [if_neg hlen]
  simp only [List.head?, orExcept, keyed?, hl, bind, Except.bind, pure, Except.pure]
  cases hgs : dt.genes with
  | none =>
    cases hps : dt.panels with
    | none => simp
    | some ps => simp
  | some gs =>
    cases hps : dt.panels with
    | none => simp
    | some ps => simp

/-- pg_fold_resolved : the gathering fold over tests that all resolve uniquely
returns the concatenation of each resolved entry gene and panel targets. -/
theorem pg_fold_resolved (ci2t : List (String × CIData)) (res : String → String)
    (dta : String → CIData) :
    ∀ (ts : List String) (acc : List String),
    (∀ t ∈ ts, (ci2t.map Prod.fst).filter (fun r => pyIn t r) = [res t]
       ∧ ci2t.lookup (res t) = some (dta t)) →
    ts.foldlM (pgStep ci2t) acc =
      Except.ok (acc ++ ts.flatMap (fun t => (dta t).genes.getD [] ++ (dta t).panels.getD [])) := by
  intro ts
  induction ts with
  | nil => intro acc _; simp [pure, Except.pure]
  | cons t rest ih =>
    intro acc hall
    obtain ⟨hf, hl⟩ := hall t (List.mem_cons_self t rest)
    rw [List.foldlM_cons]
    rw [pgStep_resolved ci2t t (res t) (dta t) acc hf hl]
    simp only [bind, Except.bind]
    rw [ih (acc ++ ((dta t).genes.getD [] ++ (dta t).panels.getD []))
      (fun x hx => hall x (List.mem_cons_of_mem t hx))]
    rw [List.flatMap_cons, List.append_assoc]

/-- C7: the builder raises, naming the test code, whenever the gathered
target list of a clinical indication is empty; and a deprecated (aliased)
indication redirects to its replacements: the builder gathers exactly the
concatenated gene and panel targets of the replacement indications resolved
by substring over the test-directory codes, the check resolves the same
replacement codes, and the feature set the check gathers for an alias holds
exactly the genes contributed by the replacement indications, directly or
through their replacement panels. -/
theorem C7_empty_raises_alias_redirects :
    (∀ (panel_json : List PanelObj) (ci2t : List (String × CIData)) (pk : Nat) (tc : String)
       (d : CIData) (acc : List ClinIndObj × List CIPanelLinkObj × Nat),
       panels_gathered_for ci2t d = Except.ok [] →
       process_ci_build panel_json ci2t pk tc d acc =
         Except.error ("Could not find panels for " ++ tc))
    ∧ (∀ (ci2t : List (String × CIData)) (d : CIData) (res : String → String)
         (dta : String → CIData),
       d.tests ≠ [] →
       (∀ t ∈ d.tests, (ci2t.map Prod.fst).filter (fun r => pyIn t r) = [res t]
          ∧ ci2t.lookup (res t) = some (dta t)) →
       panels_gathered_for ci2t d =
         Except.ok (d.tests.flatMap (fun t =>
           (dta t).genes.getD [] ++ (dta t).panels.getD [])))
    ∧ (∀ (ci2t : List (String × CIData)) (tests : List String) (res : String → String),
       (∀ t ∈ tests, (ci2t.map Prod.fst).filter (fun r => pyIn t r) = [res t]) →
       resolve_hd_tests ci2t tests = tests.map res)
    ∧ (∀ (ci2t : List (String × CIData)) (pd : List (String × PanelEntry))
         (hd_tests : List String) (g : String),
       g ∈ (alias_features ci2t pd hd_tests).1 ↔
         ∃ h ∈ hd_tests, ∃ dh, ci2t.lookup h = some dh ∧
           (g ∈ dh.genes.getD [] ∨ ∃ p ∈ dh.panels.getD [], g ∈ paGenes pd p)) := by
  refine ⟨?_, ?_, ?_, ?_⟩
  · intro pj ci2t pk tc d acc hpg
    rw [process_ci_build]
    simp only [hpg, bind, Except.bind]
    rw [if_pos trivial]
    rfl
  · intro ci2t d res dta hne hall
    rw [panels_gathered_for, if_pos hne]
    rw [pg_fold_resolved ci2t res dta d.tests [] hall]
    simp
  · intro ci2t tests res
    induction tests with
    | nil => intro _; rfl
    | cons t rest ih =>
      intro hall
      have ht := hall t (List.mem_cons_self t rest)
      have hrest := ih (fun x hx => hall x (List.mem_cons_of_mem t hx))
      rw [resolve_hd_tests] at hrest ⊢
      rw [List.flatMap_cons, ht, hrest]
      simp
  · intro ci2t pd hd_tests g
    exact mem_alias_features_fst ci2t pd hd_tests g

def dRepC7 : CIData :=
  { name := "CI rep", version := "2", method := some "P", gemini_name := "R80.1_CI rep_P",
    panels := some ["100"], genes := some ["HGNC:7"], tests := [] }

def ci2tC7 : List (String × CIData) := [("R80.1", dRepC7)]

def dAliasC7 : CIData :=
  { name := "CI alias", version := "1", method := none, gemini_name := "",
    panels := none, genes := none, tests := ["R80.1"] }

def dEmptyC7 : CIData := {}

def pdC7 : List (String × PanelEntry) :=
  [("100", { name := "P100", version := "2.0", ptype := "gms", genes := ["HGNC:9"] })]

/-- Witness for C7 at a one-entry test directory. -/
theorem C7_empty_raises_alias_redirects_witness :
    process_ci_build [] ci2tC7 1 "R1.1" dEmptyC7 ([], [], 0) =
      Except.error ("Could not find panels for " ++ "R1.1")
    ∧ panels_gathered_for ci2tC7 dAliasC7 =
        Except.ok (dAliasC7.tests.flatMap (fun t =>
          ((fun _ => dRepC7) t).genes.getD [] ++ ((fun _ => dRepC7) t).panels.getD []))
    ∧ resolve_hd_tests ci2tC7 dAliasC7.tests = dAliasC7.tests.map (fun _ => "R80.1")
    ∧ "HGNC:9" ∈ (alias_features ci2tC7 pdC7 ["R80.1"]).1 :=
  ⟨C7_empty_raises_alias_redirects.1 [] ci2tC7 1 "R1.1" dEmptyC7 ([], [], 0) (by rfl),
   C7_empty_raises_alias_redirects.2.1 ci2tC7 dAliasC7 (fun _ => "R80.1") (fun _ => dRepC7)
     (by simp [dAliasC7])
     (by
       intro t ht
       simp only [dAliasC7, List.mem_singleton] at ht
       subst ht
       exact ⟨by decide, by rfl⟩),
   C7_empty_raises_alias_redirects.2.2.1 ci2tC7 dAliasC7.tests (fun _ => "R80.1")
     (by
       intro t ht
       simp only [dAliasC7, List.mem_singleton] at ht
       subst ht
       decide),
   (C7_empty_raises_alias_redirects.2.2.2 ci2tC7 pdC7 ["R80.1"] "HGNC:9").mpr
     ⟨"R80.1", by simp, dRepC7, by rfl,
      Or.inr ⟨"100", by simp [dRepC7], by simp [paGenes, pdC7]⟩⟩⟩

/-! Order lemmas for the semantic-version comparison, used by C8. -/

/-- vcmp is reflexive. -/
theorem vcmp_refl : ∀ a, vcmp a a = Ordering.eq := by
  intro a
  induction a with
  | nil => simp [vcmp, vcmpNil, vcmpNil]
  | cons x xs ih => simp [vcmp, vcmpNil, ih]

/-- vle is reflexive. -/
theorem vle_refl (a : List Nat) : vle a a = true := by
  simp [vle, vcmp_refl]
  decide

/-- vcmp with swapped arguments yields the swapped ordering. -/
theorem vcmp_swap : ∀ a b, vcmp b a = (vcmp a b).swap := by
  intro a
  induction a with
  | nil =>
    intro b
    induction b with
    | nil => simp [vcmp, vcmpNil, Ordering.swap]
    | cons b0 bs ihb =>
      by_cases h0 : b0 = 0
      · subst h0
        simp [vcmp, vcmpNil, ihb]
      · simp [vcmp, vcmpNil, h0, Ordering.swap]
  | cons a0 xs ih =>
    intro b
    induction b with
    | nil =>
      by_cases h0 : a0 = 0
      · subst h0
        have hx : vcmpNil xs = (vcmp xs []).swap := ih []
        simp [vcmp, vcmpNil, hx]
      · simp [vcmp, vcmpNil, h0, Ordering.swap]
    | cons b0 bs ihb =>
      rcases Nat.lt_trichotomy a0 b0 with h | h | h
      · have h2 : ¬ b0 < a0 := Nat.lt_asymm h
        simp [vcmp, vcmpNil, h, h2, Ordering.swap]
      · subst h
        simp [vcmp, vcmpNil, Nat.lt_irrefl, ih bs]
      · have h2 : ¬ a0 < b0 := Nat.lt_asymm h
        simp [vcmp, vcmpNil, h, h2, Ordering.swap]

/-- A trailing zero component on the right does not change the comparison. -/
theorem vcmp_padR_one : ∀ a b, vcmp a (b ++ [0]) = vcmp a b := by
  intro a
  induction a with
  | nil =>
    intro b
    induction b with
    | nil => simp [vcmp, vcmpNil, Ordering.swap]
    | cons b0 bs ihb =>
      by_cases h0 : b0 = 0
      · subst h0
        have ihb2 : vcmpNil (bs ++ [0]) = vcmpNil bs := ihb
        simp [vcmp, vcmpNil, ihb2]
      · simp [vcmp, vcmpNil, h0, Ordering.swap]
  | cons a0 xs ih =>
    intro b
    cases b with
    | nil =>
      by_cases h0 : a0 = 0
      · subst h0
        simp [vcmp, vcmpNil, vcmpNil]
      · have h1 : ¬ a0 < 0 := Nat.not_lt_zero a0
        have h2 : 0 < a0 := Nat.pos_of_ne_zero h0
        simp [vcmp, vcmpNil, h0, h1, h2]
    | cons b0 bs =>
      rcases Nat.lt_trichotomy a0 b0 with h | h | h
      · simp [vcmp, vcmpNil, h]
      · subst h
        simp [vcmp, vcmpNil, Nat.lt_irrefl, ih bs]
      · have h2 : ¬ a0 < b0 := Nat.lt_asymm h
        simp [vcmp, vcmpNil, h, h2]

/-- A trailing zero component on the left does not change the comparison. -/
theorem vcmp_padL_one (a b : List Nat) : vcmp (a ++ [0]) b = vcmp a b := by
  rw [vcmp_swap b (a ++ [0]), vcmp_padR_one b a, vcmp_swap a b, Ordering.swap_swap]

/-- Trailing zero components on the right do not change the comparison. -/
theorem vcmp_padR_rep : ∀ (k : Nat) (a b : List Nat),
    vcmp a (b ++ List.replicate k 0) = vcmp a b := by
  intro k
  induction k with
  | zero => simp
  | succ n ih =>
    intro a b
    rw [List.replicate_succ', ← List.append_assoc, vcmp_padR_one, ih]

/-- Trailing zero components on the left do not change the comparison. -/
theorem vcmp_padL_rep : ∀ (k : Nat) (a b : List Nat),
    vcmp (a ++ List.replicate k 0) b = vcmp a b := by
  intro k
  induction k with
  | zero => simp
  | succ n ih =>
    intro a b
    rw [List.replicate_succ', ← List.append_assoc, vcmp_padL_one, ih]

/-- Transitivity of the version order for equal-length tuples. -/
theorem vle_trans_eqlen : ∀ (a b c : List Nat), a.length = b.length → b.length = c.length →
    vle a b = true → vle b c = true → vle a c = true := by
  intro a
  induction a with
  | nil =>
    intro b c hab hbc h1 h2
    have hb : b = [] := List.eq_nil_of_length_eq_zero hab.symm
    subst hb
    have hc : c = [] := List.eq_nil_of_length_eq_zero hbc.symm
    subst hc
    exact h2
  | cons a0 xs ih =>
    intro b c hab hbc h1 h2
    cases b with
    | nil => simp at hab
    | cons b0 bs =>
      cases c with
      | nil => simp at hbc
      | cons c0 cs =>
        simp only [List.length_cons, Nat.succ.injEq] at hab hbc
        rcases Nat.lt_trichotomy a0 b0 with h | h | h
        · rcases Nat.lt_trichotomy b0 c0 with h3 | h3 | h3
          · have hac : a0 < c0 := Nat.lt_trans h h3
            simp [vle, vcmp, vcmpNil, hac]
            decide
          · subst h3
            simp [vle, vcmp, vcmpNil, h]
            decide
          · have hgt : ¬ b0 < c0 := Nat.lt_asymm h3
            simp [vle, vcmp, vcmpNil, hgt, h3] at h2
            exact absurd h2 (by decide)
        · subst h
          rcases Nat.lt_trichotomy a0 c0 with h3 | h3 | h3
          · simp [vle, vcmp, vcmpNil, h3]
            decide
          · subst h3
            simp only [vle, vcmp, Nat.lt_irrefl, if_false] at h1 h2 ⊢
            exact ih bs cs hab hbc h1 h2
          · have hn : ¬ a0 < c0 := Nat.lt_asymm h3
            simp [vle, vcmp, vcmpNil, hn, h3] at h2
            exact absurd h2 (by decide)
        · have hn : ¬ a0 < b0 := Nat.lt_asymm h
          simp [vle, vcmp, vcmpNil, hn, h] at h1
          exact absurd h1 (by decide)

/-- Transitivity of the version order. -/
theorem vle_trans (a b c : List Nat) (h1 : vle a b = true) (h2 : vle b c = true) :
    vle a c = true := by
  have hpad : ∀ x y : List Nat,
      vcmp (x ++ List.replicate (max a.length (max b.length c.length) - x.length) 0)
        (y ++ List.replicate (max a.length (max b.length c.length) - y.length) 0) = vcmp x y := by
    intro x y
    rw [vcmp_padR_rep, vcmp_padL_rep]
  have hlen : ∀ x : List Nat, x.length ≤ max a.length (max b.length c.length) →
      (x ++ List.replicate (max a.length (max b.length c.length) - x.length) 0).length =
        max a.length (max b.length c.length) := by
    intro x hx
    simp only [List.length_append, List.length_replicate]
    omega
  have ha : a.length ≤ max a.length (max b.length c.length) := le_max_left _ _
  have hb : b.length ≤ max a.length (max b.length c.length) :=
    le_trans (le_max_left _ _) (le_max_right _ _)
  have hc : c.length ≤ max a.length (max b.length c.length) :=
    le_trans (le_max_right _ _) (le_max_right _ _)
  have h1p : vle (a ++ List.replicate (max a.length (max b.length c.length) - a.length) 0)
      (b ++ List.replicate (max a.length (max b.length c.length) - b.length) 0) = true := by
    simp only [vle, hpad]
    exact h1
  have h2p : vle (b ++ List.replicate (max a.length (max b.length c.length) - b.length) 0)
      (c ++ List.replicate (max a.length (max b.length c.length) - c.length) 0) = true := by
    simp only [vle, hpad]
    exact h2
  have := vle_trans_eqlen _ _ _
    (by rw [hlen a ha, hlen b hb]) (by rw [hlen b hb, hlen c hc]) h1p h2p
  simp only [vle, hpad] at this
  exact this

/-- pyMaxV picks one of its arguments. -/
theorem pyMaxV_mem : ∀ (vs : List (List Nat)) (v : List Nat), pyMaxV v vs ∈ v :: vs := by
  intro vs
  induction vs with
  | nil =>
    intro v
    simp [pyMaxV]
  | cons x rest ih =>
    intro v
    rw [pyMaxV, List.foldl_cons]
    have h := ih (if vcmp v x == Ordering.lt then x else v)
    rw [pyMaxV] at h
    by_cases hlt : vcmp v x == Ordering.lt
    · rw [if_pos hlt] at h ⊢
      simp only [List.mem_cons] at h ⊢
      tauto
    · rw [if_neg hlt] at h ⊢
      simp only [List.mem_cons] at h ⊢
      tauto

/-- pyMaxV is an upper bound of its arguments in the version order. -/
theorem pyMaxV_le : ∀ (vs : List (List Nat)) (v : List Nat),
    ∀ x ∈ v :: vs, vle x (pyMaxV v vs) = true := by
  intro vs
  induction vs with
  | nil =>
    intro v x hx
    simp only [List.mem_singleton] at hx
    subst hx
    simp only [pyMaxV, List.foldl_nil]
    exact vle_refl x
  | cons y rest ih =>
    intro v x hx
    rw [pyMaxV, List.foldl_cons]
    have hv : vle v (if vcmp v y == Ordering.lt then y else v) = true := by
      cases hc : vcmp v y with
      | lt =>
        rw [if_pos (by decide : (Ordering.lt == Ordering.lt) = true)]
        simp only [vle, hc]
        decide
      | eq =>
        rw [if_neg (by decide : ¬ (Ordering.eq == Ordering.lt) = true)]
        exact vle_refl v
      | gt =>
        rw [if_neg (by decide : ¬ (Ordering.gt == Ordering.lt) = true)]
        exact vle_refl v
    have hy : vle y (if vcmp v y == Ordering.lt then y else v) = true := by
      cases hc : vcmp v y with
      | lt =>
        rw [if_pos (by decide : (Ordering.lt == Ordering.lt) = true)]
        exact vle_refl y
      | eq =>
        rw [if_neg (by decide : ¬ (Ordering.eq == Ordering.lt) = true)]
        have hs : vcmp y v = (vcmp v y).swap := vcmp_swap v y
        simp only [vle, hs, hc]
        decide
      | gt =>
        rw [if_neg (by decide : ¬ (Ordering.gt == Ordering.lt) = true)]
        have hs : vcmp y v = (vcmp v y).swap := vcmp_swap v y
        simp only [vle, hs, hc]
        decide
    have hrest := ih (if vcmp v y == Ordering.lt then y else v)
    have htop : vle (if vcmp v y == Ordering.lt then y else v)
        (pyMaxV (if vcmp v y == Ordering.lt then y else v) rest) = true :=
      hrest _ (List.mem_cons_self _ _)
    rw [pyMaxV] at htop hrest
    simp only [List.mem_cons] at hx
    rcases hx with rfl | rfl | hx
    · exact vle_trans _ _ _ hv htop
    · exact vle_trans _ _ _ hy htop
    · exact hrest x (List.mem_cons_of_mem _ hx)

/-- orExcept succeeds exactly on a present option. -/
theorem orExcept_ok_iff {α : Type} (o : Option α) (m : String) (v : α) :
    orExcept o m = Except.ok v ↔ o = some v := by
  cases o <;> simp [orExcept]

/-- A successful mapM of fallible parses gives a parse for every element, and
every output value is the parse of some element. -/
theorem mapM_orExcept_ok {α β : Type} (f : α → Option β) (e : String) :
    ∀ (l : List α) (out : List β),
    l.mapM (fun x => orExcept (f x) e) = Except.ok out →
    (∀ x ∈ l, ∃ v, f x = some v ∧ v ∈ out) ∧ (∀ v ∈ out, ∃ x ∈ l, f x = some v) := by
  intro l
  induction l with
  | nil =>
    intro out h
    rw [List.mapM_nil] at h
    have hout : [] = out := by
      simpa [pure, Except.pure] using h
    subst hout
    simp
  | cons x xs ih =>
    intro out h
    rw [List.mapM_cons] at h
    simp only [bind, Except.bind, pure, Except.pure] at h
    cases horx : orExcept (f x) e with
    | error err =>
      rw [horx] at h
      exact absurd h (by simp)
    | ok v =>
      rw [horx] at h
      cases hxs : xs.mapM (fun y => orExcept (f y) e) with
      | error err =>
        rw [hxs] at h
        exact absurd h (by simp)
      | ok vs =>
        rw [hxs] at h
        have hout : v :: vs = out := by
          simpa using h
        subst hout
        have hfv : f x = some v := (orExcept_ok_iff _ _ _).mp horx
        obtain ⟨ih1, ih2⟩ := ih vs hxs
        constructor
        · intro z hz
          rcases List.mem_cons.mp hz with rfl | hz
          · exact ⟨v, hfv, List.mem_cons_self _ _⟩
          · obtain ⟨w, hw1, hw2⟩ := ih1 z hz
            exact ⟨w, hw1, List.mem_cons_of_mem _ hw2⟩
        · intro w hw
          rcases List.mem_cons.mp hw with rfl | hw
          · exact ⟨x, List.mem_cons_self _ _, hfv⟩
          · obtain ⟨z, hz1, hz2⟩ := ih2 w hw
            exact ⟨z, List.mem_cons_of_mem _ hz1, hz2⟩

/-- A gene emitted by one gathering step of processCI either was already
gathered or is the gene of the examined link, and in the latter case the link
version parses and equals the latest version. -/
theorem ciGeneStep_mem (hgnc_data : List (String × HgncEntry)) (latest : List Nat)
    (acc : List String) (pg : String × String × String) (out : List String)
    (h : ciGeneStep hgnc_data latest acc pg = Except.ok out) :
    ∀ g ∈ out, g ∈ acc ∨ (pg.2.2 = g ∧ ∃ v, vparse pg.2.1 = some v ∧ veq v latest = true) := by
  rw [ciGeneStep] at h
  cases hpv : orExcept (vparse pg.2.1) "packaging InvalidVersion" with
  | error err =>
    rw [hpv] at h
    simp only [bind, Except.bind] at h
    exact absurd h (by simp)
  | ok pv =>
    rw [hpv] at h
    simp only [bind, Except.bind, pure, Except.pure] at h
    have hparse : vparse pg.2.1 = some pv := (orExcept_ok_iff _ _ _).mp hpv
    by_cases hveq : veq pv latest = true
    · rw [if_pos hveq] at h
      cases hke : keyed? hgnc_data pg.2.2 with
      | error err =>
        rw [hke] at h
        simp only [bind, Except.bind] at h
        exact absurd h (by simp)
      | ok he =>
        rw [hke] at h
        simp only [bind, Except.bind, pure, Except.pure] at h
        by_cases h1 : filter_out_gene he.locus_type "RNA" = true
        · rw [if_pos h1] at h
          have hout : acc = out := by simpa using h
          subst hout
          intro g hg
          exact Or.inl hg
        · rw [if_neg h1] at h
          by_cases h2 : filter_out_gene he.approved_name "mitochondrially encoded" = true
          · rw [if_pos h2] at h
            have hout : acc = out := by simpa using h
            subst hout
            intro g hg
            exact Or.inl hg
          · rw [if_neg h2] at h
            by_cases h3 : pg.2.2 = "HGNC:12029" ∨ pg.2.2 = "HGNC:5541"
            · rw [if_pos h3] at h
              have hout : acc = out := by simpa using h
              subst hout
              intro g hg
              exact Or.inl hg
            · rw [if_neg h3] at h
              have hout : acc ++ [pg.2.2] = out := by simpa using h
              subst hout
              intro g hg
              rcases List.mem_append.mp hg with hg2 | hg2
              · exact Or.inl hg2
              · have : pg.2.2 = g := by
                  simpa using (List.mem_singleton.mp hg2).symm
                exact Or.inr ⟨this, pv, hparse, hveq⟩
    · rw [if_neg hveq] at h
      have hout : acc = out := by simpa using h
      subst hout
      intro g hg
      exact Or.inl hg

/-- Genes gathered by the processCI fold come from links whose parsed version
equals the latest version. -/
theorem ciGeneFold_mem (hgnc_data : List (String × HgncEntry)) (latest : List Nat) :
    ∀ (pgs : List (String × String × String)) (acc out : List String),
    pgs.foldlM (ciGeneStep hgnc_data latest) acc = Except.ok out →
    ∀ g ∈ out, g ∈ acc ∨
      ∃ pg ∈ pgs, pg.2.2 = g ∧ ∃ v, vparse pg.2.1 = some v ∧ veq v latest = true := by
  intro pgs
  induction pgs with
  | nil =>
    intro acc out h
    rw [List.foldlM_nil] at h
    have hout : acc = out := by simpa [pure, Except.pure] using h
    subst hout
    intro g hg
    exact Or.inl hg
  | cons pg rest ih =>
    intro acc out h
    rw [List.foldlM_cons] at h
    simp only [bind, Except.bind] at h
    cases hstep : ciGeneStep hgnc_data latest acc pg with
    | error e =>
      rw [hstep] at h
      exact absurd h (by simp)
    | ok acc2 =>
      rw [hstep] at h
      intro g hg
      rcases ih acc2 out h g hg with hg2 | ⟨q, hq, hc⟩
      · rcases ciGeneStep_mem hgnc_data latest acc pg acc2 hstep g hg2 with hg3 | hc
        · exact Or.inl hg3
        · exact Or.inr ⟨pg, List.mem_cons_self _ _, hc⟩
      · exact Or.inr ⟨q, List.mem_cons_of_mem _ hq, hc⟩

/-- C8: for a panel linked to a clinical indication, the latest version
computed by get_clinical_indication_through_genes (processCI) is the maximum
under semantic-version order of the parsed version tags of that panel feature
links: it is the parse of one of the links, every link parsed version is
below or equal to it, and a gene reaches the gathered current gene set only
through a link whose parsed version equals it. -/
theorem C8_latest_is_semver_max (db : DB) (hgnc_data : List (String × HgncEntry))
    (panel_id : Nat) (latest : List Nat) (key : String) (ids : List String)
    (hok : processCI db hgnc_data panel_id = Except.ok (latest, key, ids)) :
    (∃ r ∈ ciQueryRows db panel_id, vparse r.2.2.1 = some latest)
    ∧ (∀ r ∈ ciQueryRows db panel_id, ∀ w, vparse r.2.2.1 = some w → vle w latest = true)
    ∧ (∀ g ∈ ids, ∃ r ∈ ciQueryRows db panel_id, r.2.2.2 = g
        ∧ ∃ v, vparse r.2.2.1 = some v ∧ veq v latest = true) := by
  simp only [processCI, bind, Except.bind, pure, Except.pure] at hok
  cases hm : (ciQueryRows db panel_id).mapM
      (fun d => orExcept (vparse d.2.2.1) "packaging InvalidVersion") with
  | error err =>
    rw [hm] at hok
    exact absurd hok (by simp)
  | ok parsed =>
    rw [hm] at hok
    cases parsed with
    | nil =>
      simp only [throw, throwThe, MonadExceptOf.throw] at hok
      exact absurd hok (by simp)
    | cons v vs =>
      simp only [] at hok
      cases hfold : ((ciQueryRows db panel_id).map
          (fun d => (d.1, d.2.2.1, d.2.2.2))).foldlM
          (ciGeneStep hgnc_data (pyMaxV v vs)) [] with
      | error err =>
        rw [hfold] at hok
        exact absurd hok (by simp)
      | ok out =>
        rw [hfold] at hok
        cases hlast : (((ciQueryRows db panel_id).map
            (fun d => (d.1, d.2.2.1, d.2.2.2))).map (fun pg => pg.1)).getLast? with
        | none =>
          rw [hlast] at hok
          simp only [orExcept] at hok
          exact absurd hok (by simp)
        | some lp =>
          rw [hlast] at hok
          simp only [orExcept, Except.ok.injEq, Prod.mk.injEq] at hok
          obtain ⟨hlatest, _, hids⟩ := hok
          obtain ⟨hm1, hm2⟩ := mapM_orExcept_ok
            (fun d => vparse d.2.2.1) "packaging InvalidVersion"
            (ciQueryRows db panel_id) (v :: vs) hm
          subst hlatest
          refine ⟨?_, ?_, ?_⟩
          · obtain ⟨r, hr, hpr⟩ := hm2 (pyMaxV v vs) (pyMaxV_mem vs v)
            exact ⟨r, hr, hpr⟩
          · intro r hr w hw
            obtain ⟨w2, hw2, hwmem⟩ := hm1 r hr
            rw [hw] at hw2
            cases hw2
            exact pyMaxV_le vs v w hwmem
          · intro g hg
            rw [← hids] at hg
            rcases ciGeneFold_mem hgnc_data (pyMaxV v vs) _ [] out hfold g hg with
              habs | ⟨pg, hpg, hpgg, w, hwp, hweq⟩
            · exact absurd habs (List.not_mem_nil g)
            · obtain ⟨r, hr, hrpg⟩ := List.mem_map.mp hpg
              refine ⟨r, hr, ?_, w, ?_, hweq⟩
              · rw [← hrpg] at hpgg
                exact hpgg
              · rw [← hrpg] at hwp
                exact hwp

def dbC8 : DB :=
  { panel := [{ pk := 1, panelapp_id := "123", name := "P", panel_type_id := 1 }],
    panel_features := [{ panel_id := 1, feature_id := 10, panel_version := "1.1" },
      { panel_id := 1, feature_id := 11, panel_version := "1.10" }],
    feature := [{ pk := 10, feature_type_id := 1, gene_id := some 20 },
      { pk := 11, feature_type_id := 1, gene_id := some 21 }],
    gene := [{ pk := 20, hgnc_id := "HGNC:1" }, { pk := 21, hgnc_id := "HGNC:2" }] }

def hgncC8 : List (String × HgncEntry) :=
  [("HGNC:1", { locus_type := "gene with protein product", approved_name := "alpha" }),
   ("HGNC:2", { locus_type := "gene with protein product", approved_name := "beta" })]

/-- Witness for C8 at a two-link panel whose versions are 1.1 and 1.10. -/
theorem C8_latest_is_semver_max_witness :
    processCI dbC8 hgncC8 1 = Except.ok ([1, 10], "P_1.10", ["HGNC:2"])
    ∧ ((∃ r ∈ ciQueryRows dbC8 1, vparse r.2.2.1 = some [1, 10])
      ∧ (∀ r ∈ ciQueryRows dbC8 1, ∀ w, vparse r.2.2.1 = some w → vle w [1, 10] = true)
      ∧ (∀ g ∈ ["HGNC:2"], ∃ r ∈ ciQueryRows dbC8 1, r.2.2.2 = g
          ∧ ∃ v, vparse r.2.2.1 = some v ∧ veq v [1, 10] = true)) :=
  ⟨by rfl,
   C8_latest_is_semver_max dbC8 hgncC8 1 [1, 10] "P_1.10" ["HGNC:2"] (by rfl)⟩

/-! Lemmas on the superpanel link copying, used by C2. -/

/-- One copy_feature step on a state split into subpanel-free initial links
plus already-copied superpanel links: a feature already copied is skipped,
a new one is appended as a link of the superpanel. -/
theorem copy_feature_char (spk : Nat) (V : String) (init added : List PFLink) (cnt : Nat)
    (f : Nat)
    (hinit : ∀ l ∈ init, l.panel_id ≠ spk)
    (hadded : ∀ l ∈ added, l.panel_id = spk ∧ l.panel_version = V) :
    (f ∈ added.map (fun l => l.feature_id) →
      copy_feature (init ++ added, cnt) spk V f = (init ++ added, cnt))
    ∧ (f ∉ added.map (fun l => l.feature_id) →
      copy_feature (init ++ added, cnt) spk V f =
        (init ++ (added ++ [add_panel_feature (cnt + 1) spk V f]), cnt + 1)) := by
  have hfilt : ((init ++ added).filter
      (fun o => o.panel_id == spk && o.feature_id == f && o.panel_version == V)) = [] ↔
      f ∉ added.map (fun l => l.feature_id) := by
    rw [List.filter_eq_nil_iff]
    constructor
    · intro h hf
      obtain ⟨l, hl, hlf⟩ := List.mem_map.mp hf
      have hnp := h l (List.mem_append_right _ hl)
      obtain ⟨hp, hv⟩ := hadded l hl
      apply hnp
      simp [hp, hv, hlf]
    · intro hf l hl
      rcases List.mem_append.mp hl with hl2 | hl2
      · have hne := hinit l hl2
        simp [hne]
      · obtain ⟨hp, hv⟩ := hadded l hl2
        intro hcontra
        simp only [hp, hv, beq_self_eq_true, Bool.true_and, Bool.and_true] at hcontra
        exact hf (List.mem_map.mpr ⟨l, hl2, by simpa using hcontra⟩)
  constructor
  · intro hf
    rw [copy_feature]
    have hne : ¬ ((init ++ added).filter
        (fun o => o.panel_id == spk && o.feature_id == f && o.panel_version == V)).isEmpty
        = true := by
      rw [List.isEmpty_iff]
      intro hnil
      exact (hfilt.mp hnil) hf
    rw [if_neg hne]
  · intro hf
    rw [copy_feature]
    have hemp : ((init ++ added).filter
        (fun o => o.panel_id == spk && o.feature_id == f && o.panel_version == V)).isEmpty
        = true := by
      rw [List.isEmpty_iff]
      exact hfilt.mpr hf
    rw [if_pos hemp]
    simp [List.append_assoc]

/-- The copy_feature fold over a feature list appends one superpanel link per
feature not yet copied; the copied feature set grows by exactly the folded
features and stays duplicate-free. -/
theorem copy_fold_char (spk : Nat) (V : String) (init : List PFLink)
    (hinit : ∀ l ∈ init, l.panel_id ≠ spk) :
    ∀ (fs : List Nat) (added : List PFLink) (cnt : Nat),
    (∀ l ∈ added, l.panel_id = spk ∧ l.panel_version = V) →
    ∃ added2 cnt2,
      fs.foldl (fun s f => copy_feature s spk V f) (init ++ added, cnt) =
        (init ++ (added ++ added2), cnt2)
      ∧ (∀ l ∈ added2, l.panel_id = spk ∧ l.panel_version = V)
      ∧ (∀ f, f ∈ (added ++ added2).map (fun l => l.feature_id) ↔
          f ∈ added.map (fun l => l.feature_id) ∨ f ∈ fs)
      ∧ ((added.map (fun l => l.feature_id)).Nodup →
          ((added ++ added2).map (fun l => l.feature_id)).Nodup) := by
  intro fs
  induction fs with
  | nil =>
    intro added cnt hadded
    exact ⟨[], cnt, by simp, by simp, by simp, by simp⟩
  | cons f rest ih =>
    intro added cnt hadded
    rw [List.foldl_cons]
    by_cases hf : f ∈ added.map (fun l => l.feature_id)
    · rw [(copy_feature_char spk V init added cnt f hinit hadded).1 hf]
      obtain ⟨a2, c2, h1, h2, h3, h4⟩ := ih added cnt hadded
      refine ⟨a2, c2, h1, h2, ?_, h4⟩
      intro x
      rw [h3 x]
      simp only [List.mem_cons]
      constructor
      · rintro (hx | hx)
        · exact Or.inl hx
        · exact Or.inr (Or.inr hx)
      · rintro (hx | rfl | hx)
        · exact Or.inl hx
        · exact Or.inl hf
        · exact Or.inr hx
    · rw [(copy_feature_char spk V init added cnt f hinit hadded).2 hf]
      have haddednew : ∀ l ∈ added ++ [add_panel_feature (cnt + 1) spk V f],
          l.panel_id = spk ∧ l.panel_version = V := by
        intro l hl
        rcases List.mem_append.mp hl with hl2 | hl2
        · exact hadded l hl2
        · rw [List.mem_singleton.mp hl2]
          exact ⟨rfl, rfl⟩
      obtain ⟨a2, c2, h1, h2, h3, h4⟩ := ih (added ++ [add_panel_feature (cnt + 1) spk V f])
        (cnt + 1) haddednew
      refine ⟨[add_panel_feature (cnt + 1) spk V f] ++ a2, c2, ?_, ?_, ?_, ?_⟩
      · rw [h1, List.append_assoc]
      · intro l hl
        rcases List.mem_append.mp hl with hl2 | hl2
        · rw [List.mem_singleton.mp hl2]
          exact ⟨rfl, rfl⟩
        · exact h2 l hl2
      · intro x
        have hx3 := h3 x
        rw [← List.append_assoc]
        rw [hx3]
        simp only [List.map_append, List.map_cons, List.map_nil, List.mem_append,
          List.mem_singleton, List.mem_cons, add_panel_feature]
        tauto
      · intro hnd
        rw [← List.append_assoc]
        apply h4
        simp only [List.map_append, List.map_cons, List.map_nil, add_panel_feature]
        rw [List.nodup_append]
        refine ⟨hnd, List.nodup_singleton _, ?_⟩
        intro x hx
        simp only [List.mem_singleton]
        intro hcontra
        subst hcontra
        exact hf hx

/-- One subpanel iteration: the snapshot of links of the resolved subpanel is
taken from the initial links only, and its features are merged into the
superpanel links without duplicates. -/
theorem process_subpanel_char (pj : List PanelObj) (spk : Nat) (V : String)
    (init : List PFLink) (hinit : ∀ l ∈ init, l.panel_id ≠ spk)
    (added : List PFLink) (cnt : Nat) (sub : SubpanelEntry)
    (hadded : ∀ l ∈ added, l.panel_id = spk ∧ l.panel_version = V)
    (out : List PFLink × Nat)
    (hok : process_subpanel pj spk V (init ++ added, cnt) sub = Except.ok out)
    (hfr : ∀ subpk, get_existing_pk_by pj (fun o => o.panelapp_id) sub.id (fun o => o.pk) =
        Except.ok subpk → subpk ≠ spk) :
    ∃ subpk added2,
      get_existing_pk_by pj (fun o => o.panelapp_id) sub.id (fun o => o.pk) = Except.ok subpk
      ∧ out.1 = init ++ (added ++ added2)
      ∧ (∀ l ∈ added2, l.panel_id = spk ∧ l.panel_version = V)
      ∧ (∀ f, f ∈ (added ++ added2).map (fun l => l.feature_id) ↔
          f ∈ added.map (fun l => l.feature_id)
          ∨ ∃ l ∈ init, l.panel_id = subpk ∧ l.feature_id = f)
      ∧ ((added.map (fun l => l.feature_id)).Nodup →
          ((added ++ added2).map (fun l => l.feature_id)).Nodup) := by
  rw [process_subpanel] at hok
  cases hres : get_existing_pk_by pj (fun o => o.panelapp_id) sub.id (fun o => o.pk) with
  | error e =>
    rw [hres] at hok
    simp only [bind, Except.bind] at hok
    exact absurd hok (by simp)
  | ok subpk =>
    rw [hres] at hok
    simp only [bind, Except.bind, pure, Except.pure] at hok
    have hne := hfr subpk hres
    cases hlinks : get_links (init ++ added) subpk with
    | error e =>
      rw [hlinks] at hok
      exact absurd hok (by simp)
    | ok p2f =>
      rw [hlinks] at hok
      have hp2f : p2f = init.filter (fun l => l.panel_id == subpk) := by
        rw [get_links] at hlinks
        have haddf : added.filter (fun l => l.panel_id == subpk) = [] := by
          rw [List.filter_eq_nil_iff]
          intro l hl
          have hp := (hadded l hl).1
          simp [hp, Ne.symm hne]
        rw [List.filter_append, haddf, List.append_nil] at hlinks
        cases hcase : init.filter (fun l => l.panel_id == subpk) with
        | nil =>
          rw [hcase] at hlinks
          exact absurd hlinks (by simp)
        | cons x xs =>
          rw [hcase] at hlinks
          have heq : x :: xs = p2f := by simpa using hlinks
          rw [← heq]
      obtain ⟨added2, cnt2, hfold, h2, h3, h4⟩ := copy_fold_char spk V init hinit
        (p2f.map (fun l => l.feature_id)) added cnt hadded
      rw [List.foldl_map] at hfold
      simp only [] at hok
      rw [hfold] at hok
      have hout : out = (init ++ (added ++ added2), cnt2) := by
        simpa using hok.symm
      refine ⟨subpk, added2, rfl, by rw [hout], h2, ?_, h4⟩
      intro f
      rw [h3 f]
      constructor
      · rintro (hf | hf)
        · exact Or.inl hf
        · obtain ⟨l, hl, hlf⟩ := List.mem_map.mp hf
          rw [hp2f] at hl
          obtain ⟨hl2, hl3⟩ := List.mem_filter.mp hl
          exact Or.inr ⟨l, hl2, by simpa using hl3, hlf⟩
      · rintro (hf | ⟨l, hl, hlp, hlf⟩)
        · exact Or.inl hf
        · refine Or.inr (List.mem_map.mpr ⟨l, ?_, hlf⟩)
          rw [hp2f]
          exact List.mem_filter.mpr ⟨hl, by simp [hlp]⟩

/-- The subpanel fold of process_superpanel: the final link list is the
initial one plus one link per distinct feature of the resolved subpanels,
all carried by the superpanel at the superpanel dump version, without
duplicate (superpanel, feature, version) links. -/
theorem subpanel_fold_char (pj : List PanelObj) (spk : Nat) (V : String)
    (init : List PFLink) (hinit : ∀ l ∈ init, l.panel_id ≠ spk) :
    ∀ (subs : List (String × SubpanelEntry)) (added : List PFLink) (cnt : Nat)
      (out : List PFLink × Nat),
    (∀ l ∈ added, l.panel_id = spk ∧ l.panel_version = V) →
    (∀ sub ∈ subs, ∀ subpk, get_existing_pk_by pj (fun o => o.panelapp_id) sub.2.id
        (fun o => o.pk) = Except.ok subpk → subpk ≠ spk) →
    subs.foldlM (fun st sub => process_subpanel pj spk V st sub.2) (init ++ added, cnt) =
      Except.ok out →
    ∃ added2,
      out.1 = init ++ (added ++ added2)
      ∧ (∀ l ∈ added2, l.panel_id = spk ∧ l.panel_version = V)
      ∧ (∀ f, f ∈ (added ++ added2).map (fun l => l.feature_id) ↔
          f ∈ added.map (fun l => l.feature_id)
          ∨ ∃ sub ∈ subs, ∃ subpk,
              get_existing_pk_by pj (fun o => o.panelapp_id) sub.2.id (fun o => o.pk) =
                Except.ok subpk ∧ ∃ l ∈ init, l.panel_id = subpk ∧ l.feature_id = f)
      ∧ ((added.map (fun l => l.feature_id)).Nodup →
          ((added ++ added2).map (fun l => l.feature_id)).Nodup) := by
  intro subs
  induction subs with
  | nil =>
    intro added cnt out hadded hfr hok
    rw [List.foldlM_nil] at hok
    have hout : (init ++ added, cnt) = out := by simpa [pure, Except.pure] using hok
    refine ⟨[], ?_, by simp, by simp, by simp⟩
    rw [← hout]
    simp
  | cons sub rest ih =>
    intro added cnt out hadded hfr hok
    rw [List.foldlM_cons] at hok
    cases hstep : process_subpanel pj spk V (init ++ added, cnt) sub.2 with
    | error e =>
      rw [hstep] at hok
      simp only [bind, Except.bind] at hok
      exact absurd hok (by simp)
    | ok mid =>
      rw [hstep] at hok
      simp only [bind, Except.bind] at hok
      obtain ⟨subpk, a2, hres, hmid1, ha2, hmem2, hnd2⟩ :=
        process_subpanel_char pj spk V init hinit added cnt sub.2 hadded mid hstep
          (hfr sub (List.mem_cons_self _ _))
      have hmid : mid = (init ++ (added ++ a2), mid.2) := by
        rw [← hmid1]
      rw [hmid] at hok
      have ha2' : ∀ l ∈ added ++ a2, l.panel_id = spk ∧ l.panel_version = V := by
        intro l hl
        rcases List.mem_append.mp hl with hl2 | hl2
        · exact hadded l hl2
        · exact ha2 l hl2
      obtain ⟨a3, hout1, ha3, hmem3, hnd3⟩ := ih (added ++ a2) mid.2 out ha2'
        (fun s hs => hfr s (List.mem_cons_of_mem _ hs)) hok
      refine ⟨a2 ++ a3, ?_, ?_, ?_, ?_⟩
      · rw [hout1, List.append_assoc]
      · intro l hl
        rcases List.mem_append.mp hl with hl2 | hl2
        · exact ha2 l hl2
        · exact ha3 l hl2
      · intro f
        have h1 := hmem3 f
        have h2 := hmem2 f
        rw [← List.append_assoc]
        rw [h1, h2]
        simp only [List.mem_cons]
        constructor
        · rintro ((hf | hf) | ⟨s, hs, w⟩)
          · exact Or.inl hf
          · exact Or.inr ⟨sub, Or.inl rfl, subpk, hres, hf⟩
          · exact Or.inr ⟨s, Or.inr hs, w⟩
        · rintro (hf | ⟨s, (rfl | hs), w⟩)
          · exact Or.inl (Or.inl hf)
          · obtain ⟨pk2, hpk2, hw⟩ := w
            rw [hres] at hpk2
            have : subpk = pk2 := by simpa using hpk2
            subst this
            exact Or.inl (Or.inr hw)
          · exact Or.inr ⟨s, hs, w⟩
      · intro hnd
        rw [← List.append_assoc]
        exact hnd3 (hnd2 hnd)

/-- spObjC2 is the Panel object process_superpanel creates for a superpanel. -/
def spObjC2 (spk : Nat) (sid : String) (sdata : SuperpanelEntry) (ptk : Nat) : PanelObj :=
  { pk := spk, panelapp_id := sid, name := sdata.name, panel_type_id := ptk }

/-- spObjC2 written as a record literal. -/
theorem spObjC2_def (spk : Nat) (sid : String) (sdata : SuperpanelEntry) (ptk : Nat) :
    spObjC2 spk sid sdata ptk = { pk := spk, panelapp_id := sid, name := sdata.name, panel_type_id := ptk } := rfl

/-- C2: the builder copies each subpanel feature link onto the superpanel:
after one superpanel iteration the link list is the initial one plus links
that all carry the superpanel key and its dump version, whose feature set is
exactly the union over the subpanels of the features linked to the resolved
subpanel keys, with no (superpanel, feature, version) duplicate; and the
check recomputes a superpanel expected gene set as the union over its dump
subpanels of the subpanel gene sets, reading no stored superpanel gene set. -/
theorem C2_superpanel_feature_union
    (ptj : List (Nat × String)) (acc : List PanelObj × List PFLink × Nat)
    (spk ptk : Nat) (sid : String) (sdata : SuperpanelEntry)
    (pj : List PanelObj) (links : List PFLink) (cnt : Nat)
    (hpt : get_existing_pk_by ptj Prod.snd sdata.ptype Prod.fst = Except.ok ptk)
    (hfresh : ∀ l ∈ acc.2.1, l.panel_id ≠ spk)
    (hsub : ∀ sub ∈ sdata.subpanels, ∀ subpk,
       get_existing_pk_by (acc.1 ++ [spObjC2 spk sid sdata ptk]) (fun o => o.panelapp_id)
         sub.2.id (fun o => o.pk) = Except.ok subpk → subpk ≠ spk)
    (hok : process_superpanel ptj acc spk sid sdata = Except.ok (pj, links, cnt)) :
    (pj = acc.1 ++ [spObjC2 spk sid sdata ptk]
      ∧ ∃ added, links = acc.2.1 ++ added
        ∧ (∀ l ∈ added, l.panel_id = spk ∧ l.panel_version = sdata.version)
        ∧ (added.map (fun l => l.feature_id)).Nodup
        ∧ (∀ f, f ∈ added.map (fun l => l.feature_id) ↔
            ∃ sub ∈ sdata.subpanels, ∃ subpk,
              get_existing_pk_by (acc.1 ++ [spObjC2 spk sid sdata ptk])
                (fun o => o.panelapp_id) sub.2.id (fun o => o.pk) = Except.ok subpk
              ∧ ∃ l ∈ acc.2.1, l.panel_id = subpk ∧ l.feature_id = f))
    ∧ (∀ (pd : List (String × PanelEntry)) (sd : List (String × SuperpanelEntry))
         (pid : String) (sp : SuperpanelEntry) (g : String),
       pd.lookup pid = none → sd.lookup pid = some sp →
       (g ∈ hgncIdsFor pd sd pid ↔ ∃ sub ∈ sp.subpanels, g ∈ paGenes pd sub.1)) := by
  constructor
  · simp only [process_superpanel, bind, Except.bind, pure, Except.pure] at hok
    rw [hpt] at hok
    simp only [] at hok
    rw [← spObjC2_def spk sid sdata ptk] at hok
    cases hfold : sdata.subpanels.foldlM
        (fun st sub => process_subpanel (acc.1 ++ [spObjC2 spk sid sdata ptk])
          spk sdata.version st sub.2)
        (acc.2.1, acc.2.2) with
    | error e =>
      rw [hfold] at hok
      exact absurd hok (by simp)
    | ok st =>
      rw [hfold] at hok
      have hfold2 : sdata.subpanels.foldlM
          (fun st sub => process_subpanel (acc.1 ++ [spObjC2 spk sid sdata ptk])
            spk sdata.version st sub.2)
          (acc.2.1 ++ [], acc.2.2) = Except.ok st := by
        rw [List.append_nil]
        exact hfold
      obtain ⟨added2, hout1, ha2, hmem, hnd⟩ := subpanel_fold_char
        (acc.1 ++ [spObjC2 spk sid sdata ptk]) spk sdata.version acc.2.1 hfresh
        sdata.subpanels [] acc.2.2 st (by simp) hsub hfold2
      have hinj : acc.1 ++ [spObjC2 spk sid sdata ptk] = pj ∧ st.1 = links ∧ st.2 = cnt := by
        simpa [Prod.ext_iff] using hok
      obtain ⟨hpj, hlinks, _⟩ := hinj
      refine ⟨hpj.symm, added2, ?_, ha2, ?_, ?_⟩
      · rw [← hlinks, hout1]
        simp
      · have := hnd (by simp)
        simpa using this
      · intro f
        have hm := hmem f
        simp only [List.nil_append] at hm
        rw [hm]
        simp
  · intro pd sd pid sp g h1 h2
    simp only [hgncIdsFor, h1, h2]
    rw [mem_foldl_sunion]
    simp

def ptjC2 : List (Nat × String) := [(1, "super")]

def pjC2W : List PanelObj :=
  [{ pk := 1, panelapp_id := "111", name := "A", panel_type_id := 1 },
   { pk := 2, panelapp_id := "222", name := "B", panel_type_id := 1 }]

def linksC2W : List PFLink :=
  [{ pk := 1, panel_version := "1.0", description := "", panel_id := 1, feature_id := 100 },
   { pk := 2, panel_version := "1.0", description := "", panel_id := 1, feature_id := 101 },
   { pk := 3, panel_version := "1.5", description := "", panel_id := 2, feature_id := 100 }]

def subAC2 : String × SubpanelEntry := ("111", { name := "A", id := "111", version := "1.0" })

def subBC2 : String × SubpanelEntry := ("222", { name := "B", id := "222", version := "1.5" })

def sdataC2 : SuperpanelEntry :=
  { subpanels := [subAC2, subBC2], name := "SP", version := "2.0", signedoff := "20200101",
    ptype := "super" }

def accC2 : List PanelObj × List PFLink × Nat := (pjC2W, linksC2W, 3)

def pjOutC2 : List PanelObj := pjC2W ++ [spObjC2 3 "333" sdataC2 1]

def linkS4C2 : PFLink :=
  { pk := 4, panel_version := "2.0", description := "", panel_id := 3, feature_id := 100 }

def linkS5C2 : PFLink :=
  { pk := 5, panel_version := "2.0", description := "", panel_id := 3, feature_id := 101 }

def linksOutC2 : List PFLink := linksC2W ++ [linkS4C2, linkS5C2]

/-- Witness for C2: a superpanel over two subpanels sharing feature 100. -/
theorem C2_superpanel_feature_union_witness :
    (pjOutC2 = accC2.1 ++ [spObjC2 3 "333" sdataC2 1]
      ∧ ∃ added, linksOutC2 = accC2.2.1 ++ added
        ∧ (∀ l ∈ added, l.panel_id = 3 ∧ l.panel_version = sdataC2.version)
        ∧ (added.map (fun l => l.feature_id)).Nodup
        ∧ (∀ f, f ∈ added.map (fun l => l.feature_id) ↔
            ∃ sub ∈ sdataC2.subpanels, ∃ subpk,
              get_existing_pk_by (accC2.1 ++ [spObjC2 3 "333" sdataC2 1])
                (fun o => o.panelapp_id) sub.2.id (fun o => o.pk) = Except.ok subpk
              ∧ ∃ l ∈ accC2.2.1, l.panel_id = subpk ∧ l.feature_id = f))
    ∧ (∀ (pd : List (String × PanelEntry)) (sd : List (String × SuperpanelEntry))
         (pid : String) (sp : SuperpanelEntry) (g : String),
       pd.lookup pid = none → sd.lookup pid = some sp →
       (g ∈ hgncIdsFor pd sd pid ↔ ∃ sub ∈ sp.subpanels, g ∈ paGenes pd sub.1)) :=
  C2_superpanel_feature_union ptjC2 accC2 3 1 "333" sdataC2 pjOutC2 linksOutC2 5
    (by rfl) (by decide)
    (by
      intro sub hs subpk hres
      have hs2 : sub = subAC2 ∨ sub = subBC2 := by
        simpa [sdataC2] using hs
      rcases hs2 with rfl | rfl
      · have hc : get_existing_pk_by (accC2.1 ++ [spObjC2 3 "333" sdataC2 1])
            (fun o => o.panelapp_id) subAC2.2.id (fun o => o.pk) = Except.ok 1 := by rfl
        rw [hc] at hres
        have h1 : (1 : Nat) = subpk := by simpa using hres
        omega
      · have hc : get_existing_pk_by (accC2.1 ++ [spObjC2 3 "333" sdataC2 1])
            (fun o => o.panelapp_id) subBC2.2.id (fun o => o.pk) = Except.ok 2 := by rfl
        rw [hc] at hres
        have h1 : (2 : Nat) = subpk := by simpa using hres
        omega)
    (by rfl)

/-! Region uniqueness infrastructure for C3. -/

namespace Gen

/-- RegionInv is the region bookkeeping invariant of create_django_json:
the two reference rows are fixed, emitted Region rows have distinct primary
keys bounded by the region counter and correspond exactly to the entries of
region_dict (whose key fields they carry, the build name determining the
stored reference id), region_dict keys are distinct, and every Exon,
RegionStr and RegionCnv row references an emitted Region primary key. -/
structure RegionInv (rp : Nat) (st : GenState) : Prop where
  href : st.reference_json = [{ pk := rp, name := "GRCh37" }, { pk := rp + 1, name := "GRCh38" }]
  hnodup : (st.region_json.map (fun r => r.pk)).Nodup
  hle : ∀ r ∈ st.region_json, r.pk ≤ st.pk.region
  hjson : ∀ r ∈ st.region_json, ∃ kv ∈ st.region_dict, kv.2 = r
  hdict : ∀ kv ∈ st.region_dict, kv.2 ∈ st.region_json
      ∧ kv.2.chrom = kv.1.1 ∧ kv.2.start = kv.1.2.2.1 ∧ kv.2.end_ = kv.1.2.2.2
      ∧ (kv.1.2.1 = "GRCh37" ∨ kv.1.2.1 = "GRCh38")
      ∧ kv.2.reference = (if kv.1.2.1 = "GRCh37" then rp else rp + 1)
  hkeys : (st.region_dict.map Prod.fst).Nodup
  hexon : ∀ e ∈ st.exon_json, ∃ r ∈ st.region_json, r.pk = e.region
  hstr : ∀ l ∈ st.regionstr_json, ∃ r ∈ st.region_json, r.pk = l.region
  hcnv : ∀ l ∈ st.regioncnv_json, ∃ r ∈ st.region_json, r.pk = l.region

/-- A state change that leaves every region-related field alone preserves the
invariant. -/
theorem regioninv_of_eqs (rp : Nat) (st st' : GenState)
    (h1 : st'.reference_json = st.reference_json) (h2 : st'.region_json = st.region_json)
    (h3 : st'.region_dict = st.region_dict) (h4 : st'.pk.region = st.pk.region)
    (h5 : st'.exon_json = st.exon_json) (h6 : st'.regionstr_json = st.regionstr_json)
    (h7 : st'.regioncnv_json = st.regioncnv_json) (hinv : RegionInv rp st) :
    RegionInv rp st' := by
  refine ⟨?_, ?_, ?_, ?_, ?_, ?_, ?_, ?_, ?_⟩ <;>
    simp only [h1, h2, h3, h4, h5, h6, h7] <;> first
      | exact hinv.href
      | exact hinv.hnodup
      | exact hinv.hle
      | exact hinv.hjson
      | exact hinv.hdict
      | exact hinv.hkeys
      | exact hinv.hexon
      | exact hinv.hstr
      | exact hinv.hcnv

/-- Appending an Exon row that references an existing Region row preserves
the invariant. -/
theorem regioninv_add_exon (rp : Nat) (st st' : GenState) (e : ExonObj)
    (h1 : st'.reference_json = st.reference_json) (h2 : st'.region_json = st.region_json)
    (h3 : st'.region_dict = st.region_dict) (h4 : st'.pk.region = st.pk.region)
    (h5 : st'.exon_json = st.exon_json ++ [e]) (h6 : st'.regionstr_json = st.regionstr_json)
    (h7 : st'.regioncnv_json = st.regioncnv_json)
    (he : ∃ r ∈ st.region_json, r.pk = e.region) (hinv : RegionInv rp st) :
    RegionInv rp st' := by
  refine ⟨?_, ?_, ?_, ?_, ?_, ?_, ?_, ?_, ?_⟩ <;>
    simp only [h1, h2, h3, h4, h5, h6, h7] <;> first
      | exact hinv.href
      | exact hinv.hnodup
      | exact hinv.hle
      | exact hinv.hjson
      | exact hinv.hdict
      | exact hinv.hkeys
      | (intro x hx
         rcases List.mem_append.mp hx with hx2 | hx2
         · exact hinv.hexon x hx2
         · rw [List.mem_singleton.mp hx2]
           exact he)
      | exact hinv.hstr
      | exact hinv.hcnv

/-- Appending a RegionStr link that references an existing Region row
preserves the invariant. -/
theorem regioninv_add_regionstr (rp : Nat) (st st' : GenState) (l : RegionStrObj)
    (h1 : st'.reference_json = st.reference_json) (h2 : st'.region_json = st.region_json)
    (h3 : st'.region_dict = st.region_dict) (h4 : st'.pk.region = st.pk.region)
    (h5 : st'.exon_json = st.exon_json) (h6 : st'.regionstr_json = st.regionstr_json ++ [l])
    (h7 : st'.regioncnv_json = st.regioncnv_json)
    (hl : ∃ r ∈ st.region_json, r.pk = l.region) (hinv : RegionInv rp st) :
    RegionInv rp st' := by
  refine ⟨?_, ?_, ?_, ?_, ?_, ?_, ?_, ?_, ?_⟩ <;>
    simp only [h1, h2, h3, h4, h5, h6, h7] <;> first
      | exact hinv.href
      | exact hinv.hnodup
      | exact hinv.hle
      | exact hinv.hjson
      | exact hinv.hdict
      | exact hinv.hkeys
      | exact hinv.hexon
      | (intro x hx
         rcases List.mem_append.mp hx with hx2 | hx2
         · exact hinv.hstr x hx2
         · rw [List.mem_singleton.mp hx2]
           exact hl)
      | exact hinv.hcnv

/-- Appending a RegionCnv link that references an existing Region row
preserves the invariant. -/
theorem regioninv_add_regioncnv (rp : Nat) (st st' : GenState) (l : RegionCnvObj)
    (h1 : st'.reference_json = st.reference_json) (h2 : st'.region_json = st.region_json)
    (h3 : st'.region_dict = st.region_dict) (h4 : st'.pk.region = st.pk.region)
    (h5 : st'.exon_json = st.exon_json) (h6 : st'.regionstr_json = st.regionstr_json)
    (h7 : st'.regioncnv_json = st.regioncnv_json ++ [l])
    (hl : ∃ r ∈ st.region_json, r.pk = l.region) (hinv : RegionInv rp st) :
    RegionInv rp st' := by
  refine ⟨?_, ?_, ?_, ?_, ?_, ?_, ?_, ?_, ?_⟩ <;>
    simp only [h1, h2, h3, h4, h5, h6, h7] <;> first
      | exact hinv.href
      | exact hinv.hnodup
      | exact hinv.hle
      | exact hinv.hjson
      | exact hinv.hdict
      | exact hinv.hkeys
      | exact hinv.hexon
      | exact hinv.hstr
      | (intro x hx
         rcases List.mem_append.mp hx with hx2 | hx2
         · exact hinv.hcnv x hx2
         · rw [List.mem_singleton.mp hx2]
           exact hl)

end Gen

/-- A monadic fold preserves any invariant its step preserves. -/
theorem foldlM_inv {σ α : Type} (P : σ → Prop) (f : σ → α → Except String σ)
    (hf : ∀ s x out, P s → f s x = Except.ok out → P out) :
    ∀ (l : List α) (s out : σ), P s → l.foldlM f s = Except.ok out → P out := by
  intro l
  induction l with
  | nil =>
    intro s out hP h
    rw [List.foldlM_nil] at h
    have hso : s = out := by simpa [pure, Except.pure] using h
    rw [← hso]
    exact hP
  | cons x xs ih =>
    intro s out hP h
    rw [List.foldlM_cons] at h
    simp only [bind, Except.bind] at h
    cases hs : f s x with
    | error e =>
      rw [hs] at h
      exact absurd h (by simp)
    | ok s2 =>
      rw [hs] at h
      exact ih s2 out (hf s x s2 hP hs) h

/-- A pure fold preserves any invariant its step preserves. -/
theorem foldl_inv {σ α : Type} (P : σ → Prop) (f : σ → α → σ)
    (hf : ∀ s x, P s → P (f s x)) : ∀ (l : List α) (s : σ), P s → P (l.foldl f s) := by
  intro l
  induction l with
  | nil =>
    intro s h
    simpa using h
  | cons x xs ih =>
    intro s h
    rw [List.foldl_cons]
    exact ih _ (hf s x h)

namespace Gen

/-- refLookup over the fixed reference rows resolves the two build names to
their primary keys. -/
theorem refLookup_builds (rp : Nat) (st : GenState)
    (href : st.reference_json =
      [{ pk := rp, name := "GRCh37" }, { pk := rp + 1, name := "GRCh38" }]) :
    refLookup st.reference_json "GRCh37" = Except.ok (rp, "GRCh37")
    ∧ refLookup st.reference_json "GRCh38" = Except.ok (rp + 1, "GRCh38") := by
  rw [href]
  exact ⟨rfl, rfl⟩

/-- get_or_create_region preserves the region invariant; it returns the
primary key of an emitted Region row and only appends to region_json,
touching no other region-related output. -/
theorem get_or_create_region_inv (rp : Nat) (st : GenState) (chrom refname : String)
    (refid : Nat) (s0 e0 : String)
    (hinv : RegionInv rp st)
    (hname : refname = "GRCh37" ∨ refname = "GRCh38")
    (hrefid : refid = if refname = "GRCh37" then rp else rp + 1) :
    RegionInv rp (get_or_create_region st chrom refname refid s0 e0).1
    ∧ (∃ r ∈ (get_or_create_region st chrom refname refid s0 e0).1.region_json,
        r.pk = (get_or_create_region st chrom refname refid s0 e0).2)
    ∧ (∀ x ∈ st.region_json, x ∈ (get_or_create_region st chrom refname refid s0 e0).1.region_json)
    ∧ (get_or_create_region st chrom refname refid s0 e0).1.reference_json = st.reference_json
    ∧ (get_or_create_region st chrom refname refid s0 e0).1.exon_json = st.exon_json
    ∧ (get_or_create_region st chrom refname refid s0 e0).1.regionstr_json = st.regionstr_json
    ∧ (get_or_create_region st chrom refname refid s0 e0).1.regioncnv_json = st.regioncnv_json := by
  cases hfind : rdFind st.region_dict (chrom, refname, s0, e0) with
  | some robj =>
    simp only [get_or_create_region, hfind]
    refine ⟨hinv, ?_, fun x hx => hx, trivial, trivial, trivial, trivial⟩
    rw [rdFind] at hfind
    cases hf2 : st.region_dict.find? (fun kv => kv.1 == (chrom, refname, s0, e0)) with
    | none =>
      rw [hf2] at hfind
      exact absurd hfind (by simp)
    | some kv =>
      rw [hf2] at hfind
      have hkv : kv.2 = robj := by simpa using hfind
      have hmem := List.mem_of_find?_eq_some hf2
      have hj := (hinv.hdict kv hmem).1
      exact ⟨robj, hkv ▸ hj, rfl⟩
  | none =>
    have hkeynew : ((chrom, refname, s0, e0) : RegionKey) ∉ st.region_dict.map Prod.fst := by
      intro hk
      obtain ⟨kv, hkv, hkeq⟩ := List.mem_map.mp hk
      rw [rdFind] at hfind
      cases hf2 : st.region_dict.find? (fun kv => kv.1 == (chrom, refname, s0, e0)) with
      | some kv2 =>
        rw [hf2] at hfind
        exact absurd hfind (by simp)
      | none =>
        have hfalse := List.find?_eq_none.mp hf2 kv hkv
        simp [hkeq] at hfalse
    simp only [get_or_create_region, hfind]
    refine ⟨?_, ?_, ?_, trivial, trivial, trivial, trivial⟩
    · refine ⟨hinv.href, ?_, ?_, ?_, ?_, ?_, ?_, ?_, ?_⟩
      · rw [List.map_append, List.nodup_append]
        refine ⟨hinv.hnodup, by simp, ?_⟩
        intro x hx
        obtain ⟨r, hr, hrp⟩ := List.mem_map.mp hx
        have hle := hinv.hle r hr
        simp only [List.map_cons, List.map_nil, List.mem_singleton]
        intro hcontra
        rw [hcontra] at hrp
        omega
      · intro r hr
        show r.pk ≤ st.pk.region + 1
        rcases List.mem_append.mp hr with hr2 | hr2
        · have := hinv.hle r hr2
          omega
        · rw [List.mem_singleton.mp hr2]
      · intro r hr
        rcases List.mem_append.mp hr with hr2 | hr2
        · obtain ⟨kv, hkv, hkveq⟩ := hinv.hjson r hr2
          exact ⟨kv, List.mem_append_left _ hkv, hkveq⟩
        · rw [List.mem_singleton.mp hr2]
          refine ⟨_, List.mem_append_right _ (List.mem_singleton_self _), rfl⟩
      · intro kv hkv
        rcases List.mem_append.mp hkv with hkv2 | hkv2
        · obtain ⟨hj, hc, hs, he, hn, hrf⟩ := hinv.hdict kv hkv2
          exact ⟨List.mem_append_left _ hj, hc, hs, he, hn, hrf⟩
        · rw [List.mem_singleton.mp hkv2]
          refine ⟨List.mem_append_right _ (List.mem_singleton_self _), rfl, rfl, rfl, hname, ?_⟩
          simpa using hrefid
      · rw [List.map_append, List.nodup_append]
        refine ⟨hinv.hkeys, by simp, ?_⟩
        intro x hx
        simp only [List.map_cons, List.map_nil, List.mem_singleton]
        intro hcontra
        rw [hcontra] at hx
        exact hkeynew hx
      · intro e he
        obtain ⟨r, hr, hrp⟩ := hinv.hexon e he
        exact ⟨r, List.mem_append_left _ hr, hrp⟩
      · intro l hl
        obtain ⟨r, hr, hrp⟩ := hinv.hstr l hl
        exact ⟨r, List.mem_append_left _ hr, hrp⟩
      · intro l hl
        obtain ⟨r, hr, hrp⟩ := hinv.hcnv l hl
        exact ⟨r, List.mem_append_left _ hr, hrp⟩
    · refine ⟨_, List.mem_append_right _ (List.mem_singleton_self _), rfl⟩
    · intro x hx
      exact List.mem_append_left _ hx

end Gen

namespace Gen

/-- process_exon preserves the region invariant. -/
theorem process_exon_inv (rp : Nat) (st : GenState) (txpk : Nat) (nb : String) (ed : ExonData)
    (out : GenState) (hinv : RegionInv rp st)
    (hok : process_exon st txpk nb ed = Except.ok out) : RegionInv rp out := by
  rw [process_exon] at hok
  rw [(refLookup_builds rp st hinv.href).1] at hok
  simp only [bind, Except.bind, pure, Except.pure] at hok
  cases hg : get_or_create_region st ed.chrom "GRCh37" rp ed.start ed.end_ with
  | mk st2 rid =>
    rw [hg] at hok
    simp only [] at hok
    have H := get_or_create_region_inv rp st ed.chrom "GRCh37" rp ed.start ed.end_ hinv
      (Or.inl rfl) (by simp)
    rw [hg] at H
    simp only [] at H
    obtain ⟨Hinv, Hpk, _, _, _, _, _⟩ := H
    injection hok with hrec
    rw [← hrec]
    exact regioninv_add_exon rp st2 _ _ rfl rfl rfl rfl rfl rfl rfl Hpk Hinv

set_option maxHeartbeats 2000000 in
/-- process_transcript preserves the region invariant. -/
theorem process_transcript_inv (rp : Nat) (st : GenState) (cl : Option String)
    (gobj : GeneObj) (tx : String) (td : TxData) (out : GenState × GeneObj)
    (hinv : RegionInv rp st)
    (hok : process_transcript st cl gobj tx td = Except.ok out) : RegionInv rp out.1 := by
  rw [process_transcript] at hok
  cases h1 : orExcept (pySplit '.' tx).head? "IndexError: list index out of range" with
  | error e =>
    rw [h1] at hok
    simp only [bind, Except.bind] at hok
    exact absurd hok (by simp)
  | ok refseq =>
    rw [h1] at hok
    simp only [bind, Except.bind, pure, Except.pure] at hok
    cases h2 : orExcept ((pySplit '.' tx).drop 1).head? "IndexError: list index out of range" with
    | error e =>
      rw [h2] at hok
      exact absurd hok (by simp)
    | ok ver =>
      rw [h2] at hok
      simp only [] at hok
      split at hok
      · exact absurd hok (by simp)
      · next sfold heq =>
        have key : ∀ (s0 : GenState),
            td.exons.foldlM (fun s ex => process_exon s (st.pk.transcript + 1) ex.1 ex.2) s0 =
              Except.ok sfold → RegionInv rp s0 → RegionInv rp sfold :=
          fun s0 he h0 => foldlM_inv (RegionInv rp)
            (fun s ex => process_exon s (st.pk.transcript + 1) ex.1 ex.2)
            (fun s x o hP ho => process_exon_inv rp s (st.pk.transcript + 1) x.1 x.2 o hP ho)
            td.exons s0 sfold h0 he
        injection hok with hrec
        rw [← hrec]
        exact key _ heq (regioninv_of_eqs rp st _ rfl rfl rfl rfl rfl rfl rfl hinv)

end Gen

namespace Gen

set_option maxHeartbeats 2000000 in
/-- process_panel_gene preserves the region invariant. -/
theorem process_panel_gene_inv (rp : Nat) (st : GenState) (pid : Nat) (gene : String)
    (out : GenState) (hinv : RegionInv rp st)
    (hok : process_panel_gene st pid gene = Except.ok out) : RegionInv rp out := by
  rw [process_panel_gene] at hok
  cases hk : keyed? st.gene_dict gene with
  | error e =>
    rw [hk] at hok
    simp only [bind, Except.bind] at hok
    exact absurd hok (by simp)
  | ok gd =>
    rw [hk] at hok
    simp only [bind, Except.bind, pure, Except.pure] at hok
    cases hc : gd.check with
    | some gobj =>
      rw [hc] at hok
      simp only [] at hok
      injection hok with hrec
      rw [← hrec]
      exact regioninv_of_eqs rp st _ rfl rfl rfl rfl rfl rfl rfl hinv
    | none =>
      rw [hc] at hok
      simp only [] at hok
      split at hok
      · exact absurd hok (by simp)
      · next v heq =>
        have key : ∀ (p0 : GenState × GeneObj),
            gd.transcripts.foldlM
              (fun (p : GenState × GeneObj) t =>
                process_transcript p.1 gd.clinical p.2 t.1 t.2) p0 =
              Except.ok v → RegionInv rp p0.1 → RegionInv rp v.1 :=
          fun p0 he h0 => foldlM_inv (fun p : GenState × GeneObj => RegionInv rp p.1)
            (fun p t => process_transcript p.1 gd.clinical p.2 t.1 t.2)
            (fun s x o hP ho => process_transcript_inv rp s.1 gd.clinical s.2 x.1 x.2 o hP ho)
            gd.transcripts p0 v h0 he
        have hv1 : RegionInv rp v.1 :=
          key _ heq (regioninv_of_eqs rp st _ rfl rfl rfl rfl rfl rfl rfl hinv)
        obtain ⟨st2, gobj2⟩ := v
        simp only [] at hok
        injection hok with hrec
        rw [← hrec]
        exact regioninv_of_eqs rp st2 _ rfl rfl rfl rfl rfl rfl rfl hv1

/-- process_panel preserves the region invariant. -/
theorem process_panel_inv (rp : Nat) (st : GenState) (pid : Nat) (papp : String)
    (pe : GPanelEntry) (out : GenState) (hinv : RegionInv rp st)
    (hok : process_panel st pid papp pe = Except.ok out) : RegionInv rp out := by
  rw [process_panel] at hok
  have key : ∀ (s0 : GenState),
      pe.genes.foldlM (fun s g => process_panel_gene s pid g) s0 = Except.ok out →
      RegionInv rp s0 → RegionInv rp out :=
    fun s0 he h0 => foldlM_inv (RegionInv rp) (fun s g => process_panel_gene s pid g)
      (fun s x o hP ho => process_panel_gene_inv rp s pid x o hP ho) pe.genes s0 out h0 he
  exact key _ hok (regioninv_of_eqs rp st _ rfl rfl rfl rfl rfl rfl rfl hinv)

/-- process_panels preserves the region invariant. -/
theorem process_panels_inv (rp : Nat) (st : GenState)
    (pad : List (String × GPanelEntry)) (out : GenState) (hinv : RegionInv rp st)
    (hok : process_panels st pad = Except.ok out) : RegionInv rp out := by
  rw [process_panels] at hok
  simp only [bind, Except.bind, pure, Except.pure] at hok
  split at hok
  · exact absurd hok (by simp)
  · next r heq =>
    have hr : RegionInv rp r.1 := by
      refine foldlM_inv (fun p : GenState × Nat => RegionInv rp p.1) _ ?_ pad _ r ?_ heq
      · intro s x o hP ho
        split at ho
        · exact absurd ho (by simp)
        · next v hv =>
          injection ho with ho2
          rw [← ho2]
          exact process_panel_inv rp s.1 s.2 x.1 x.2 v hP hv
      · exact hinv
    injection hok with hrec
    rw [← hrec]
    exact hr

end Gen

namespace Gen

/-- process_superpanel_entry preserves the region invariant. -/
theorem process_superpanel_entry_inv (rp : Nat) (st : GenState) (sid2 : Nat) (sid : String)
    (sdata : SuperpanelEntry) (out : GenState)
    (hok : process_superpanel_entry st sid2 sid sdata = Except.ok out)
    (hinv : RegionInv rp st) : RegionInv rp out := by
  rw [process_superpanel_entry] at hok
  cases hm : sdata.subpanels.mapM (fun sub =>
      orExcept (((st.panel_json.filter (fun p => p.panelapp_id == sub.2.id)).map
        (fun p => p.pk)).head?) "IndexError: list index out of range") with
  | error e =>
    rw [hm] at hok
    simp only [bind, Except.bind] at hok
    exact absurd hok (by simp)
  | ok pks =>
    rw [hm] at hok
    simp only [bind, Except.bind, pure, Except.pure] at hok
    injection hok with hrec
    rw [← hrec]
    refine foldl_inv (RegionInv rp) _ ?_ pks _ ?_
    · intro s x hP
      exact regioninv_of_eqs rp s _ rfl rfl rfl rfl rfl rfl rfl hP
    · exact regioninv_of_eqs rp st _ rfl rfl rfl rfl rfl rfl rfl hinv

/-- process_superpanels preserves the region invariant. -/
theorem process_superpanels_inv (rp : Nat) (st : GenState)
    (pad : List (String × GPanelEntry)) (spd : List (String × SuperpanelEntry))
    (out : GenState) (hok : process_superpanels st pad spd = Except.ok out)
    (hinv : RegionInv rp st) : RegionInv rp out := by
  rw [process_superpanels] at hok
  simp only [bind, Except.bind, pure, Except.pure, throw, throwThe, MonadExceptOf.throw] at hok
  split at hok
  · exact absurd hok (by simp)
  · split at hok
    · exact absurd hok (by simp)
    · next r heq =>
      have hr : RegionInv rp r.1 := by
        refine foldlM_inv (fun p : GenState × Nat => RegionInv rp p.1) _ ?_ spd _ r ?_ heq
        · intro s x o hP ho
          split at ho
          · exact absurd ho (by simp)
          · next v hv =>
            injection ho with ho2
            rw [← ho2]
            exact process_superpanel_entry_inv rp s.1 s.2 x.1 x.2 v hv hP
        · exact hinv
      injection hok with hrec
      rw [← hrec]
      exact hr

/-- strRegionBlock preserves the region invariant. -/
theorem strRegionBlock_inv (rp : Nat) (st : GenState) (refname : String)
    (coords : String × Option String × Option String) (spk : Nat) (out : GenState)
    (hname : refname = "GRCh37" ∨ refname = "GRCh38")
    (hok : strRegionBlock st refname coords spk = Except.ok out)
    (hinv : RegionInv rp st) : RegionInv rp out := by
  rw [strRegionBlock] at hok
  rcases hname with rfl | rfl
  · rw [(refLookup_builds rp st hinv.href).1] at hok
    simp only [bind, Except.bind, pure, Except.pure] at hok
    cases hc1 : coords.2.1 with
    | none =>
      rw [hc1] at hok
      cases hc2 : coords.2.2 with
      | none =>
        rw [hc2] at hok
        simp only [] at hok
        injection hok with hrec
        rw [← hrec]
        exact hinv
      | some e0 =>
        rw [hc2] at hok
        simp only [] at hok
        injection hok with hrec
        rw [← hrec]
        exact hinv
    | some s0 =>
      rw [hc1] at hok
      cases hc2 : coords.2.2 with
      | none =>
        rw [hc2] at hok
        simp only [] at hok
        injection hok with hrec
        rw [← hrec]
        exact hinv
      | some e0 =>
        rw [hc2] at hok
        simp only [] at hok
        cases hg : get_or_create_region st coords.1 "GRCh37" rp s0 e0 with
        | mk st2 rid =>
          rw [hg] at hok
          simp only [] at hok
          have H := get_or_create_region_inv rp st coords.1 "GRCh37" rp s0 e0 hinv
            (Or.inl rfl) (by simp)
          rw [hg] at H
          simp only [] at H
          obtain ⟨Hinv, Hpk, _, _, _, _, _⟩ := H
          injection hok with hrec
          rw [← hrec]
          exact regioninv_add_regionstr rp st2 _ _ rfl rfl rfl rfl rfl rfl rfl Hpk Hinv
  · rw [(refLookup_builds rp st hinv.href).2] at hok
    simp only [bind, Except.bind, pure, Except.pure] at hok
    cases hc1 : coords.2.1 with
    | none =>
      rw [hc1] at hok
      cases hc2 : coords.2.2 with
      | none =>
        rw [hc2] at hok
        simp only [] at hok
        injection hok with hrec
        rw [← hrec]
        exact hinv
      | some e0 =>
        rw [hc2] at hok
        simp only [] at hok
        injection hok with hrec
        rw [← hrec]
        exact hinv
    | some s0 =>
      rw [hc1] at hok
      cases hc2 : coords.2.2 with
      | none =>
        rw [hc2] at hok
        simp only [] at hok
        injection hok with hrec
        rw [← hrec]
        exact hinv
      | some e0 =>
        rw [hc2] at hok
        simp only [] at hok
        cases hg : get_or_create_region st coords.1 "GRCh38" (rp + 1) s0 e0 with
        | mk st2 rid =>
          rw [hg] at hok
          simp only [] at hok
          have H := get_or_create_region_inv rp st coords.1 "GRCh38" (rp + 1) s0 e0 hinv
            (Or.inr rfl) (if_neg (by decide : ¬("GRCh38" : String) = "GRCh37")).symm
          rw [hg] at H
          simp only [] at H
          obtain ⟨Hinv, Hpk, _, _, _, _, _⟩ := H
          injection hok with hrec
          rw [← hrec]
          exact regioninv_add_regionstr rp st2 _ _ rfl rfl rfl rfl rfl rfl rfl Hpk Hinv

end Gen

namespace Gen

/-- cnvRegionBlock preserves the region invariant. -/
theorem cnvRegionBlock_inv (rp : Nat) (st : GenState) (refname : String)
    (coords : String × Option String × Option String) (cpk : Nat) (out : GenState)
    (hname : refname = "GRCh37" ∨ refname = "GRCh38")
    (hok : cnvRegionBlock st refname coords cpk = Except.ok out)
    (hinv : RegionInv rp st) : RegionInv rp out := by
  rw [cnvRegionBlock] at hok
  rcases hname with rfl | rfl
  · rw [(refLookup_builds rp st hinv.href).1] at hok
    simp only [bind, Except.bind, pure, Except.pure] at hok
    cases hc1 : coords.2.1 with
    | none =>
      rw [hc1] at hok
      cases hc2 : coords.2.2 with
      | none =>
        rw [hc2] at hok
        simp only [] at hok
        injection hok with hrec
        rw [← hrec]
        exact hinv
      | some e0 =>
        rw [hc2] at hok
        simp only [] at hok
        injection hok with hrec
        rw [← hrec]
        exact hinv
    | some s0 =>
      rw [hc1] at hok
      cases hc2 : coords.2.2 with
      | none =>
        rw [hc2] at hok
        simp only [] at hok
        injection hok with hrec
        rw [← hrec]
        exact hinv
      | some e0 =>
        rw [hc2] at hok
        simp only [] at hok
        cases hg : get_or_create_region st coords.1 "GRCh37" rp s0 e0 with
        | mk st2 rid =>
          rw [hg] at hok
          simp only [] at hok
          have H := get_or_create_region_inv rp st coords.1 "GRCh37" rp s0 e0 hinv
            (Or.inl rfl) (by simp)
          rw [hg] at H
          simp only [] at H
          obtain ⟨Hinv, Hpk, _, _, _, _, _⟩ := H
          injection hok with hrec
          rw [← hrec]
          exact regioninv_add_regioncnv rp st2 _ _ rfl rfl rfl rfl rfl rfl rfl Hpk Hinv
  · rw [(refLookup_builds rp st hinv.href).2] at hok
    simp only [bind, Except.bind, pure, Except.pure] at hok
    cases hc1 : coords.2.1 with
    | none =>
      rw [hc1] at hok
      cases hc2 : coords.2.2 with
      | none =>
        rw [hc2] at hok
        simp only [] at hok
        injection hok with hrec
        rw [← hrec]
        exact hinv
      | some e0 =>
        rw [hc2] at hok
        simp only [] at hok
        injection hok with hrec
        rw [← hrec]
        exact hinv
    | some s0 =>
      rw [hc1] at hok
      cases hc2 : coords.2.2 with
      | none =>
        rw [hc2] at hok
        simp only [] at hok
        injection hok with hrec
        rw [← hrec]
        exact hinv
      | some e0 =>
        rw [hc2] at hok
        simp only [] at hok
        cases hg : get_or_create_region st coords.1 "GRCh38" (rp + 1) s0 e0 with
        | mk st2 rid =>
          rw [hg] at hok
          simp only [] at hok
          have H := get_or_create_region_inv rp st coords.1 "GRCh38" (rp + 1) s0 e0 hinv
            (Or.inr rfl) (if_neg (by decide : ¬("GRCh38" : String) = "GRCh37")).symm
          rw [hg] at H
          simp only [] at H
          obtain ⟨Hinv, Hpk, _, _, _, _, _⟩ := H
          injection hok with hrec
          rw [← hrec]
          exact regioninv_add_regioncnv rp st2 _ _ rfl rfl rfl rfl rfl rfl rfl Hpk Hinv

end Gen

namespace Gen

set_option maxHeartbeats 2000000 in
/-- process_panel_str preserves the region invariant. -/
theorem process_panel_str_inv (rp : Nat) (st : GenState) (ppk : Nat) (sname : String)
    (out : GenState) (hok : process_panel_str st ppk sname = Except.ok out)
    (hinv : RegionInv rp st) : RegionInv rp out := by
  rw [process_panel_str] at hok
  cases hk : keyed? st.str_dict sname with
  | error e =>
    rw [hk] at hok
    simp only [bind, Except.bind] at hok
    exact absurd hok (by simp)
  | ok sdat =>
    rw [hk] at hok
    simp only [bind, Except.bind, pure, Except.pure] at hok
    cases hc : sdat.check with
    | some sobj =>
      rw [hc] at hok
      simp only [] at hok
      injection hok with hrec
      rw [← hrec]
      exact regioninv_of_eqs rp st _ rfl rfl rfl rfl rfl rfl rfl hinv
    | none =>
      rw [hc] at hok
      simp only [] at hok
      split at hok
      · exact absurd hok (by simp)
      · next s1 h1 =>
        split at hok
        · exact absurd hok (by simp)
        · next s2 h2 =>
          have hs1 : RegionInv rp s1 :=
            strRegionBlock_inv rp _ "GRCh37" sdat.grch37 _ s1 (Or.inl rfl) h1
              (regioninv_of_eqs rp st _ rfl rfl rfl rfl rfl rfl rfl hinv)
          have hs2 : RegionInv rp s2 :=
            strRegionBlock_inv rp s1 "GRCh38" sdat.grch38 _ s2 (Or.inr rfl) h2 hs1
          injection hok with hrec
          rw [← hrec]
          exact regioninv_of_eqs rp s2 _ rfl rfl rfl rfl rfl rfl rfl hs2

set_option maxHeartbeats 2000000 in
/-- process_panel_cnv preserves the region invariant. -/
theorem process_panel_cnv_inv (rp : Nat) (st : GenState) (ppk : Nat) (cname : String)
    (out : GenState) (hok : process_panel_cnv st ppk cname = Except.ok out)
    (hinv : RegionInv rp st) : RegionInv rp out := by
  rw [process_panel_cnv] at hok
  cases hk : keyed? st.cnv_dict cname with
  | error e =>
    rw [hk] at hok
    simp only [bind, Except.bind] at hok
    exact absurd hok (by simp)
  | ok cdat =>
    rw [hk] at hok
    simp only [bind, Except.bind, pure, Except.pure] at hok
    cases hc : cdat.check with
    | some cobj =>
      rw [hc] at hok
      simp only [] at hok
      injection hok with hrec
      rw [← hrec]
      exact regioninv_of_eqs rp st _ rfl rfl rfl rfl rfl rfl rfl hinv
    | none =>
      rw [hc] at hok
      simp only [] at hok
      split at hok
      · exact absurd hok (by simp)
      · next s1 h1 =>
        split at hok
        · exact absurd hok (by simp)
        · next s2 h2 =>
          have hs1 : RegionInv rp s1 :=
            cnvRegionBlock_inv rp _ "GRCh37" cdat.grch37 _ s1 (Or.inl rfl) h1
              (regioninv_of_eqs rp st _ rfl rfl rfl rfl rfl rfl rfl hinv)
          have hs2 : RegionInv rp s2 :=
            cnvRegionBlock_inv rp s1 "GRCh38" cdat.grch38 _ s2 (Or.inr rfl) h2 hs1
          injection hok with hrec
          rw [← hrec]
          exact regioninv_of_eqs rp s2 _ rfl rfl rfl rfl rfl rfl rfl hs2

/-- process_panel_strs_cnvs preserves the region invariant. -/
theorem process_panel_strs_cnvs_inv (rp : Nat) (st : GenState) (papp : String)
    (pe : GPanelEntry) (out : GenState)
    (hok : process_panel_strs_cnvs st papp pe = Except.ok out)
    (hinv : RegionInv rp st) : RegionInv rp out := by
  rw [process_panel_strs_cnvs] at hok
  cases horx : orExcept (((st.panel_json.filter (fun p => p.panelapp_id == papp)).map
      (fun p => p.pk)).head?) "IndexError: list index out of range" with
  | error e =>
    rw [horx] at hok
    simp only [bind, Except.bind] at hok
    exact absurd hok (by simp)
  | ok ppk =>
    rw [horx] at hok
    simp only [bind, Except.bind, pure, Except.pure] at hok
    split at hok
    · exact absurd hok (by simp)
    · next s1 h1 =>
      have hs1 : RegionInv rp s1 := by
        refine foldlM_inv (RegionInv rp) _ ?_ pe.strs _ s1 ?_ h1
        · intro s x o hP ho
          exact process_panel_str_inv rp s ppk x o ho hP
        · exact hinv
      refine foldlM_inv (RegionInv rp) _ ?_ pe.cnvs _ out ?_ hok
      · intro s x o hP ho
        exact process_panel_cnv_inv rp s ppk x o ho hP
      · exact hs1

end Gen

namespace Gen

set_option maxHeartbeats 2000000 in
/-- process_test preserves the region invariant. -/
theorem process_test_inv (rp : Nat) (ci_dict : List (String × String)) (today : String)
    (st : GenState) (tpk : Nat) (test : String) (tt : TestTargets) (out : GenState)
    (hok : process_test ci_dict today st tpk test tt = Except.ok out)
    (hinv : RegionInv rp st) : RegionInv rp out := by
  rw [process_test] at hok
  simp only [bind, Except.bind, pure, Except.pure, throw, throwThe, MonadExceptOf.throw] at hok
  split at hok
  case _ a b hsp =>
    cases hkd : keyed? ci_dict a with
    | error e =>
      rw [hkd] at hok
      exact absurd hok (by simp)
    | ok name =>
      rw [hkd] at hok
      simp only [] at hok
      injection hok with hrec
      rw [← hrec]
      refine foldl_inv (RegionInv rp) _ ?_ tt.genes _ ?_
      · intro s x hP
        cases hm : ((s.gene_json.filter (fun g => g.symbol == x)).map (fun g => g.pk)).head? with
        | none =>
          simpa [hm] using hP
        | some gpk =>
          have := regioninv_of_eqs rp s
            { s with pk := { s.pk with testgene := s.pk.testgene + 1 },
                     testgene_json := s.testgene_json ++
                       [{ pk := s.pk.testgene + 1, test := tpk, gene := gpk }] }
            rfl rfl rfl rfl rfl rfl rfl hP
          simpa [hm] using this
      · refine foldl_inv (RegionInv rp) _ ?_ tt.panels _ ?_
        · intro s x hP
          cases hm : ((s.panel_json.filter (fun p => p.panelapp_id == x)).map
              (fun p => p.pk)).head? with
          | none =>
            simpa [hm] using hP
          | some ppk =>
            have := regioninv_of_eqs rp s
              { s with pk := { s.pk with testpanel := s.pk.testpanel + 1 },
                       testpanel_json := s.testpanel_json ++
                         [{ pk := s.pk.testpanel + 1, test := tpk, panel := ppk }] }
              rfl rfl rfl rfl rfl rfl rfl hP
            simpa [hm] using this
        · exact regioninv_of_eqs rp st _ rfl rfl rfl rfl rfl rfl rfl hinv
  all_goals exact absurd hok (by simp)

end Gen

/-- In a list whose keys are duplicate-free, two members with the same key
are the same entry. -/
theorem nodup_keys_eq {α β : Type} (l : List (α × β)) (h : (l.map Prod.fst).Nodup)
    (kv1 kv2 : α × β) (h1 : kv1 ∈ l) (h2 : kv2 ∈ l) (heq : kv1.1 = kv2.1) : kv1 = kv2 := by
  induction l with
  | nil => cases h1
  | cons x xs ih =>
    rw [List.map_cons, List.nodup_cons] at h
    obtain ⟨hx, hxs⟩ := h
    rcases List.mem_cons.mp h1 with rfl | h1b <;> rcases List.mem_cons.mp h2 with rfl | h2b
    · rfl
    · have hm : kv2.1 ∈ xs.map Prod.fst := List.mem_map_of_mem Prod.fst h2b
      rw [← heq] at hm
      exact absurd hm hx
    · have hm : kv1.1 ∈ xs.map Prod.fst := List.mem_map_of_mem Prod.fst h1b
      rw [heq] at hm
      exact absurd hm hx
    · exact ih hxs h1b h2b

namespace Gen

/-- The region invariant implies region uniqueness per coordinates and
reference. -/
theorem regioninv_unique (rp : Nat) (st : GenState) (hinv : RegionInv rp st) :
    ∀ r1 ∈ st.region_json, ∀ r2 ∈ st.region_json,
    r1.chrom = r2.chrom → r1.start = r2.start → r1.end_ = r2.end_ →
    r1.reference = r2.reference → r1 = r2 := by
  intro r1 h1 r2 h2 hc hs he hrf
  obtain ⟨kv1, hkv1, hkv1e⟩ := hinv.hjson r1 h1
  obtain ⟨kv2, hkv2, hkv2e⟩ := hinv.hjson r2 h2
  obtain ⟨_, hc1, hs1, he1, hn1, hr1⟩ := hinv.hdict kv1 hkv1
  obtain ⟨_, hc2, hs2, he2, hn2, hr2⟩ := hinv.hdict kv2 hkv2
  rw [hkv1e] at hc1 hs1 he1 hr1
  rw [hkv2e] at hc2 hs2 he2 hr2
  have hname : kv1.1.2.1 = kv2.1.2.1 := by
    rcases hn1 with h37a | h38a <;> rcases hn2 with h37b | h38b
    · rw [h37a, h37b]
    · rw [h37a, if_pos rfl] at hr1
      rw [h38b, if_neg (by decide : ¬("GRCh38" : String) = "GRCh37")] at hr2
      rw [hr1, hr2] at hrf
      omega
    · rw [h38a, if_neg (by decide : ¬("GRCh38" : String) = "GRCh37")] at hr1
      rw [h37b, if_pos rfl] at hr2
      rw [hr1, hr2] at hrf
      omega
    · rw [h38a, h38b]
  have e1 : kv1.1.1 = kv2.1.1 := by
    rw [← hc1, ← hc2, hc]
  have e3 : kv1.1.2.2.1 = kv2.1.2.2.1 := by
    rw [← hs1, ← hs2, hs]
  have e4 : kv1.1.2.2.2 = kv2.1.2.2.2 := by
    rw [← he1, ← he2, he]
  have hkey : kv1.1 = kv2.1 :=
    Prod.ext_iff.mpr ⟨e1, Prod.ext_iff.mpr ⟨hname, Prod.ext_iff.mpr ⟨e3, e4⟩⟩⟩
  have hkveq : kv1 = kv2 := nodup_keys_eq _ hinv.hkeys kv1 kv2 hkv1 hkv2 hkey
  rw [← hkv1e, ← hkv2e, hkveq]

end Gen

set_option maxHeartbeats 2000000 in
/-- C3: a successful create_django_json run started with an empty region
memo emits at most one Region row per distinct (chromosome, start, end,
reference build) with pairwise distinct Region primary keys, and every Exon
row, RegionStr link and RegionCnv link references the primary key of an
emitted Region row. -/
theorem C3_region_uniqueness (today : String) (ci_dict : List (String × String))
    (t2t : List (String × Gen.TestTargets)) (pad : List (String × Gen.GPanelEntry))
    (spd : List (String × SuperpanelEntry)) (gd : List (String × Gen.GeneData))
    (sd : List (String × Gen.StrData)) (cd : List (String × Gen.CnvData))
    (pk : Gen.PkCounters) (st : Gen.GenState)
    (hok : Gen.create_django_json today ci_dict t2t pad spd gd sd cd [] pk = Except.ok st) :
    (st.region_json.map (fun r => r.pk)).Nodup
    ∧ (∀ r1 ∈ st.region_json, ∀ r2 ∈ st.region_json,
        r1.chrom = r2.chrom → r1.start = r2.start → r1.end_ = r2.end_ →
        r1.reference = r2.reference → r1 = r2)
    ∧ (∀ e ∈ st.exon_json, ∃ r ∈ st.region_json, r.pk = e.region)
    ∧ (∀ l ∈ st.regionstr_json, ∃ r ∈ st.region_json, r.pk = l.region)
    ∧ (∀ l ∈ st.regioncnv_json, ∃ r ∈ st.region_json, r.pk = l.region) := by
  have hfinal : Gen.RegionInv pk.reference st := by
    rw [Gen.create_django_json] at hok
    simp only [bind, Except.bind, pure, Except.pure] at hok
    split at hok
    · exact absurd hok (by simp)
    · next st1 h1 =>
      split at hok
      · exact absurd hok (by simp)
      · next st2 h2 =>
        split at hok
        · exact absurd hok (by simp)
        · next st3 h3 =>
          split at hok
          · exact absurd hok (by simp)
          · next r h4 =>
            injection hok with hrec
            rw [← hrec]
            have hinv1 : Gen.RegionInv pk.reference st1 := by
              refine Gen.process_panels_inv pk.reference _ pad st1 ?_ h1
              refine ⟨rfl, ?_, ?_, ?_, ?_, ?_, ?_, ?_, ?_⟩ <;> simp
            have hinv2 : Gen.RegionInv pk.reference st2 :=
              Gen.process_superpanels_inv pk.reference st1 pad spd st2 h2 hinv1
            have hinv3 : Gen.RegionInv pk.reference st3 := by
              refine foldlM_inv (Gen.RegionInv pk.reference) _ ?_ pad st2 st3 hinv2 h3
              intro s x o hP ho
              exact Gen.process_panel_strs_cnvs_inv pk.reference s x.1 x.2 o ho hP
            have hr : Gen.RegionInv pk.reference r.1 := by
              refine foldlM_inv (fun p : Gen.GenState × Nat => Gen.RegionInv pk.reference p.1)
                _ ?_ t2t _ r ?_ h4
              · intro s x o hP ho
                split at ho
                · exact absurd ho (by simp)
                · next v hv =>
                  injection ho with ho2
                  rw [← ho2]
                  exact Gen.process_test_inv pk.reference ci_dict today s.1 s.2 x.1 x.2 v hv hP
              · exact hinv3
            exact hr
  exact ⟨hfinal.hnodup, Gen.regioninv_unique pk.reference st hfinal,
    hfinal.hexon, hfinal.hstr, hfinal.hcnv⟩

def padC3 : List (String × Gen.GPanelEntry) :=
  [("111", { name := "P", version := "1", signedoff := "20200101", genes := ["G1"] })]

def exC3 : Gen.ExonData := { chrom := "1", start := "100", end_ := "200" }

def gdC3 : List (String × Gen.GeneData) :=
  [("G1", { hgnc_id := "HGNC:1", clinical := none,
            transcripts := [("NM1.1", { exons := [("1", exC3)] }),
                            ("NM2.1", { exons := [("1", exC3)] })] })]
def runC3 : Except String Gen.GenState :=
  Gen.create_django_json "2020-01-01" [] [] padC3 [] gdC3 [] [] [] {}

def outC3 : Gen.GenState :=
  match runC3 with
  | Except.ok s => s
  | Except.error _ => {}

/-- Witness for C3: one panel gene with two transcripts sharing exon
coordinates yields a single Region row that both Exon rows reference. -/
theorem C3_region_uniqueness_witness :
    (outC3.region_json.map (fun r => r.pk)).Nodup
    ∧ (∀ r1 ∈ outC3.region_json, ∀ r2 ∈ outC3.region_json,
        r1.chrom = r2.chrom → r1.start = r2.start → r1.end_ = r2.end_ →
        r1.reference = r2.reference → r1 = r2)
    ∧ (∀ e ∈ outC3.exon_json, ∃ r ∈ outC3.region_json, r.pk = e.region)
    ∧ (∀ l ∈ outC3.regionstr_json, ∃ r ∈ outC3.region_json, r.pk = l.region)
    ∧ (∀ l ∈ outC3.regioncnv_json, ∃ r ∈ outC3.region_json, r.pk = l.region) :=
  C3_region_uniqueness "2020-01-01" [] [] padC3 [] gdC3 [] [] {} outC3 (by rfl)
